import Mathlib

/-!
Achievement aggregation of the f2p-buddy backend.

A shallow embedding of the handlers `getLeaderboard`
(`backend/handlers_achievements.go`), `getOrganizationAnalytics` and
`getCampaignAnalytics` (`backend/handlers_analytics.go`), of the handlers that
write, `createAchievement`, `verifyAchievement`, `createCampaign`,
`updateCampaign`, `participateInCampaign` and `createOrUpdateUser`, and of the
routes and the middleware of `backend/main.go`.

Modelling conventions.

* The document store is a value of type `Store`: three collections, each a list
  of documents in the order in which a query returns them. A document carries
  its id, its fields, and whether `DataTo` decodes it into the Go struct.
  Transport failures of the store are outside this state; `Transport` adds
  them for the iterators of `getLeaderboard` and `getOrganizationAnalytics`,
  whose handlers over a transport return `none` when a loop never ends.
* `float64` scores are taken as exact integers (`Score`): sums and comparisons
  of integral values below `2^53` are exact in `float64`; rounding and NaN are
  not modelled. `getLeaderboardIn` is the handler with the addition and the
  comparison of scores as parameters (`Arithmetic`), of which nothing is
  assumed.
* `getLeaderboardJSON` keeps the slice that is encoded apart from its list of
  elements: a nil slice is written as `null`, an empty one as `[]`.
* A Go map `map[string]*LeaderboardEntry` is the list of its entries in
  insertion order; the key of an entry is its `userID`, as in the source, where
  every entry is stored under `achievement.UserID` with `UserID` set to it.
* The order in which `range` visits a map and the result of `sort.Slice` are
  choices of the Go runtime: they are the two fields of `Runtime`.
* A handler that writes returns its answer together with the store it leaves.
  Time stamps are left out, the id Firestore gives an added document is a
  parameter, and a request body is the struct `ShouldBindJSON` bound, `none`
  when binding fails.
-/

namespace F2P

/-- Scores and achievement values (`float64` in the source). -/
abbrev Score := Int

/-- The `User` struct of `handlers_auth.go` (time stamps left out). -/
structure User where
  uid : String
  phoneNumber : String
  role : String
  organizationID : String
  displayName : String
deriving DecidableEq, Repr

/-- The `Campaign` struct of `handlers_campaigns.go` (the fields the handlers read). -/
structure Campaign where
  name : String
  participants : List String
  orgID : String
  createdBy : String
  status : String
deriving DecidableEq, Repr

/-- The `Achievement` struct of `handlers_achievements.go`. -/
structure Achievement where
  userID : String
  campaignID : String
  type : String
  value : Score
  dateAchieved : String
  verified : Bool
  verifiedBy : String
deriving DecidableEq, Repr

/-- The `LeaderboardEntry` struct of `handlers_achievements.go`. -/
structure LeaderboardEntry where
  userID : String
  displayName : String
  totalScore : Score
  achievements : Nat
  position : Nat
deriving DecidableEq, Repr

/-- A stored document: its id (`doc.Ref.ID`), its fields, and whether
`DataTo` succeeds on it. -/
structure Doc (α : Type) where
  id : String
  data : α
  decodes : Bool
deriving DecidableEq, Repr

/-- The three collections the handlers read. -/
structure Store where
  users : List (Doc User)
  campaigns : List (Doc Campaign)
  achievements : List (Doc Achievement)
deriving DecidableEq, Repr

/-- What a handler writes with `c.JSON`: status 200 with a body, or an error
status with its message. -/
inductive Response (β : Type) where
  | ok (body : β)
  | error (status : Nat) (message : String)
deriving DecidableEq, Repr

/-- The body `gin.H{"leaderboard": ..., "count": ...}`. -/
structure LeaderboardBody where
  leaderboard : List LeaderboardEntry
  count : Nat
deriving DecidableEq, Repr

/-- The two choices the Go runtime makes for the handlers: the order in which
`range` yields the entries of a map, and the slice `sort.Slice` leaves behind
for a given `less`. -/
structure Runtime where
  mapRange : List LeaderboardEntry → List LeaderboardEntry
  sortSlice : (LeaderboardEntry → LeaderboardEntry → Bool) →
    List LeaderboardEntry → List LeaderboardEntry

/-- `Collection("users").Doc(uid).Get(ctx)`: the user document, `none` when
the call returns an error (no such document). -/
def getUserDoc (s : Store) (uid : String) : Option (Doc User) :=
  s.users.find? (fun d => d.id == uid)

/-- The ids of `Collection("campaigns").Where("orgId", "==", orgID)`, as
`getLeaderboard` collects them (lines 319-335: no decoding). -/
def campaignIDsOf (s : Store) (orgID : String) : List String :=
  (s.campaigns.filter (fun d => d.data.orgID == orgID)).map (fun d => d.id)

/-- The documents of `Collection("achievements").Where("campaignId", "==",
campaignID).Where("verified", "==", true)`. -/
def verifiedAchievementDocs (s : Store) (campaignID : String) : List (Doc Achievement) :=
  s.achievements.filter (fun d => d.data.campaignID == campaignID && d.data.verified == true)

/-- The entry stored for a user seen for the first time (lines 373-377). -/
def newEntry (a : Achievement) : LeaderboardEntry :=
  { userID := a.userID, displayName := "", totalScore := a.value,
    achievements := 1, position := 0 }

/-- The update of an existing entry (lines 370-371). -/
def bumpEntry (e : LeaderboardEntry) (a : Achievement) : LeaderboardEntry :=
  { e with totalScore := e.totalScore + a.value, achievements := e.achievements + 1 }

/-- The body of the achievements loop on one decoded achievement
(lines 369-378): update the entry under `a.userID`, or insert one. -/
def addAchievement : List LeaderboardEntry → Achievement → List LeaderboardEntry
  | [], a => [newEntry a]
  | e :: m, a =>
    if e.userID = a.userID then bumpEntry e a :: m else e :: addAchievement m a

/-- One step of the achievements loop (lines 355-379): a document that does
not decode is skipped. -/
def addDoc (m : List LeaderboardEntry) (d : Doc Achievement) : List LeaderboardEntry :=
  if d.decodes then addAchievement m d.data else m

/-- The loop over `campaignIDs` (lines 348-380), from a given map. -/
def accumulateScores (s : Store) (campaignIDs : List String)
    (m : List LeaderboardEntry) : List LeaderboardEntry :=
  campaignIDs.foldl (fun m cid => (verifiedAchievementDocs s cid).foldl addDoc m) m

/-- The body of the display-name loop of `getLeaderboard` (lines 384-395)
on one entry: a failed fetch or decode leaves the entry as it is. -/
def resolveName (s : Store) (e : LeaderboardEntry) : LeaderboardEntry :=
  match getUserDoc s e.userID with
  | none => e
  | some userDoc =>
    if userDoc.decodes then
      { e with displayName :=
          if userDoc.data.displayName = "" then "Unknown User" else userDoc.data.displayName }
    else e

/-- The `less` closure given to `sort.Slice` (line 405). -/
def scoreLess (a b : LeaderboardEntry) : Bool := decide (a.totalScore > b.totalScore)

/-- The position loop (lines 409-411), counting from index `i`. -/
def assignPositionsFrom : Nat → List LeaderboardEntry → List LeaderboardEntry
  | _, [] => []
  | i, e :: l => { e with position := i + 1 } :: assignPositionsFrom (i + 1) l

/-- The position loop (lines 409-411). -/
def assignPositions (l : List LeaderboardEntry) : List LeaderboardEntry :=
  assignPositionsFrom 0 l

/-- The truncation `if len(x) > n { x = x[:n] }`. -/
def limitTo {α : Type} (n : Nat) (l : List α) : List α :=
  if l.length > n then l.take n else l

/-- The slice of lines 398-411: entries of the map in range order, sorted,
with positions. -/
def rankedEntries (rt : Runtime) (s : Store) (orgID : String) : List LeaderboardEntry :=
  let userScores := accumulateScores s (campaignIDsOf s orgID) []
  let userScores := userScores.map (resolveName s)
  let leaderboard := rt.mapRange userScores
  let leaderboard := rt.sortSlice scoreLess leaderboard
  assignPositions leaderboard

/-- The handler `getLeaderboard` (lines 287-422). `uid` is `c.Get("uid")`,
`orgID` is `c.Param("orgId")`. -/
def getLeaderboard (rt : Runtime) (s : Store) (uid : Option String) (orgID : String) :
    Response LeaderboardBody :=
  if orgID = "" then .error 400 "Organization ID is required" else
  match uid with
  | none => .error 401 "User not authenticated"
  | some uid =>
    match getUserDoc s uid with
    | none => .error 500 "Failed to check user"
    | some userDoc =>
      if userDoc.decodes = false then .error 500 "Failed to parse user data" else
      if userDoc.data.organizationID ≠ orgID then .error 403 "Access denied" else
      if (campaignIDsOf s orgID).length = 0 then .ok { leaderboard := [], count := 0 } else
      let leaderboard := limitTo 50 (rankedEntries rt s orgID)
      .ok { leaderboard := leaderboard, count := leaderboard.length }

/-- The insertion step of Go's `insertionSortLessFunc`: `x` is appended to the
sorted prefix and swapped to the left while `less x prev`. The prefix is held
reversed (last element first). -/
def bubbleLeft {α : Type} (less : α → α → Bool) (x : α) : List α → List α
  | [] => [x]
  | y :: rest => if less x y then y :: bubbleLeft less x rest else x :: y :: rest

/-- Go's `insertionSortLessFunc`, which is all that `sort.Slice` runs on a
short slice (one of two elements in every Go release, of up to 12 elements
since Go 1.19). -/
def insertionSortLessFunc {α : Type} (less : α → α → Bool) (l : List α) : List α :=
  (l.foldl (fun acc x => bubbleLeft less x acc) []).reverse

/-- A runtime that ranges a map in insertion order. -/
def rtInsertionOrder : Runtime :=
  { mapRange := fun m => m, sortSlice := insertionSortLessFunc }

/-- A runtime that ranges a map in the reverse of insertion order. -/
def rtReverseOrder : Runtime :=
  { mapRange := fun m => m.reverse, sortSlice := insertionSortLessFunc }

/-- The `MonthlyPerformance` struct of `handlers_analytics.go`. -/
structure MonthlyPerformance where
  month : String
  sales : Score
  calls : Int
  meetings : Int
deriving DecidableEq, Repr

/-- The `AchievementTypeBreakdown` struct of `handlers_analytics.go`. -/
structure AchievementTypeBreakdown where
  name : String
  value : Nat
  color : String
deriving DecidableEq, Repr

/-- The `OrganizationAnalytics` struct of `handlers_analytics.go`; the
`float64` rate is an exact rational. -/
structure OrganizationAnalytics where
  totalEmployees : Nat
  activeCampaigns : Nat
  totalAchievements : Nat
  completionRate : ℚ
  performanceData : List MonthlyPerformance
  achievementTypes : List AchievementTypeBreakdown
  topPerformers : List LeaderboardEntry
deriving DecidableEq, Repr

/-- The employees loop (lines 93-109): the number of documents of
`Collection("users").Where("organizationId", "==", orgID)`. -/
def employeeCount (s : Store) (orgID : String) : Nat :=
  (s.users.filter (fun d => d.data.organizationID == orgID)).length

/-- The campaign documents the campaigns loop of `getOrganizationAnalytics`
keeps (lines 121-140): those of the organization that decode. -/
def decodedCampaignDocs (s : Store) (orgID : String) : List (Doc Campaign) :=
  (s.campaigns.filter (fun d => d.data.orgID == orgID)).filter (fun d => d.decodes)

/-- The map `achievementTypeCount` at its creation (lines 145-150). -/
def initialTypeCount : List (String × Nat) :=
  [("sales", 0), ("calls", 0), ("meetings", 0), ("referrals", 0)]

/-- The statement `achievementTypeCount[t]++` on a map held as a list of
key-value pairs: a missing key is inserted with count 1. -/
def incrementType : List (String × Nat) → String → List (String × Nat)
  | [], t => [(t, 1)]
  | (k, n) :: m, t => if k = t then (k, n + 1) :: m else (k, n) :: incrementType m t

/-- The read `achievementTypeCount[t]`: 0 for a missing key. -/
def typeCountAt : List (String × Nat) → String → Nat
  | [], _ => 0
  | (k, n) :: m, t => if k = t then n else typeCountAt m t

/-- One step of the counting loop (lines 159-175) on the pair
`(totalAchievements, achievementTypeCount)`. -/
def countDoc (acc : Nat × List (String × Nat)) (d : Doc Achievement) :
    Nat × List (String × Nat) :=
  if d.decodes then (acc.1 + 1, incrementType acc.2 d.data.type) else acc

/-- The counting loop over `campaignIDs` (lines 152-176). -/
def countAchievements (s : Store) (campaignIDs : List String) : Nat × List (String × Nat) :=
  campaignIDs.foldl (fun acc cid => (verifiedAchievementDocs s cid).foldl countDoc acc)
    (0, initialTypeCount)

/-- `Collection("campaigns").Doc(campaignID).Get(ctx)`. -/
def getCampaignDoc (s : Store) (campaignID : String) : Option (Doc Campaign) :=
  s.campaigns.find? (fun d => d.id == campaignID)

/-- The loop of lines 182-194: the number of `campaignIDs` whose document is
fetched, decodes, and has status `completed`. -/
def completedCampaigns (s : Store) (campaignIDs : List String) : Nat :=
  (campaignIDs.filter (fun cid =>
    match getCampaignDoc s cid with
    | none => false
    | some d => d.decodes && d.data.status == "completed")).length

/-- The literal series of lines 199-206. -/
def mockPerformanceData : List MonthlyPerformance :=
  [⟨"Jan", 45000, 320, 45⟩, ⟨"Feb", 52000, 380, 52⟩, ⟨"Mar", 48000, 350, 48⟩,
   ⟨"Apr", 61000, 420, 61⟩, ⟨"May", 55000, 390, 55⟩, ⟨"Jun", 67000, 450, 67⟩]

/-- The body of the display-name loop of `getOrganizationAnalytics`
(lines 255-269) on one entry: `none` where the loop continues without
appending. -/
def resolvePerformer (s : Store) (e : LeaderboardEntry) : Option LeaderboardEntry :=
  match getUserDoc s e.userID with
  | none => none
  | some userDoc =>
    if userDoc.decodes then
      some { e with displayName :=
          if userDoc.data.displayName = "" then "Unknown User" else userDoc.data.displayName }
    else none

/-- The slice `topPerformers` of lines 216-275. -/
def topPerformersOf (rt : Runtime) (s : Store) (campaignIDs : List String) :
    List LeaderboardEntry :=
  let userScores := accumulateScores s campaignIDs []
  let topPerformers := (rt.mapRange userScores).filterMap (resolvePerformer s)
  limitTo 5 topPerformers

/-- The handler `getOrganizationAnalytics` (lines 59-278). -/
def getOrganizationAnalytics (rt : Runtime) (s : Store) (uid : Option String)
    (orgID : String) : Response OrganizationAnalytics :=
  if orgID = "" then .error 400 "Organization ID is required" else
  match uid with
  | none => .error 401 "User not authenticated"
  | some uid =>
    match getUserDoc s uid with
    | none => .error 500 "Failed to check user"
    | some userDoc =>
      if userDoc.decodes = false then .error 500 "Failed to parse user data" else
      if userDoc.data.organizationID ≠ orgID then .error 403 "Access denied" else
      let campaigns := decodedCampaignDocs s orgID
      let totalCampaigns := campaigns.length
      let campaignIDs := campaigns.map (fun d => d.id)
      let activeCampaigns := (campaigns.filter (fun d => d.data.status == "active")).length
      let counts := countAchievements s campaignIDs
      let achievementTypeCount := counts.2
      let completionRate : ℚ :=
        if totalCampaigns > 0 then
          ((completedCampaigns s campaignIDs : ℚ) / (totalCampaigns : ℚ)) * 100
        else 0
      .ok { totalEmployees := employeeCount s orgID
            activeCampaigns := activeCampaigns
            totalAchievements := counts.1
            completionRate := completionRate
            performanceData := mockPerformanceData
            achievementTypes :=
              [⟨"Sales", typeCountAt achievementTypeCount "sales", "#28a745"⟩,
               ⟨"Calls", typeCountAt achievementTypeCount "calls", "#17a2b8"⟩,
               ⟨"Meetings", typeCountAt achievementTypeCount "meetings", "#ffc107"⟩,
               ⟨"Referrals", typeCountAt achievementTypeCount "referrals", "#fd7e14"⟩]
            topPerformers := topPerformersOf rt s campaignIDs }

/-! ## Concrete stores -/

/-- A user document that decodes. -/
def mkUser (uid org name : String) : Doc User :=
  { id := uid, decodes := true,
    data := { uid := uid, phoneNumber := "", role := "employee",
              organizationID := org, displayName := name } }

/-- A campaign document that decodes. -/
def mkCampaign (id org status : String) : Doc Campaign :=
  { id := id, decodes := true,
    data := { name := id, participants := [], orgID := org, createdBy := "", status := status } }

/-- An achievement document that decodes. -/
def mkAchievement (id user campaign ty : String) (v : Score) (verified : Bool) :
    Doc Achievement :=
  { id := id, decodes := true,
    data := { userID := user, campaignID := campaign, type := ty, value := v,
              dateAchieved := "2024-01-01", verified := verified, verifiedBy := "" } }

/-- Scenario 3 of the specification: `U1` and `U2` each have one verified
achievement of value 5 in campaign `C1` of `O1`, that of `U1` stored first. -/
def storeTie : Store :=
  { users := [mkUser "U1" "O1" "Alice", mkUser "U2" "O1" "Bob"],
    campaigns := [mkCampaign "C1" "O1" "active"],
    achievements := [mkAchievement "A1" "U1" "C1" "sales" 5 true,
                     mkAchievement "A2" "U2" "C1" "sales" 5 true] }

/-- Scenario 2 of the specification: `U1` (Alice) has one verified
achievement of value 10 in campaign `C1` of `O1`. -/
def storeSingle : Store :=
  { users := [mkUser "U1" "O1" "Alice"],
    campaigns := [mkCampaign "C1" "O1" "active"],
    achievements := [mkAchievement "A1" "U1" "C1" "sales" 10 true] }

/-! ## Contracts of the runtime and specification-side notions -/

/-- The `range` statement yields every entry of the map exactly once. -/
def Runtime.RangePerm (rt : Runtime) : Prop :=
  ∀ m, (rt.mapRange m).Perm m

/-- The contract of `sort.Slice` for the closure of line 405: the slice is
rearranged, and afterwards no element is `less` than one before it. -/
def Runtime.SortsByScore (rt : Runtime) : Prop :=
  ∀ l, (rt.sortSlice scoreLess l).Perm l ∧
    (rt.sortSlice scoreLess l).Pairwise (fun a b => scoreLess b a = false)

/-- A runtime that keeps both contracts. -/
def Runtime.Lawful (rt : Runtime) : Prop :=
  rt.RangePerm ∧ rt.SortsByScore

/-- The sort leaves elements of equal score in the order it found them. -/
def Runtime.KeepsTies (rt : Runtime) : Prop :=
  ∀ l (k : Score), (rt.sortSlice scoreLess l).filter (fun e => decide (e.totalScore = k)) =
    l.filter (fun e => decide (e.totalScore = k))

/-- Whether `campaignID` is the id of a campaign document of `orgID`. -/
def inOrganization (s : Store) (orgID campaignID : String) : Bool :=
  s.campaigns.any (fun c => c.id == campaignID && c.data.orgID == orgID)

/-- The verified achievements of user `u` in the campaigns of `orgID`, in
store order: the documents that decode, are verified, belong to `u` and to a
campaign of the organization. -/
def verifiedOf (s : Store) (orgID u : String) : List Achievement :=
  (s.achievements.filter (fun d =>
    d.decodes && d.data.verified && (d.data.userID == u) &&
      inOrganization s orgID d.data.campaignID)).map (fun d => d.data)

/-- An entry with its position cleared. -/
def withoutPosition (e : LeaderboardEntry) : LeaderboardEntry :=
  { e with position := 0 }

/-- The documents the achievements loop visits, campaign after campaign. -/
def observedDocs (s : Store) (campaignIDs : List String) : List (Doc Achievement) :=
  campaignIDs.flatMap (verifiedAchievementDocs s)

/-- The achievements the loop folds into the map: the visited documents that
decode, in the order of the visit. -/
def observed (s : Store) (campaignIDs : List String) : List Achievement :=
  ((observedDocs s campaignIDs).filter (fun d => d.decodes)).map (fun d => d.data)

/-- The entry of user `u` after a sequence of achievements: the sum and the
number of those of `u`. -/
def entryFor (as : List Achievement) (u : String) : LeaderboardEntry :=
  { userID := u, displayName := "",
    totalScore := ((as.filter (fun a => a.userID == u)).map (fun a => a.value)).sum,
    achievements := (as.filter (fun a => a.userID == u)).length,
    position := 0 }

/-- The map `m` holds exactly the tallies of the achievements `as`: one entry
per user of `as`, each the tally of its user. -/
def Tally (m : List LeaderboardEntry) (as : List Achievement) : Prop :=
  (m.map (fun e => e.userID)).Nodup ∧
  (∀ e ∈ m, e = entryFor as e.userID) ∧
  (∀ u, u ∈ m.map (fun e => e.userID) ↔ u ∈ as.map (fun a => a.userID))

/-- A store of two organizations: `U1` has verified achievements of value 10
and 7 in two campaigns of `O1`; `U2`, whose display name is empty, has a
verified one of value 5 and an unverified one of value 1000; `U3` belongs
to `O2`. -/
def storeMixed : Store :=
  { users := [mkUser "U1" "O1" "Alice", mkUser "U2" "O1" "", mkUser "U3" "O2" "Carol"],
    campaigns := [mkCampaign "C1" "O1" "active", mkCampaign "C2" "O1" "completed",
                  mkCampaign "C3" "O2" "active"],
    achievements := [mkAchievement "A1" "U1" "C1" "sales" 10 true,
                     mkAchievement "A2" "U2" "C1" "calls" 5 true,
                     mkAchievement "A3" "U1" "C2" "sales" 7 true,
                     mkAchievement "A4" "U2" "C2" "meetings" 1000 false,
                     mkAchievement "A5" "U3" "C3" "referrals" 50 true] }

/-- The leaderboard of `O1` over `storeMixed`. -/
def leaderboardMixed : List LeaderboardEntry :=
  [⟨"U1", "Alice", 17, 2, 1⟩, ⟨"U2", "Unknown User", 5, 1, 2⟩]

/-- An organization `O1` with a member but no campaign. -/
def storeNoCampaign : Store :=
  { users := [mkUser "U1" "O1" "Alice"], campaigns := [], achievements := [] }

/-- A campaign of `O1` whose only achievement is unverified. -/
def storeUnverifiedOnly : Store :=
  { users := [mkUser "U1" "O1" "Alice"],
    campaigns := [mkCampaign "C1" "O1" "active"],
    achievements := [mkAchievement "A1" "U1" "C1" "sales" 1000 false] }

/-- Scenario 4 of the specification: scenario 3 with an unverified
achievement of value 1000 for `U2`, stored between the two verified ones. -/
def storeTieUnverified : Store :=
  { users := [mkUser "U1" "O1" "Alice", mkUser "U2" "O1" "Bob"],
    campaigns := [mkCampaign "C1" "O1" "active"],
    achievements := [mkAchievement "A1" "U1" "C1" "sales" 5 true,
                     mkAchievement "A3" "U2" "C1" "sales" 1000 false,
                     mkAchievement "A2" "U2" "C1" "sales" 5 true] }

/-- The store `U1` (Alice) 5, then `U2` (Bob) 10, both verified, in campaign
`C1` of `O1`. -/
def storeAscending : Store :=
  { users := [mkUser "U1" "O1" "Alice", mkUser "U2" "O1" "Bob"],
    campaigns := [mkCampaign "C1" "O1" "active"],
    achievements := [mkAchievement "A1" "U1" "C1" "sales" 5 true,
                     mkAchievement "A2" "U2" "C1" "sales" 10 true] }

/-- A verified achievement of value 10 by `U9`, who has no user document;
`U1` is the caller. -/
def storeOrphan : Store :=
  { users := [mkUser "U1" "O1" "Alice"],
    campaigns := [mkCampaign "C1" "O1" "active"],
    achievements := [mkAchievement "A1" "U9" "C1" "sales" 10 true] }

/-- The map after the display-name loop of `getLeaderboard`, as line 400
ranges it. -/
def rangedScores (rt : Runtime) (s : Store) (orgID : String) : List LeaderboardEntry :=
  rt.mapRange ((accumulateScores s (campaignIDsOf s orgID) []).map (resolveName s))

/-- No two users of the map of `getLeaderboard` have the same total score. -/
def DistinctTotals (s : Store) (orgID : String) : Prop :=
  ((accumulateScores s (campaignIDsOf s orgID) []).map (fun e => e.totalScore)).Nodup

/-- The documents of `storeAscending`, the achievements returned in the other
order. -/
def storeDescending : Store :=
  { users := [mkUser "U1" "O1" "Alice", mkUser "U2" "O1" "Bob"],
    campaigns := [mkCampaign "C1" "O1" "active"],
    achievements := [mkAchievement "A2" "U2" "C1" "sales" 10 true,
                     mkAchievement "A1" "U1" "C1" "sales" 5 true] }

/-! ## The handler `getCampaignAnalytics` -/

/-- The `ParticipantStats` struct of `handlers_analytics.go`. -/
structure ParticipantStats where
  userID : String
  displayName : String
  achievements : Nat
  totalScore : Score
  lastActivity : String
deriving DecidableEq, Repr

/-- The `DailyPerformance` struct of `handlers_analytics.go`; the `float64`
value is an exact rational. -/
structure DailyPerformance where
  date : String
  achievements : Nat
  totalValue : ℚ
deriving DecidableEq, Repr

/-- The `CampaignAnalytics` struct of `handlers_analytics.go`; the `float64`
fields are exact rationals. -/
structure CampaignAnalytics where
  campaignID : String
  participantCount : Nat
  completionRate : ℚ
  averageScore : ℚ
  totalAchievements : Nat
  performanceData : List DailyPerformance
  participantStats : List ParticipantStats
deriving DecidableEq, Repr

/-- The server clock as `getCampaignAnalytics` uses it: the day of
`time.Now()` as a day number, and the rendering of a day number by
`Format("2006-01-02")`. -/
structure Clock where
  today : Int
  format : Int → String

/-- Go's `a > b` on strings: the lexicographic order of their characters. -/
def stringGreater (a b : String) : Bool := decide (b.toList < a.toList)

/-- The documents of `Collection("achievements").Where("campaignId", "==",
campaignID)` (lines 333-335): verified or not. -/
def campaignAchievementDocs (s : Store) (campaignID : String) : List (Doc Achievement) :=
  s.achievements.filter (fun d => d.data.campaignID == campaignID)

/-- The stats stored for a user seen for the first time (lines 374-383). -/
def newStats (a : Achievement) : ParticipantStats :=
  { userID := a.userID, displayName := "", achievements := 1,
    totalScore := if a.verified then a.value else 0,
    lastActivity := a.dateAchieved }

/-- The update of existing stats (lines 365-372). -/
def bumpStats (st : ParticipantStats) (a : Achievement) : ParticipantStats :=
  { st with
    achievements := st.achievements + 1,
    totalScore := if a.verified then st.totalScore + a.value else st.totalScore,
    lastActivity :=
      if stringGreater a.dateAchieved st.lastActivity then a.dateAchieved
      else st.lastActivity }

/-- The update of the map `participantScores` on one decoded achievement
(lines 364-384). -/
def addStats : List ParticipantStats → Achievement → List ParticipantStats
  | [], a => [newStats a]
  | st :: m, a => if st.userID = a.userID then bumpStats st a :: m else st :: addStats m a

/-- The variables of the achievements loop of `getCampaignAnalytics`
(lines 338-341). -/
structure CampaignTally where
  totalAchievements : Nat
  verifiedAchievements : Nat
  totalScore : Score
  participantScores : List ParticipantStats
deriving DecidableEq, Repr

/-- The variables before the loop. -/
def CampaignTally.initial : CampaignTally :=
  { totalAchievements := 0, verifiedAchievements := 0, totalScore := 0,
    participantScores := [] }

/-- The body of the loop on one decoded achievement (lines 357-384). -/
def tallyAchievement (t : CampaignTally) (a : Achievement) : CampaignTally :=
  { totalAchievements := t.totalAchievements + 1,
    verifiedAchievements :=
      if a.verified then t.verifiedAchievements + 1 else t.verifiedAchievements,
    totalScore := if a.verified then t.totalScore + a.value else t.totalScore,
    participantScores := addStats t.participantScores a }

/-- One step of the loop (lines 343-385): a document that does not decode is
skipped. -/
def tallyDoc (t : CampaignTally) (d : Doc Achievement) : CampaignTally :=
  if d.decodes then tallyAchievement t d.data else t

/-- The loop over the achievements of the campaign (lines 343-385). -/
def campaignTally (s : Store) (campaignID : String) : CampaignTally :=
  (campaignAchievementDocs s campaignID).foldl tallyDoc CampaignTally.initial

/-- The completion rate of lines 390-393. -/
def campaignCompletionRate (participantsWithAchievements participantCount : Nat) : ℚ :=
  if participantCount > 0 then
    ((participantsWithAchievements : ℚ) / (participantCount : ℚ)) * 100
  else 0

/-- The average score of lines 396-398. -/
def campaignAverageScore (totalScore : Score) (verifiedAchievements : Nat) : ℚ :=
  if verifiedAchievements > 0 then (totalScore : ℚ) / (verifiedAchievements : ℚ) else 0

/-- The body of the display-name loop of `getCampaignAnalytics`
(lines 402-416) on one stats record: `none` where the loop continues without
appending. -/
def resolveStats (s : Store) (st : ParticipantStats) : Option ParticipantStats :=
  match getUserDoc s st.userID with
  | none => none
  | some userDoc =>
    if userDoc.decodes then
      some { st with displayName :=
          if userDoc.data.displayName = "" then "Unknown User" else userDoc.data.displayName }
    else none

/-- The daily series of lines 420-429: `i` runs from 6 down to 0. -/
def dailyPerformance (clock : Clock) (totalAchievements : Nat) (totalScore : Score) :
    List DailyPerformance :=
  [6, 5, 4, 3, 2, 1, 0].map (fun i : Int =>
    { date := clock.format (clock.today - i),
      achievements := totalAchievements / 7,
      totalValue := (totalScore : ℚ) / 7 })

/-- The body of a 200 response of `getCampaignAnalytics` (lines 325-431) for
the decoded campaign record `campaign`. `statsRange` is the order in which
`range` yields the entries of `participantScores`. -/
def campaignAnalyticsOf (statsRange : List ParticipantStats → List ParticipantStats)
    (clock : Clock) (s : Store) (campaignID : String) (campaign : Campaign) :
    CampaignAnalytics :=
  let participantCount := campaign.participants.length
  let t := campaignTally s campaignID
  { campaignID := campaignID
    participantCount := participantCount
    completionRate := campaignCompletionRate t.participantScores.length participantCount
    averageScore := campaignAverageScore t.totalScore t.verifiedAchievements
    totalAchievements := t.totalAchievements
    performanceData := dailyPerformance clock t.totalAchievements t.totalScore
    participantStats := (statsRange t.participantScores).filterMap (resolveStats s) }

/-- The handler `getCampaignAnalytics` (lines 281-432). -/
def getCampaignAnalytics (statsRange : List ParticipantStats → List ParticipantStats)
    (clock : Clock) (s : Store) (uid : Option String) (campaignID : String) :
    Response CampaignAnalytics :=
  if campaignID = "" then .error 400 "Campaign ID is required" else
  match uid with
  | none => .error 401 "User not authenticated"
  | some uid =>
    match getCampaignDoc s campaignID with
    | none => .error 404 "Campaign not found"
    | some campaignDoc =>
      if campaignDoc.decodes = false then .error 500 "Failed to parse campaign data" else
      match getUserDoc s uid with
      | none => .error 500 "Failed to check user"
      | some userDoc =>
        if userDoc.decodes = false then .error 500 "Failed to parse user data" else
        if userDoc.data.organizationID ≠ campaignDoc.data.orgID then
          .error 403 "Access denied"
        else .ok (campaignAnalyticsOf statsRange clock s campaignID campaignDoc.data)

/-- A clock for concrete runs: day numbers rendered in decimal. -/
def testClock : Clock :=
  { today := 100, format := fun d => toString d }

/-- A campaign document with participants. -/
def mkCampaignWith (id org status : String) (participants : List String) : Doc Campaign :=
  { id := id, decodes := true,
    data := { name := id, participants := participants, orgID := org, createdBy := "",
              status := status } }

/-- An achievement document with its date. -/
def mkAchievementOn (id user campaign ty : String) (v : Score) (verified : Bool)
    (date : String) : Doc Achievement :=
  { id := id, decodes := true,
    data := { userID := user, campaignID := campaign, type := ty, value := v,
              dateAchieved := date, verified := verified, verifiedBy := "" } }

/-- A campaign `C1` of `O1` whose only participant is `U1`; `U1` has a
verified achievement of value 10 and a later unverified one of value 3, and
`U2`, a member of `O1` who never joined, has a verified one of value 4. -/
def storeCampaign : Store :=
  { users := [mkUser "U1" "O1" "Alice", mkUser "U2" "O1" "Bob", mkUser "U3" "O2" "Carol"],
    campaigns := [mkCampaignWith "C1" "O1" "active" ["U1"]],
    achievements := [mkAchievementOn "A1" "U1" "C1" "sales" 10 true "2024-01-05",
                     mkAchievementOn "A2" "U2" "C1" "calls" 4 true "2024-01-03",
                     mkAchievementOn "A3" "U1" "C1" "sales" 3 false "2024-02-01"] }

/-- The store without the achievement documents that do not decode. -/
def decodedOnly (s : Store) : Store :=
  { s with achievements := s.achievements.filter (fun d => d.decodes) }

/-- The ids of the campaigns `getOrganizationAnalytics` works on
(lines 121-140): the campaign documents of the organization that decode. -/
def analyticsCampaignIDs (s : Store) (orgID : String) : List String :=
  (decodedCampaignDocs s orgID).map (fun d => d.id)

/-- The body of a 200 response of `getOrganizationAnalytics`
(lines 90-277). -/
def organizationAnalyticsOf (rt : Runtime) (s : Store) (orgID : String) :
    OrganizationAnalytics :=
  { totalEmployees := employeeCount s orgID
    activeCampaigns :=
      ((decodedCampaignDocs s orgID).filter (fun d => d.data.status == "active")).length
    totalAchievements := (countAchievements s (analyticsCampaignIDs s orgID)).1
    completionRate :=
      if (decodedCampaignDocs s orgID).length > 0 then
        ((completedCampaigns s (analyticsCampaignIDs s orgID) : ℚ) /
          ((decodedCampaignDocs s orgID).length : ℚ)) * 100
      else 0
    performanceData := mockPerformanceData
    achievementTypes :=
      [⟨"Sales", typeCountAt (countAchievements s (analyticsCampaignIDs s orgID)).2 "sales",
          "#28a745"⟩,
       ⟨"Calls", typeCountAt (countAchievements s (analyticsCampaignIDs s orgID)).2 "calls",
          "#17a2b8"⟩,
       ⟨"Meetings",
          typeCountAt (countAchievements s (analyticsCampaignIDs s orgID)).2 "meetings",
          "#ffc107"⟩,
       ⟨"Referrals",
          typeCountAt (countAchievements s (analyticsCampaignIDs s orgID)).2 "referrals",
          "#fd7e14"⟩]
    topPerformers := topPerformersOf rt s (analyticsCampaignIDs s orgID) }

/-- Whether `campaignID` is the id of a campaign document of `orgID` that
decodes. -/
def inOrganizationDecoded (s : Store) (orgID campaignID : String) : Bool :=
  s.campaigns.any (fun c => c.id == campaignID && c.data.orgID == orgID && c.decodes)

/-- The verified achievements of type `ty` in the campaigns of `orgID`, in
store order: the documents that decode, are verified, have that type and
belong to a campaign of the organization whose document decodes. -/
def verifiedOfType (s : Store) (orgID ty : String) : List Achievement :=
  (s.achievements.filter (fun d =>
    d.decodes && d.data.verified && (d.data.type == ty) &&
      inOrganizationDecoded s orgID d.data.campaignID)).map (fun d => d.data)

/-- The four achievement types of the enumeration. -/
def achievementTypeNames : List String := ["sales", "calls", "meetings", "referrals"]

/-- Scenario 5 of the specification, with two documents that must not count:
verified achievements of types sales (3), calls (1), referrals (2) in campaign
`C1` of `O1`, one verified achievement of the foreign type `bonus`, and one
unverified achievement of type meetings. -/
def storeTypes : Store :=
  { users := [mkUser "U1" "O1" "Alice"],
    campaigns := [mkCampaign "C1" "O1" "active"],
    achievements := [mkAchievement "A1" "U1" "C1" "sales" 1 true,
                     mkAchievement "A2" "U1" "C1" "referrals" 1 true,
                     mkAchievement "A3" "U1" "C1" "sales" 1 true,
                     mkAchievement "A4" "U1" "C1" "bonus" 1 true,
                     mkAchievement "A5" "U1" "C1" "calls" 1 true,
                     mkAchievement "A6" "U1" "C1" "meetings" 1 false,
                     mkAchievement "A7" "U1" "C1" "referrals" 1 true,
                     mkAchievement "A8" "U1" "C1" "sales" 1 true] }

/-- The achievements the loop of `getCampaignAnalytics` folds: the documents
of the campaign that decode, in store order. -/
def campaignObserved (s : Store) (campaignID : String) : List Achievement :=
  ((campaignAchievementDocs s campaignID).filter (fun d => d.decodes)).map (fun d => d.data)

/-- The achievements of user `u` in a campaign, verified or not, in store
order. -/
def achievementsOfUser (s : Store) (campaignID u : String) : List Achievement :=
  (campaignObserved s campaignID).filter (fun a => a.userID == u)

/-- The `lastActivity` after a sequence of achievements of one user: the
first date, replaced by each later date that is greater. -/
def lastOf : List Achievement → String
  | [] => ""
  | a :: rest =>
    rest.foldl (fun m b => if stringGreater b.dateAchieved m then b.dateAchieved else m)
      a.dateAchieved

/-- The stats of user `u` after a sequence of achievements. -/
def statsFor (as : List Achievement) (u : String) : ParticipantStats :=
  { userID := u, displayName := "",
    achievements := (as.filter (fun a => a.userID == u)).length,
    totalScore :=
      (((as.filter (fun a => a.userID == u)).filter (fun a => a.verified)).map
        (fun a => a.value)).sum,
    lastActivity := lastOf (as.filter (fun a => a.userID == u)) }

/-- The map `participantScores` holds exactly the stats of the achievements
`as`: one record per user of `as`, each the stats of its user. -/
def StatsTally (m : List ParticipantStats) (as : List Achievement) : Prop :=
  (m.map (fun st => st.userID)).Nodup ∧
  (∀ st ∈ m, st = statsFor as st.userID) ∧
  (∀ u, u ∈ m.map (fun st => st.userID) ↔ u ∈ as.map (fun a => a.userID))

/-- The documents of `storeCampaign`, with `U2` among the participants of
`C1`. -/
def storeCampaignJoined : Store :=
  { users := [mkUser "U1" "O1" "Alice", mkUser "U2" "O1" "Bob", mkUser "U3" "O2" "Carol"],
    campaigns := [mkCampaignWith "C1" "O1" "active" ["U1", "U2"]],
    achievements := [mkAchievementOn "A1" "U1" "C1" "sales" 10 true "2024-01-05",
                     mkAchievementOn "A2" "U2" "C1" "calls" 4 true "2024-01-03",
                     mkAchievementOn "A3" "U1" "C1" "sales" 3 false "2024-02-01"] }

/-- Whether the user record of `u` is fetched and decodes, so that a
display-name loop keeps the user. -/
def userResolves (s : Store) (u : String) : Bool :=
  match getUserDoc s u with
  | none => false
  | some d => d.decodes

/-! ## Transport failures of the store iterators -/

/-- One result of `iter.Next()` before `iterator.Done`: a document, or an
error other than `Done`. Once an iterator of Firestore has returned an error,
every later call of `Next` returns that error again. -/
inductive IterResult (α : Type) where
  | doc (d : Doc α)
  | failure
deriving DecidableEq, Repr

/-- What the three document iterators of the handlers deliver: for each
query, the results of the calls of `Next` up to `iterator.Done`, or up to the
first error, which the iterator then repeats for ever. -/
structure Transport where
  employees : String → List (IterResult User)
  campaigns : String → List (IterResult Campaign)
  verifiedAchievements : String → List (IterResult Achievement)

/-- The transport that delivers every document of the store and never
fails. -/
def Transport.ofStore (s : Store) : Transport :=
  { employees := fun orgID =>
      (s.users.filter (fun d => d.data.organizationID == orgID)).map IterResult.doc
    campaigns := fun orgID =>
      (s.campaigns.filter (fun d => d.data.orgID == orgID)).map IterResult.doc
    verifiedAchievements := fun cid => (verifiedAchievementDocs s cid).map IterResult.doc }

/-- The employees loop of `getOrganizationAnalytics` (lines 98-108): an error
ends the loop (`break`) with the count reached. -/
def employeesLoop : Nat → List (IterResult User) → Nat
  | n, [] => n
  | n, IterResult.failure :: _ => n
  | n, IterResult.doc _ :: rest => employeesLoop (n + 1) rest

/-- The campaigns loop of `getOrganizationAnalytics` (lines 121-140) on
`(activeCampaigns, totalCampaigns, campaignIDs)`: an error ends the loop
(`break`), a document that does not decode is skipped. -/
def campaignsLoop : Nat × Nat × List String → List (IterResult Campaign) →
    Nat × Nat × List String
  | acc, [] => acc
  | acc, IterResult.failure :: _ => acc
  | (active, total, ids), IterResult.doc d :: rest =>
    if d.decodes then
      campaignsLoop
        (if d.data.status == "active" then active + 1 else active, total + 1, ids ++ [d.id])
        rest
    else campaignsLoop (active, total, ids) rest

/-- The campaigns loop of `getLeaderboard` (lines 324-335): `none` where the
handler answers 500 "Failed to fetch campaigns". -/
def leaderboardCampaignsLoop : List String → List (IterResult Campaign) →
    Option (List String)
  | ids, [] => some ids
  | _, IterResult.failure :: _ => none
  | ids, IterResult.doc d :: rest => leaderboardCampaignsLoop (ids ++ [d.id]) rest

/-- The counting loop over one achievements iterator (lines 159-175). An
error other than `iterator.Done` is answered with `continue` (lines 164-166);
the next call of `Next` returns the same error, so the loop never ends:
`none`. -/
def countLoop : Nat × List (String × Nat) → List (IterResult Achievement) →
    Option (Nat × List (String × Nat))
  | acc, [] => some acc
  | _, IterResult.failure :: _ => none
  | acc, IterResult.doc d :: rest => countLoop (countDoc acc d) rest

/-- The scores loop over one achievements iterator (lines 355-379 and
226-250). An error other than `iterator.Done` is answered with `continue`
(lines 360-362 and 231-233); the next call of `Next` returns the same error,
so the loop never ends: `none`. -/
def scoresLoop : List LeaderboardEntry → List (IterResult Achievement) →
    Option (List LeaderboardEntry)
  | m, [] => some m
  | _, IterResult.failure :: _ => none
  | m, IterResult.doc d :: rest => scoresLoop (addDoc m d) rest

/-- The loop over `campaignIDs` around the counting loop: `none` when one of
the inner loops never ends. -/
def countAchievementsOver (tr : Transport) :
    List String → Nat × List (String × Nat) → Option (Nat × List (String × Nat))
  | [], acc => some acc
  | cid :: rest, acc =>
    match countLoop acc (tr.verifiedAchievements cid) with
    | none => none
    | some acc => countAchievementsOver tr rest acc

/-- The loop over `campaignIDs` around the scores loop: `none` when one of
the inner loops never ends. -/
def accumulateScoresOver (tr : Transport) :
    List String → List LeaderboardEntry → Option (List LeaderboardEntry)
  | [], m => some m
  | cid :: rest, m =>
    match scoresLoop m (tr.verifiedAchievements cid) with
    | none => none
    | some m => accumulateScoresOver tr rest m

/-- The handler `getLeaderboard` (lines 287-422) over a transport that may
fail; documents fetched by id come from `s`. The result is `none` when the
handler never answers. -/
def getLeaderboardOver (rt : Runtime) (tr : Transport) (s : Store) (uid : Option String)
    (orgID : String) : Option (Response LeaderboardBody) :=
  if orgID = "" then some (.error 400 "Organization ID is required") else
  match uid with
  | none => some (.error 401 "User not authenticated")
  | some uid =>
    match getUserDoc s uid with
    | none => some (.error 500 "Failed to check user")
    | some userDoc =>
      if userDoc.decodes = false then some (.error 500 "Failed to parse user data") else
      if userDoc.data.organizationID ≠ orgID then some (.error 403 "Access denied") else
      match leaderboardCampaignsLoop [] (tr.campaigns orgID) with
      | none => some (.error 500 "Failed to fetch campaigns")
      | some campaignIDs =>
        if campaignIDs.length = 0 then some (.ok { leaderboard := [], count := 0 }) else
        match accumulateScoresOver tr campaignIDs [] with
        | none => none
        | some userScores =>
          let userScores := userScores.map (resolveName s)
          let leaderboard := rt.mapRange userScores
          let leaderboard := rt.sortSlice scoreLess leaderboard
          let leaderboard := limitTo 50 (assignPositions leaderboard)
          some (.ok { leaderboard := leaderboard, count := leaderboard.length })

/-- The handler `getOrganizationAnalytics` (lines 59-278) over a transport
that may fail; documents fetched by id come from `s`. The result is `none`
when the handler never answers. -/
def getOrganizationAnalyticsOver (rt : Runtime) (tr : Transport) (s : Store)
    (uid : Option String) (orgID : String) : Option (Response OrganizationAnalytics) :=
  if orgID = "" then some (.error 400 "Organization ID is required") else
  match uid with
  | none => some (.error 401 "User not authenticated")
  | some uid =>
    match getUserDoc s uid with
    | none => some (.error 500 "Failed to check user")
    | some userDoc =>
      if userDoc.decodes = false then some (.error 500 "Failed to parse user data") else
      if userDoc.data.organizationID ≠ orgID then some (.error 403 "Access denied") else
      let employeeCount := employeesLoop 0 (tr.employees orgID)
      let campaigns := campaignsLoop (0, 0, []) (tr.campaigns orgID)
      let activeCampaigns := campaigns.1
      let totalCampaigns := campaigns.2.1
      let campaignIDs := campaigns.2.2
      match countAchievementsOver tr campaignIDs (0, initialTypeCount) with
      | none => none
      | some counts =>
        let achievementTypeCount := counts.2
        let completionRate : ℚ :=
          if totalCampaigns > 0 then
            ((completedCampaigns s campaignIDs : ℚ) / (totalCampaigns : ℚ)) * 100
          else 0
        match accumulateScoresOver tr campaignIDs [] with
        | none => none
        | some userScores =>
          some (.ok
            { totalEmployees := employeeCount
              activeCampaigns := activeCampaigns
              totalAchievements := counts.1
              completionRate := completionRate
              performanceData := mockPerformanceData
              achievementTypes :=
                [⟨"Sales", typeCountAt achievementTypeCount "sales", "#28a745"⟩,
                 ⟨"Calls", typeCountAt achievementTypeCount "calls", "#17a2b8"⟩,
                 ⟨"Meetings", typeCountAt achievementTypeCount "meetings", "#ffc107"⟩,
                 ⟨"Referrals", typeCountAt achievementTypeCount "referrals", "#fd7e14"⟩]
              topPerformers :=
                limitTo 5 ((rt.mapRange userScores).filterMap (resolvePerformer s)) })

/-- The transport over `storeMixed` whose employees iterator delivers the
document of `U1` and then fails, and whose campaigns iterator delivers the
document of `C1` and then fails. -/
def failingTransport : Transport :=
  { employees := fun orgID =>
      if orgID = "O1" then [IterResult.doc (mkUser "U1" "O1" "Alice"), IterResult.failure]
      else []
    campaigns := fun orgID =>
      if orgID = "O1" then
        [IterResult.doc (mkCampaign "C1" "O1" "active"), IterResult.failure]
      else []
    verifiedAchievements := (Transport.ofStore storeMixed).verifiedAchievements }

/-- The transport over `storeMixed` that delivers employees and campaigns in
full and whose achievements iterator for `C1` delivers one document and then
fails. -/
def failingAchievements : Transport :=
  { employees := (Transport.ofStore storeMixed).employees
    campaigns := (Transport.ofStore storeMixed).campaigns
    verifiedAchievements := fun cid =>
      if cid = "C1" then
        ((Transport.ofStore storeMixed).verifiedAchievements cid).take 1 ++
          [IterResult.failure]
      else (Transport.ofStore storeMixed).verifiedAchievements cid }

/-! ### Handlers that write -/

/-- What a handler that writes answers with `c.JSON`: a success status with
its body, or an error status with its message. -/
inductive Reply (β : Type) where
  | ok (status : Nat) (body : β)
  | error (status : Nat) (message : String)
deriving DecidableEq, Repr

/-- `Collection(..).Doc(id).Update(ctx, ..)` on a collection: the document
stored under `id` gets its fields changed by `f`, the others stay. -/
def updateDoc {α : Type} (id : String) (f : α → α) : List (Doc α) → List (Doc α)
  | [] => []
  | d :: ds => if d.id == id then { d with data := f d.data } :: ds else d :: updateDoc id f ds

/-- `Collection(..).Add(ctx, data)`: a new document under the id Firestore
generates for it. -/
def addDocument {α : Type} (newID : String) (data : α) (docs : List (Doc α)) : List (Doc α) :=
  docs ++ [{ id := newID, data := data, decodes := true }]

/-- `Collection("achievements").Doc(achievementID).Get(ctx)`: the achievement
document, `none` when the call returns an error. -/
def getAchievementDoc (s : Store) (achievementID : String) : Option (Doc Achievement) :=
  s.achievements.find? (fun d => d.id == achievementID)

/-- The update `verifyAchievement` sends (lines 272-276), `updatedAt` left
out with the other time stamps. -/
def markVerified (uid : String) (a : Achievement) : Achievement :=
  { a with verified := true, verifiedBy := uid }

/-- The handler `verifyAchievement` (lines 209-284): its answer and the store
it leaves. -/
def verifyAchievement (s : Store) (uid : Option String) (achievementID : String) :
    Reply Unit × Store :=
  if achievementID = "" then (.error 400 "Achievement ID is required", s) else
  match uid with
  | none => (.error 401 "User not authenticated", s)
  | some uid =>
    match getUserDoc s uid with
    | none => (.error 500 "Failed to check user", s)
    | some userDoc =>
      if userDoc.decodes = false then (.error 500 "Failed to parse user data", s) else
      if userDoc.data.role ≠ "admin" then
        (.error 403 "Only admins can verify achievements", s) else
      match getAchievementDoc s achievementID with
      | none => (.error 404 "Achievement not found", s)
      | some achievementDoc =>
        if achievementDoc.decodes = false then
          (.error 500 "Failed to parse achievement data", s) else
        match getCampaignDoc s achievementDoc.data.campaignID with
        | none => (.error 404 "Campaign not found", s)
        | some campaignDoc =>
          if campaignDoc.decodes = false then
            (.error 500 "Failed to parse campaign data", s) else
          if userDoc.data.organizationID ≠ campaignDoc.data.orgID then
            (.error 403 "Can only verify achievements in your organization", s)
          else
            (.ok 200 (),
             { s with achievements := updateDoc achievementID (markVerified uid) s.achievements })

/-- The `CreateAchievementRequest` struct of `handlers_achievements.go`
(the fields the model of `Achievement` keeps, and the description). -/
structure CreateAchievementRequest where
  campaignID : String
  type : String
  value : Score
  description : String
  dateAchieved : String
deriving DecidableEq, Repr

/-- The slice `validTypes` of `createAchievement` (line 65). -/
def validTypes : List String := ["sales", "calls", "meetings", "referrals"]

/-- The loop of `createAchievement` over `validTypes` (lines 66-72). -/
def isValidType (type : String) : Bool :=
  validTypes.any (fun validType => type == validType)

/-- The handler `createAchievement` (lines 51-137): `body` is the request as
`ShouldBindJSON` bound it, `none` when binding fails; `newID` is the id
Firestore gives the added document. -/
def createAchievement (newID : String) (s : Store) (uid : Option String)
    (body : Option CreateAchievementRequest) : Reply (Doc Achievement) × Store :=
  match body with
  | none => (.error 400 "Invalid request body", s)
  | some req =>
    match uid with
    | none => (.error 401 "User not authenticated", s)
    | some uid =>
      if isValidType req.type = false then (.error 400 "Invalid achievement type", s) else
      match getCampaignDoc s req.campaignID with
      | none => (.error 404 "Campaign not found", s)
      | some campaignDoc =>
        if campaignDoc.decodes = false then (.error 500 "Failed to parse campaign data", s) else
        match getUserDoc s uid with
        | none => (.error 500 "Failed to check user", s)
        | some userDoc =>
          if userDoc.decodes = false then (.error 500 "Failed to parse user data", s) else
          if userDoc.data.organizationID ≠ campaignDoc.data.orgID then
            (.error 403 "Can only create achievements for organization campaigns", s)
          else
            let achievement : Achievement :=
              { userID := uid, campaignID := req.campaignID, type := req.type,
                value := req.value, dateAchieved := req.dateAchieved, verified := false,
                verifiedBy := "" }
            (.ok 201 { id := newID, data := achievement, decodes := true },
             { s with achievements := addDocument newID achievement s.achievements })

/-- A user document with a role. -/
def mkUserWith (uid org name role : String) : Doc User :=
  { id := uid, decodes := true,
    data := { uid := uid, phoneNumber := "", role := role,
              organizationID := org, displayName := name } }

/-- An achievement document with the admin who verified it. -/
def mkAchievementBy (id user campaign ty : String) (v : Score) (verifiedBy : String) :
    Doc Achievement :=
  { id := id, decodes := true,
    data := { userID := user, campaignID := campaign, type := ty, value := v,
              dateAchieved := "2024-01-01", verified := true, verifiedBy := verifiedBy } }

/-- Organization `O1` with two admins `ADM1` and `ADM2` and an employee `U1`;
the achievement `A1` of `U1` in campaign `C1` was verified by `ADM1`, and `A2`
is not verified yet. -/
def storeVerified : Store :=
  { users := [mkUserWith "ADM1" "O1" "Ann" "admin", mkUserWith "ADM2" "O1" "Ben" "admin",
              mkUserWith "U1" "O1" "Alice" "employee"],
    campaigns := [mkCampaignWith "C1" "O1" "active" ["U1"]],
    achievements := [mkAchievementBy "A1" "U1" "C1" "sales" 10 "ADM1",
                     mkAchievement "A2" "U1" "C1" "calls" 4 false] }

/-- A request of `U1` for an achievement of the given type in campaign `C1`. -/
def requestOfType (type : String) : CreateAchievementRequest :=
  { campaignID := "C1", type := type, value := 5, description := "deal",
    dateAchieved := "2024-03-01" }

/-- The `Prize` struct of `handlers_campaigns.go`. -/
structure Prize where
  position : Int
  title : String
  description : String
  image : String
deriving DecidableEq, Repr

/-- The `CreateCampaignRequest` struct of `handlers_campaigns.go`; `metrics`
is the list of the entries of the map. -/
structure CreateCampaignRequest where
  name : String
  description : String
  startDate : String
  endDate : String
  banner : String
  type : List String
  metrics : List (String × String)
  prizes : List Prize
deriving DecidableEq, Repr

/-- The `UpdateCampaignRequest` struct of `handlers_campaigns.go`; `metrics`
is `none` for a nil map. -/
structure UpdateCampaignRequest where
  name : String
  description : String
  startDate : String
  endDate : String
  banner : String
  type : List String
  metrics : Option (List (String × String))
  prizes : List Prize
  status : String
deriving DecidableEq, Repr

/-- The handler `createCampaign` (lines 61-128): `body` is the request as
`ShouldBindJSON` bound it, `none` when binding fails; `newID` is the id
Firestore gives the added document. -/
def createCampaign (newID : String) (s : Store) (uid : Option String)
    (body : Option CreateCampaignRequest) : Reply (Doc Campaign) × Store :=
  match body with
  | none => (.error 400 "Invalid request body", s)
  | some req =>
    match uid with
    | none => (.error 401 "User not authenticated", s)
    | some uid =>
      match getUserDoc s uid with
      | none => (.error 500 "Failed to check user", s)
      | some userDoc =>
        if userDoc.decodes = false then (.error 500 "Failed to parse user data", s) else
        if userDoc.data.role ≠ "admin" then
          (.error 403 "Only admins can create campaigns", s) else
        if userDoc.data.organizationID = "" then
          (.error 400 "User must belong to an organization", s)
        else
          let campaign : Campaign :=
            { name := req.name, participants := [], orgID := userDoc.data.organizationID,
              createdBy := uid, status := "draft" }
          (.ok 201 { id := newID, data := campaign, decodes := true },
           { s with campaigns := addDocument newID campaign s.campaigns })

/-- The value of a `firestore.Update` of `updateCampaign`. -/
inductive UpdateValue where
  | now
  | text (v : String)
  | texts (v : List String)
  | metrics (v : List (String × String))
  | prizes (v : List Prize)
deriving DecidableEq, Repr

/-- A `firestore.Update`: the path of a field and its new value. -/
structure FieldUpdate where
  path : String
  value : UpdateValue
deriving DecidableEq, Repr

/-- The slice `updates` that `updateCampaign` prepares (lines 283-313). -/
def campaignUpdates (req : UpdateCampaignRequest) : List FieldUpdate :=
  [{ path := "updatedAt", value := .now }]
  ++ (if req.name ≠ "" then [{ path := "name", value := .text req.name }] else [])
  ++ (if req.description ≠ "" then
        [{ path := "description", value := .text req.description }] else [])
  ++ (if req.startDate ≠ "" then [{ path := "startDate", value := .text req.startDate }] else [])
  ++ (if req.endDate ≠ "" then [{ path := "endDate", value := .text req.endDate }] else [])
  ++ (if req.banner ≠ "" then [{ path := "banner", value := .text req.banner }] else [])
  ++ (if req.type.length > 0 then [{ path := "type", value := .texts req.type }] else [])
  ++ (match req.metrics with
      | some m => [{ path := "metrics", value := .metrics m }]
      | none => [])
  ++ (if req.prizes.length > 0 then [{ path := "prizes", value := .prizes req.prizes }] else [])
  ++ (if req.status ≠ "" then [{ path := "status", value := .text req.status }] else [])

/-- One `firestore.Update` applied to the fields the model of `Campaign`
keeps: `name` and `status` take the new text, an update of any other path
leaves them all as they are. -/
def applyUpdate (c : Campaign) (u : FieldUpdate) : Campaign :=
  match u.value with
  | .text v =>
    if u.path = "name" then { c with name := v }
    else if u.path = "status" then { c with status := v }
    else c
  | _ => c

/-- The handler `updateCampaign` (lines 246-324): `body` is the request as
`ShouldBindJSON` bound it, `none` when binding fails. -/
def updateCampaign (s : Store) (uid : Option String) (campaignID : String)
    (body : Option UpdateCampaignRequest) : Reply Unit × Store :=
  if campaignID = "" then (.error 400 "Campaign ID is required", s) else
  match body with
  | none => (.error 400 "Invalid request body", s)
  | some req =>
    match uid with
    | none => (.error 401 "User not authenticated", s)
    | some uid =>
      match getCampaignDoc s campaignID with
      | none => (.error 404 "Campaign not found", s)
      | some campaignDoc =>
        if campaignDoc.decodes = false then (.error 500 "Failed to parse campaign data", s) else
        if campaignDoc.data.createdBy ≠ uid then
          (.error 403 "Only campaign creator can update", s)
        else
          (.ok 200 (),
           { s with campaigns :=
               (updateDoc campaignID (fun c => (campaignUpdates req).foldl applyUpdate c)
                 s.campaigns) })

/-- `firestore.ArrayUnion(v)` on an array field: `v` is appended unless the
array holds it already. -/
def arrayUnion (xs : List String) (v : String) : List String :=
  if v ∈ xs then xs else xs ++ [v]

/-- The handler `participateInCampaign` (lines 369-434). -/
def participateInCampaign (s : Store) (uid : Option String) (campaignID : String) :
    Reply Unit × Store :=
  if campaignID = "" then (.error 400 "Campaign ID is required", s) else
  match uid with
  | none => (.error 401 "User not authenticated", s)
  | some uid =>
    match getCampaignDoc s campaignID with
    | none => (.error 404 "Campaign not found", s)
    | some campaignDoc =>
      if campaignDoc.decodes = false then (.error 500 "Failed to parse campaign data", s) else
      match getUserDoc s uid with
      | none => (.error 500 "Failed to check user", s)
      | some userDoc =>
        if userDoc.decodes = false then (.error 500 "Failed to parse user data", s) else
        if userDoc.data.organizationID ≠ campaignDoc.data.orgID then
          (.error 403 "Can only participate in organization campaigns", s) else
        if campaignDoc.data.participants.any (fun participant => participant == uid) then
          (.error 400 "Already participating in campaign", s)
        else
          (.ok 200 (),
           { s with campaigns :=
               (updateDoc campaignID
                 (fun c => { c with participants := arrayUnion c.participants uid })
                 s.campaigns) })

/-- The statuses the handlers know: `createCampaign` writes `draft`
(line 109), `getOrganizationAnalytics` counts `active` and `completed`. -/
def campaignStatuses : List String := ["draft", "active", "completed"]

/-- An update request that changes nothing but the status. -/
def statusRequest (status : String) : UpdateCampaignRequest :=
  { name := "", description := "", startDate := "", endDate := "", banner := "", type := [],
    metrics := none, prizes := [], status := status }

/-- A campaign document with its creator. -/
def mkCampaignBy (id org status createdBy : String) (participants : List String) :
    Doc Campaign :=
  { id := id, decodes := true,
    data := { name := id, participants := participants, orgID := org, createdBy := createdBy,
              status := status } }

/-- Organization `O1` with the admin `ADM1`, who created the draft campaign
`C1`, and the employees `U1`, who joined it, and `U2`, who did not. -/
def storeDraft : Store :=
  { users := [mkUserWith "ADM1" "O1" "Ann" "admin", mkUserWith "U1" "O1" "Alice" "employee",
              mkUserWith "U2" "O1" "Bob" "employee"],
    campaigns := [mkCampaignBy "C1" "O1" "draft" "ADM1" ["U1"]],
    achievements := [] }

/-- A request for a new campaign. -/
def campaignRequest (name : String) : CreateCampaignRequest :=
  { name := name, description := "spring push", startDate := "2024-03-01",
    endDate := "2024-03-31", banner := "", type := ["sales"], metrics := [], prizes := [] }

/-! ### Routes and the middleware -/

/-- The handlers `setupRoutes` registers. -/
inductive HandlerName where
  | healthCheck | verifyToken | createOrUpdateUser
  | createOrganization | getOrganization | updateOrganization | getOrganizationEmployees
  | createCampaign | getCampaigns | getCampaign | updateCampaign | deleteCampaign
  | participateInCampaign
  | createAchievement | getAchievements | verifyAchievement | getLeaderboard
  | getOrganizationAnalytics | getCampaignAnalytics
deriving DecidableEq, Repr

/-- A route of the engine: method, full path, whether its group called
`Use(authMiddleware())`, and the handler. -/
structure Route where
  method : String
  path : String
  middleware : Bool
  handler : HandlerName
deriving DecidableEq, Repr

/-- The routes of `setupRoutes` (`main.go`, lines 63-116), in the order of
registration. -/
def setupRoutes : List Route :=
  [ { method := "GET", path := "/api/health", middleware := false, handler := .healthCheck },
    { method := "POST", path := "/api/auth/verify", middleware := false,
      handler := .verifyToken },
    { method := "POST", path := "/api/auth/user", middleware := false,
      handler := .createOrUpdateUser },
    { method := "POST", path := "/api/organizations/", middleware := true,
      handler := .createOrganization },
    { method := "GET", path := "/api/organizations/:id", middleware := true,
      handler := .getOrganization },
    { method := "PUT", path := "/api/organizations/:id", middleware := true,
      handler := .updateOrganization },
    { method := "GET", path := "/api/organizations/:id/employees", middleware := true,
      handler := .getOrganizationEmployees },
    { method := "POST", path := "/api/campaigns/", middleware := true,
      handler := .createCampaign },
    { method := "GET", path := "/api/campaigns/", middleware := true,
      handler := .getCampaigns },
    { method := "GET", path := "/api/campaigns/:id", middleware := true,
      handler := .getCampaign },
    { method := "PUT", path := "/api/campaigns/:id", middleware := true,
      handler := .updateCampaign },
    { method := "DELETE", path := "/api/campaigns/:id", middleware := true,
      handler := .deleteCampaign },
    { method := "POST", path := "/api/campaigns/:id/participate", middleware := true,
      handler := .participateInCampaign },
    { method := "POST", path := "/api/achievements/", middleware := true,
      handler := .createAchievement },
    { method := "GET", path := "/api/achievements/", middleware := true,
      handler := .getAchievements },
    { method := "PUT", path := "/api/achievements/:id/verify", middleware := true,
      handler := .verifyAchievement },
    { method := "GET", path := "/api/achievements/leaderboard/:orgId", middleware := true,
      handler := .getLeaderboard },
    { method := "GET", path := "/api/analytics/organization/:orgId", middleware := true,
      handler := .getOrganizationAnalytics },
    { method := "GET", path := "/api/analytics/campaign/:campaignId", middleware := true,
      handler := .getCampaignAnalytics } ]

/-- The middleware `authMiddleware` (`main.go`, lines 165-196).
`verifyIDToken` is `authClient.VerifyIDToken`: the uid of the decoded token,
`none` on an error. The result is the uid the middleware stores with
`c.Set("uid", ..)` before `c.Next()`, or the status and message with which it
aborts. -/
def authMiddleware (verifyIDToken : String → Option String) (authHeader : String) :
    Except (Nat × String) String :=
  if authHeader = "" then .error (401, "Authorization header is required") else
  if authHeader.utf8ByteSize < 7 ∨ authHeader.toList.take 7 ≠ "Bearer ".toList then
    .error (401, "Invalid authorization header format") else
  match verifyIDToken (String.mk (authHeader.toList.drop 7)) with
  | none => .error (401, "Invalid token")
  | some uid => .ok uid

/-- What `c.Get("uid")` finds when the handler of a route runs: the uid the
middleware of the group stored, and nothing on a route whose group installs
no middleware, since no other code calls `c.Set("uid", ..)`. An error is the
answer with which the middleware aborts before the handler. -/
def contextUID (route : Route) (verifyIDToken : String → Option String)
    (authHeader : String) : Except (Nat × String) (Option String) :=
  if route.middleware then
    match authMiddleware verifyIDToken authHeader with
    | .error e => .error e
    | .ok uid => .ok (some uid)
  else .ok none

/-- The `CreateUserRequest` struct of `handlers_auth.go`. -/
structure CreateUserRequest where
  phoneNumber : String
  role : String
  organizationID : String
  displayName : String
deriving DecidableEq, Repr

/-- `Collection(..).Doc(id).Set(ctx, data)`: the document under `id` is
replaced, or created when there is none. -/
def setDoc {α : Type} (id : String) (data : α) : List (Doc α) → List (Doc α)
  | [] => [{ id := id, data := data, decodes := true }]
  | d :: ds =>
    if d.id == id then { id := id, data := data, decodes := true } :: ds
    else d :: setDoc id data ds

/-- The handler `createOrUpdateUser` (`handlers_auth.go`, lines 70-132):
`body` is the request as `ShouldBindJSON` bound it, `none` when binding fails.
Both branches of the existence test end in the same `Set`; they differ in the
time stamp only. -/
def createOrUpdateUser (s : Store) (uid : Option String) (body : Option CreateUserRequest) :
    Reply User × Store :=
  match body with
  | none => (.error 400 "Invalid request body", s)
  | some req =>
    match uid with
    | none => (.error 401 "User not authenticated", s)
    | some uid =>
      if req.role ≠ "admin" ∧ req.role ≠ "employee" then
        (.error 400 "Invalid role. Must be \x27admin\x27 or \x27employee\x27", s)
      else
        let user : User :=
          { uid := uid, phoneNumber := req.phoneNumber, role := req.role,
            organizationID := if req.organizationID ≠ "" then req.organizationID else "",
            displayName := req.displayName }
        (.ok 200 user, { s with users := setDoc uid user s.users })

/-- A request served on a route whose handler is `createOrUpdateUser`: the
middleware of the group, when there is one, then the handler on the context
it leaves. -/
def serveCreateOrUpdateUser (route : Route) (verifyIDToken : String → Option String)
    (authHeader : String) (s : Store) (body : Option CreateUserRequest) :
    Reply User × Store :=
  match contextUID route verifyIDToken authHeader with
  | .error e => (.error e.1 e.2, s)
  | .ok uid => createOrUpdateUser s uid body

/-- The route `POST /api/auth/user`. -/
def authUserRoute : Route :=
  { method := "POST", path := "/api/auth/user", middleware := false,
    handler := .createOrUpdateUser }

/-- A token service that accepts the token `T1` of `U1`. -/
def verifyT1 (token : String) : Option String :=
  if token = "T1" then some "U1" else none

/-- A request to register `U1` as an employee of `O1`. -/
def userRequest : CreateUserRequest :=
  { phoneNumber := "+15550100", role := "employee", organizationID := "O1",
    displayName := "Alice" }

/-! ### The leaderboard over any arithmetic of scores -/

/-- The two operations on scores `getLeaderboard` performs: `+=` on a total
(line 370) and `>` in the closure given to `sort.Slice` (line 405). `Score`
serves as the set of the numbers stored only; nothing is assumed of the two
operations, which may round and need not be associative, as those of
`float64`. -/
structure Arithmetic where
  add : Score → Score → Score
  greater : Score → Score → Bool

/-- The arithmetic of exact numbers. -/
def exactArithmetic : Arithmetic :=
  { add := fun a b => a + b, greater := fun a b => decide (a > b) }

/-- The update of an existing entry (lines 370-371). -/
def bumpEntryIn (ar : Arithmetic) (e : LeaderboardEntry) (a : Achievement) :
    LeaderboardEntry :=
  { e with totalScore := ar.add e.totalScore a.value, achievements := e.achievements + 1 }

/-- The body of the achievements loop on one decoded achievement
(lines 369-378). -/
def addAchievementIn (ar : Arithmetic) :
    List LeaderboardEntry → Achievement → List LeaderboardEntry
  | [], a => [newEntry a]
  | e :: m, a =>
    if e.userID = a.userID then bumpEntryIn ar e a :: m else e :: addAchievementIn ar m a

/-- One step of the achievements loop (lines 355-379). -/
def addDocIn (ar : Arithmetic) (m : List LeaderboardEntry) (d : Doc Achievement) :
    List LeaderboardEntry :=
  if d.decodes then addAchievementIn ar m d.data else m

/-- The loop over `campaignIDs` (lines 348-380), from a given map. -/
def accumulateScoresIn (ar : Arithmetic) (s : Store) (campaignIDs : List String)
    (m : List LeaderboardEntry) : List LeaderboardEntry :=
  campaignIDs.foldl (fun m cid => (verifiedAchievementDocs s cid).foldl (addDocIn ar) m) m

/-- The `less` closure given to `sort.Slice` (line 405). -/
def scoreLessIn (ar : Arithmetic) (a b : LeaderboardEntry) : Bool :=
  ar.greater a.totalScore b.totalScore

/-- The slice of lines 398-411. -/
def rankedEntriesIn (ar : Arithmetic) (rt : Runtime) (s : Store) (orgID : String) :
    List LeaderboardEntry :=
  let userScores := accumulateScoresIn ar s (campaignIDsOf s orgID) []
  let userScores := userScores.map (resolveName s)
  let leaderboard := rt.mapRange userScores
  let leaderboard := rt.sortSlice (scoreLessIn ar) leaderboard
  assignPositions leaderboard

/-- The handler `getLeaderboard` (lines 287-422) with the arithmetic of the
scores as a parameter. -/
def getLeaderboardIn (ar : Arithmetic) (rt : Runtime) (s : Store) (uid : Option String)
    (orgID : String) : Response LeaderboardBody :=
  if orgID = "" then .error 400 "Organization ID is required" else
  match uid with
  | none => .error 401 "User not authenticated"
  | some uid =>
    match getUserDoc s uid with
    | none => .error 500 "Failed to check user"
    | some userDoc =>
      if userDoc.decodes = false then .error 500 "Failed to parse user data" else
      if userDoc.data.organizationID ≠ orgID then .error 403 "Access denied" else
      if (campaignIDsOf s orgID).length = 0 then .ok { leaderboard := [], count := 0 } else
      let leaderboard := limitTo 50 (rankedEntriesIn ar rt s orgID)
      .ok { leaderboard := leaderboard, count := leaderboard.length }

/-- The contract of `sort.Slice` for the closure of line 405 in a given
arithmetic: the slice is rearranged, and afterwards no element is `less` than
one before it. -/
def Runtime.SortsByScoreIn (rt : Runtime) (ar : Arithmetic) : Prop :=
  ∀ l, (rt.sortSlice (scoreLessIn ar) l).Perm l ∧
    (rt.sortSlice (scoreLessIn ar) l).Pairwise (fun a b => scoreLessIn ar b a = false)

/-- A runtime that keeps both contracts in a given arithmetic. -/
def Runtime.LawfulIn (rt : Runtime) (ar : Arithmetic) : Prop :=
  rt.RangePerm ∧ rt.SortsByScoreIn ar

/-- Of any two users of the map of `getLeaderboard`, one has the greater
total as the handler computes it: the totals differ and `>` orders them (for
`float64`, none is NaN). -/
def OrderedTotals (ar : Arithmetic) (s : Store) (orgID : String) : Prop :=
  (accumulateScoresIn ar s (campaignIDsOf s orgID) []).Pairwise
    (fun a b => ar.greater a.totalScore b.totalScore = true ∨
      ar.greater b.totalScore a.totalScore = true)

/-! ### The leaderboard as it is encoded -/

/-- A Go slice as `encoding/json` writes it: the nil slice becomes `null`,
any other slice, the empty one included, an array. -/
inductive Slice (α : Type) where
  | null
  | array (elems : List α)
deriving DecidableEq, Repr

/-- The elements of a slice. -/
def Slice.elems {α : Type} : Slice α → List α
  | .null => []
  | .array l => l

/-- The body `gin.H{"leaderboard": ..., "count": ...}` as it is encoded. -/
structure LeaderboardJSON where
  leaderboard : Slice LeaderboardEntry
  count : Nat
deriving DecidableEq, Repr

/-- The handler `getLeaderboard` (lines 287-422) with the slice it hands to
`c.JSON`. Without campaigns the body holds the literal
`[]LeaderboardEntry{}` (line 339). Otherwise the slice is declared by
`var leaderboard []LeaderboardEntry` (line 399) and stays nil unless the
range over the map appends an entry (lines 400-402); sorting, the position
loop and the cut to 50 keep a slice that is not nil so. -/
def getLeaderboardJSON (rt : Runtime) (s : Store) (uid : Option String) (orgID : String) :
    Response LeaderboardJSON :=
  if orgID = "" then .error 400 "Organization ID is required" else
  match uid with
  | none => .error 401 "User not authenticated"
  | some uid =>
    match getUserDoc s uid with
    | none => .error 500 "Failed to check user"
    | some userDoc =>
      if userDoc.decodes = false then .error 500 "Failed to parse user data" else
      if userDoc.data.organizationID ≠ orgID then .error 403 "Access denied" else
      if (campaignIDsOf s orgID).length = 0 then
        .ok { leaderboard := .array [], count := 0 }
      else
        let leaderboard := limitTo 50 (rankedEntries rt s orgID)
        .ok { leaderboard :=
                (if (rangedScores rt s orgID).length = 0 then .null else .array leaderboard),
              count := leaderboard.length }

/-- The body of `getLeaderboardJSON` with the slice read as the list of its
elements. -/
def LeaderboardJSON.toBody (b : LeaderboardJSON) : LeaderboardBody :=
  { leaderboard := b.leaderboard.elems, count := b.count }

/-- A response of `getLeaderboardJSON` with the slice read as a list. -/
def listView : Response LeaderboardJSON → Response LeaderboardBody
  | .ok b => .ok b.toBody
  | .error status message => .error status message

/-- An arithmetic that rounds: sums are rounded down to a multiple of 4. -/
def roundingArithmetic : Arithmetic :=
  { add := fun a b => (a + b) / 4 * 4, greater := fun a b => decide (a > b) }

/-- The store `U1` 8, then `U2` 8 and 1, all verified, in campaign `C1` of
`O1`: the exact totals 8 and 9 differ, the rounded ones are both 8. -/
def storeNear : Store :=
  { users := [mkUser "U1" "O1" "Alice", mkUser "U2" "O1" "Bob"],
    campaigns := [mkCampaign "C1" "O1" "active"],
    achievements := [mkAchievement "A1" "U1" "C1" "sales" 8 true,
                     mkAchievement "A2" "U2" "C1" "sales" 8 true,
                     mkAchievement "A3" "U2" "C1" "sales" 1 true] }

/-! ## Theorems -/

theorem limitTo_eq_take {α : Type} (n : Nat) (l : List α) : limitTo n l = l.take n := by
  unfold limitTo
  split
  · rfl
  · rw [List.take_of_length_le (by omega)]

theorem length_limitTo_le {α : Type} (n : Nat) (l : List α) : (limitTo n l).length ≤ n := by
  rw [limitTo_eq_take, List.length_take]
  exact Nat.min_le_left _ _

theorem length_assignPositionsFrom (i : Nat) (l : List LeaderboardEntry) :
    (assignPositionsFrom i l).length = l.length := by
  induction l generalizing i with
  | nil => rfl
  | cons e l ih => simp [assignPositionsFrom, ih]

theorem position_assignPositionsFrom (l : List LeaderboardEntry) (i j : Nat)
    (h : j < (assignPositionsFrom i l).length) :
    ((assignPositionsFrom i l)[j]).position = i + j + 1 := by
  induction l generalizing i j with
  | nil => simp [assignPositionsFrom] at h
  | cons e l ih =>
    cases j with
    | zero => simp [assignPositionsFrom]
    | succ j =>
      simp only [assignPositionsFrom, List.getElem_cons_succ]
      rw [ih]
      omega

theorem map_withoutPosition_assignPositionsFrom (i : Nat) (l : List LeaderboardEntry) :
    (assignPositionsFrom i l).map withoutPosition = l.map withoutPosition := by
  induction l generalizing i with
  | nil => rfl
  | cons e l ih => simp [assignPositionsFrom, ih, withoutPosition]

theorem map_totalScore_assignPositionsFrom (i : Nat) (l : List LeaderboardEntry) :
    (assignPositionsFrom i l).map (fun e => e.totalScore) = l.map (fun e => e.totalScore) := by
  induction l generalizing i with
  | nil => rfl
  | cons e l ih => simp [assignPositionsFrom, ih]

/-- The two shapes of a 200 response of `getLeaderboard`. -/
theorem getLeaderboard_ok_cases {rt : Runtime} {s : Store} {uid : Option String}
    {orgID : String} {body : LeaderboardBody}
    (h : getLeaderboard rt s uid orgID = .ok body) :
    (campaignIDsOf s orgID = [] ∧ body = { leaderboard := [], count := 0 }) ∨
    (campaignIDsOf s orgID ≠ [] ∧
      body = { leaderboard := limitTo 50 (rankedEntries rt s orgID),
               count := (limitTo 50 (rankedEntries rt s orgID)).length }) := by
  unfold getLeaderboard at h
  split at h
  · cases h
  · split at h
    · cases h
    · split at h
      · cases h
      · split at h
        · cases h
        · split at h
          · cases h
          · split at h
            · left
              refine ⟨List.length_eq_zero.mp ‹_›, ?_⟩
              cases h; rfl
            · right
              refine ⟨fun hc => ?_, ?_⟩
              · rename_i hne
                exact hne (by simp [hc])
              · cases h; rfl

theorem map_userID_addAchievement (m : List LeaderboardEntry) (a : Achievement) :
    (addAchievement m a).map (fun e => e.userID) =
      if a.userID ∈ m.map (fun e => e.userID) then m.map (fun e => e.userID)
      else m.map (fun e => e.userID) ++ [a.userID] := by
  induction m with
  | nil => simp [addAchievement, newEntry]
  | cons e m ih =>
    by_cases h : e.userID = a.userID
    · simp [addAchievement, h, bumpEntry]
    · have h' : ¬ a.userID = e.userID := fun hh => h hh.symm
      simp only [addAchievement, h, if_false, List.map_cons, ih, List.mem_cons, h', false_or]
      split <;> simp

theorem mem_addAchievement {m : List LeaderboardEntry} {a : Achievement}
    {x : LeaderboardEntry} (hnd : (m.map (fun e => e.userID)).Nodup)
    (h : x ∈ addAchievement m a) :
    (x ∈ m ∧ x.userID ≠ a.userID) ∨
    (∃ e ∈ m, e.userID = a.userID ∧ x = bumpEntry e a) ∨
    (a.userID ∉ m.map (fun e => e.userID) ∧ x = newEntry a) := by
  induction m with
  | nil =>
    simp only [addAchievement, List.mem_singleton] at h
    exact Or.inr (Or.inr ⟨by simp, h⟩)
  | cons e m ih =>
    rw [List.map_cons, List.nodup_cons] at hnd
    by_cases hk : e.userID = a.userID
    · simp only [addAchievement, hk, if_true, List.mem_cons] at h
      rcases h with h | h
      · exact Or.inr (Or.inl ⟨e, List.mem_cons_self _ _, hk, h⟩)
      · refine Or.inl ⟨List.mem_cons_of_mem _ h, fun hx => hnd.1 ?_⟩
        rw [hk, ← hx]
        exact List.mem_map_of_mem _ h
    · simp only [addAchievement, hk, if_false, List.mem_cons] at h
      rcases h with h | h
      · subst h
        exact Or.inl ⟨List.mem_cons_self _ _, hk⟩
      · rcases ih hnd.2 h with ⟨h1, h2⟩ | ⟨e0, h1, h2, h3⟩ | ⟨h1, h2⟩
        · exact Or.inl ⟨List.mem_cons_of_mem _ h1, h2⟩
        · exact Or.inr (Or.inl ⟨e0, List.mem_cons_of_mem _ h1, h2, h3⟩)
        · refine Or.inr (Or.inr ⟨?_, h2⟩)
          simp only [List.map_cons, List.mem_cons, not_or]
          exact ⟨fun hh => hk hh.symm, h1⟩

theorem entryFor_append_of_ne (as : List Achievement) (a : Achievement) (u : String)
    (h : u ≠ a.userID) : entryFor (as ++ [a]) u = entryFor as u := by
  have h' : (a.userID == u) = false := by simpa using fun hh => h hh.symm
  simp [entryFor, List.filter_append, List.filter_cons, h']

theorem entryFor_append_self (as : List Achievement) (a : Achievement) :
    entryFor (as ++ [a]) a.userID = bumpEntry (entryFor as a.userID) a := by
  simp [entryFor, bumpEntry, List.filter_append, List.filter_cons]

theorem entryFor_of_not_mem (as : List Achievement) (u : String)
    (h : u ∉ as.map (fun a => a.userID)) :
    entryFor as u = { userID := u, displayName := "", totalScore := 0,
                      achievements := 0, position := 0 } := by
  have hf : as.filter (fun a => a.userID == u) = [] := by
    rw [List.filter_eq_nil_iff]
    intro a ha hh
    exact h (List.mem_map.mpr ⟨a, ha, by simpa using hh⟩)
  simp [entryFor, hf]

theorem tally_nil : Tally [] [] := by
  simp [Tally]

theorem tally_addAchievement {m : List LeaderboardEntry} {as : List Achievement}
    (a : Achievement) (h : Tally m as) : Tally (addAchievement m a) (as ++ [a]) := by
  obtain ⟨hnd, hent, hkeys⟩ := h
  refine ⟨?_, ?_, ?_⟩
  · rw [map_userID_addAchievement]
    split
    · exact hnd
    · rename_i hnot
      rw [List.nodup_append]
      refine ⟨hnd, List.nodup_singleton _, ?_⟩
      intro u hu hu'
      rw [List.mem_singleton] at hu'
      exact hnot (hu' ▸ hu)
  · intro x hx
    rcases mem_addAchievement hnd hx with ⟨h1, h2⟩ | ⟨e, h1, h2, h3⟩ | ⟨h1, h2⟩
    · rw [entryFor_append_of_ne _ _ _ h2]
      exact hent x h1
    · have hu : x.userID = a.userID := by rw [h3]; exact h2
      rw [hu, entryFor_append_self, h3, ← h2, ← hent e h1]
    · have hu : x.userID = a.userID := by rw [h2]; rfl
      have hno : a.userID ∉ as.map (fun a => a.userID) := fun hh => h1 ((hkeys _).mpr hh)
      rw [hu, entryFor_append_self, entryFor_of_not_mem _ _ hno, h2]
      simp [bumpEntry, newEntry]
  · intro u
    rw [map_userID_addAchievement]
    split
    · rename_i hin
      rw [hkeys, List.map_append, List.mem_append]
      constructor
      · exact Or.inl
      · rintro (h1 | h1)
        · exact h1
        · simp only [List.map_cons, List.map_nil, List.mem_singleton] at h1
          rw [h1]
          exact (hkeys _).mp hin
    · rw [List.mem_append, List.map_append, List.mem_append, hkeys]
      simp

theorem tally_foldl (as bs : List Achievement) (m : List LeaderboardEntry)
    (h : Tally m as) : Tally (bs.foldl addAchievement m) (as ++ bs) := by
  induction bs generalizing m as with
  | nil => simpa using h
  | cons b bs ih =>
    have := ih (as ++ [b]) (addAchievement m b) (tally_addAchievement b h)
    simpa using this

theorem foldl_addDoc (ds : List (Doc Achievement)) (m : List LeaderboardEntry) :
    ds.foldl addDoc m =
      ((ds.filter (fun d => d.decodes)).map (fun d => d.data)).foldl addAchievement m := by
  induction ds generalizing m with
  | nil => rfl
  | cons d ds ih =>
    cases hd : d.decodes <;> simp [addDoc, hd, ih, List.filter_cons]

theorem accumulateScores_eq (s : Store) (ids : List String) (m : List LeaderboardEntry) :
    accumulateScores s ids m = (observed s ids).foldl addAchievement m := by
  unfold accumulateScores observed observedDocs
  induction ids generalizing m with
  | nil => rfl
  | cons c ids ih =>
    simp only [List.foldl_cons, List.flatMap_cons, List.filter_append, List.map_append,
      List.foldl_append]
    rw [ih, foldl_addDoc]

/-- The map built by the achievements loop holds the tallies of the observed
achievements. -/
theorem tally_accumulateScores (s : Store) (ids : List String) :
    Tally (accumulateScores s ids []) (observed s ids) := by
  rw [accumulateScores_eq]
  simpa using tally_foldl [] (observed s ids) [] tally_nil

/-! ### Go's insertion sort keeps the contract of `sort.Slice` -/

theorem scoreLess_eq_false_iff (a b : LeaderboardEntry) :
    scoreLess a b = false ↔ a.totalScore ≤ b.totalScore := by
  simp [scoreLess]

theorem scoreLess_eq_true_iff (a b : LeaderboardEntry) :
    scoreLess a b = true ↔ b.totalScore < a.totalScore := by
  simp [scoreLess]

theorem bubbleLeft_perm {α : Type} (less : α → α → Bool) (x : α) (acc : List α) :
    (bubbleLeft less x acc).Perm (x :: acc) := by
  induction acc with
  | nil => exact List.Perm.refl _
  | cons y rest ih =>
    unfold bubbleLeft
    split
    · exact (List.Perm.cons y ih).trans (List.Perm.swap x y rest)
    · exact List.Perm.refl _

theorem foldl_bubbleLeft_perm {α : Type} (less : α → α → Bool) (l acc : List α) :
    (l.foldl (fun acc x => bubbleLeft less x acc) acc).Perm (l.reverse ++ acc) := by
  induction l generalizing acc with
  | nil => exact List.Perm.refl _
  | cons x l ih =>
    simp only [List.foldl_cons, List.reverse_cons, List.append_assoc, List.singleton_append]
    exact (ih _).trans (List.Perm.append_left _ (bubbleLeft_perm less x acc))

theorem insertionSortLessFunc_perm {α : Type} (less : α → α → Bool) (l : List α) :
    (insertionSortLessFunc less l).Perm l := by
  unfold insertionSortLessFunc
  refine (List.reverse_perm _).trans ?_
  have := foldl_bubbleLeft_perm less l []
  rw [List.append_nil] at this
  exact this.trans (List.reverse_perm l)

theorem bubbleLeft_sorted (x : LeaderboardEntry) (acc : List LeaderboardEntry)
    (h : acc.Pairwise (fun a b => a.totalScore ≤ b.totalScore)) :
    (bubbleLeft scoreLess x acc).Pairwise (fun a b => a.totalScore ≤ b.totalScore) := by
  induction acc with
  | nil => simp [bubbleLeft]
  | cons y rest ih =>
    rw [List.pairwise_cons] at h
    unfold bubbleLeft
    split
    · rename_i hlt
      rw [scoreLess_eq_true_iff] at hlt
      rw [List.pairwise_cons]
      refine ⟨fun w hw => ?_, ih h.2⟩
      rw [(bubbleLeft_perm scoreLess x rest).mem_iff, List.mem_cons] at hw
      rcases hw with hw | hw
      · rw [hw]; exact le_of_lt hlt
      · exact h.1 w hw
    · rename_i hnlt
      have hle : x.totalScore ≤ y.totalScore := by
        rw [← scoreLess_eq_false_iff]
        simpa using hnlt
      rw [List.pairwise_cons]
      refine ⟨fun w hw => ?_, List.pairwise_cons.mpr h⟩
      rw [List.mem_cons] at hw
      rcases hw with hw | hw
      · rw [hw]; exact hle
      · exact le_trans hle (h.1 w hw)

theorem foldl_bubbleLeft_sorted (l acc : List LeaderboardEntry)
    (h : acc.Pairwise (fun a b => a.totalScore ≤ b.totalScore)) :
    (l.foldl (fun acc x => bubbleLeft scoreLess x acc) acc).Pairwise
      (fun a b => a.totalScore ≤ b.totalScore) := by
  induction l generalizing acc with
  | nil => exact h
  | cons x l ih => exact ih _ (bubbleLeft_sorted x acc h)

theorem insertionSortLessFunc_sorted (l : List LeaderboardEntry) :
    (insertionSortLessFunc scoreLess l).Pairwise (fun a b => scoreLess b a = false) := by
  unfold insertionSortLessFunc
  rw [List.pairwise_reverse]
  have := foldl_bubbleLeft_sorted l [] List.Pairwise.nil
  exact this.imp (fun {a b} hab => (scoreLess_eq_false_iff a b).mpr hab)

theorem filter_bubbleLeft (k : Score) (x : LeaderboardEntry) (acc : List LeaderboardEntry) :
    (bubbleLeft scoreLess x acc).filter (fun e => decide (e.totalScore = k)) =
      (x :: acc).filter (fun e => decide (e.totalScore = k)) := by
  induction acc with
  | nil => rfl
  | cons y rest ih =>
    unfold bubbleLeft
    split
    · rename_i hlt
      rw [scoreLess_eq_true_iff] at hlt
      rw [List.filter_cons, ih]
      by_cases hx : x.totalScore = k
      · have hy : ¬ y.totalScore = k := by
          intro hy
          rw [hx, hy] at hlt
          exact lt_irrefl _ hlt
        simp [List.filter_cons, hx, hy]
      · simp [List.filter_cons, hx]
    · rfl

theorem filter_foldl_bubbleLeft (k : Score) (l acc : List LeaderboardEntry) :
    (l.foldl (fun acc x => bubbleLeft scoreLess x acc) acc).filter
        (fun e => decide (e.totalScore = k)) =
      (l.filter (fun e => decide (e.totalScore = k))).reverse ++
        acc.filter (fun e => decide (e.totalScore = k)) := by
  induction l generalizing acc with
  | nil => simp
  | cons x l ih =>
    rw [List.foldl_cons, ih, filter_bubbleLeft]
    by_cases hx : x.totalScore = k <;> simp [List.filter_cons, hx]

theorem insertionSortLessFunc_keepsTies (k : Score) (l : List LeaderboardEntry) :
    (insertionSortLessFunc scoreLess l).filter (fun e => decide (e.totalScore = k)) =
      l.filter (fun e => decide (e.totalScore = k)) := by
  unfold insertionSortLessFunc
  rw [List.filter_reverse, filter_foldl_bubbleLeft]
  simp

theorem lawful_rtInsertionOrder : rtInsertionOrder.Lawful :=
  ⟨fun m => List.Perm.refl m,
   fun l => ⟨insertionSortLessFunc_perm scoreLess l, insertionSortLessFunc_sorted l⟩⟩

theorem lawful_rtReverseOrder : rtReverseOrder.Lawful :=
  ⟨fun m => List.reverse_perm m,
   fun l => ⟨insertionSortLessFunc_perm scoreLess l, insertionSortLessFunc_sorted l⟩⟩

theorem keepsTies_rtInsertionOrder : rtInsertionOrder.KeepsTies :=
  fun l k => insertionSortLessFunc_keepsTies k l

theorem keepsTies_rtReverseOrder : rtReverseOrder.KeepsTies :=
  fun l k => insertionSortLessFunc_keepsTies k l

/-! ### From the map to the response -/

theorem resolveName_userID (s : Store) (e : LeaderboardEntry) :
    (resolveName s e).userID = e.userID := by
  unfold resolveName
  split
  · rfl
  · split <;> rfl

theorem resolveName_totalScore (s : Store) (e : LeaderboardEntry) :
    (resolveName s e).totalScore = e.totalScore := by
  unfold resolveName
  split
  · rfl
  · split <;> rfl

theorem resolveName_achievements (s : Store) (e : LeaderboardEntry) :
    (resolveName s e).achievements = e.achievements := by
  unfold resolveName
  split
  · rfl
  · split <;> rfl

/-- Up to positions, the ranked slice is a rearrangement of the map after the
display-name loop. -/
theorem rankedEntries_perm {rt : Runtime} (hrt : rt.Lawful) (s : Store) (orgID : String) :
    ((rankedEntries rt s orgID).map withoutPosition).Perm
      (((accumulateScores s (campaignIDsOf s orgID) []).map (resolveName s)).map
        withoutPosition) := by
  unfold rankedEntries assignPositions
  simp only []
  rw [map_withoutPosition_assignPositionsFrom]
  exact (((hrt.2 _).1).trans (hrt.1 _)).map _

theorem mem_rankedEntries {rt : Runtime} (hrt : rt.Lawful) {s : Store} {orgID : String}
    {e : LeaderboardEntry} (he : e ∈ rankedEntries rt s orgID) :
    ∃ e0 ∈ accumulateScores s (campaignIDsOf s orgID) [],
      withoutPosition e = withoutPosition (resolveName s e0) := by
  have h1 : withoutPosition e ∈ (rankedEntries rt s orgID).map withoutPosition :=
    List.mem_map_of_mem _ he
  rw [(rankedEntries_perm hrt s orgID).mem_iff, List.map_map, List.mem_map] at h1
  obtain ⟨e0, h0, h2⟩ := h1
  exact ⟨e0, h0, h2.symm⟩

theorem mem_leaderboard {rt : Runtime} {s : Store} {uid : Option String} {orgID : String}
    {body : LeaderboardBody} (h : getLeaderboard rt s uid orgID = .ok body)
    {e : LeaderboardEntry} (he : e ∈ body.leaderboard) : e ∈ rankedEntries rt s orgID := by
  rcases getLeaderboard_ok_cases h with ⟨_, hb⟩ | ⟨_, hb⟩
  · rw [hb] at he
    simp at he
  · rw [hb, limitTo_eq_take] at he
    exact List.mem_of_mem_take he

/-! ### The observed achievements and the store -/

theorem mem_campaignIDsOf (s : Store) (orgID cid : String) :
    cid ∈ campaignIDsOf s orgID ↔ inOrganization s orgID cid = true := by
  unfold campaignIDsOf inOrganization
  simp only [List.mem_map, List.mem_filter, List.any_eq_true, Bool.and_eq_true, beq_iff_eq]
  constructor
  · rintro ⟨d, ⟨hd, ho⟩, hi⟩
    exact ⟨d, hd, hi, ho⟩
  · rintro ⟨d, hd, hi, ho⟩
    exact ⟨d, ⟨hd, ho⟩, hi⟩

theorem nodup_campaignIDsOf (s : Store) (orgID : String)
    (hids : (s.campaigns.map (fun d => d.id)).Nodup) : (campaignIDsOf s orgID).Nodup :=
  List.Nodup.sublist ((List.filter_sublist _).map _) hids

theorem filter_campaign_cons_perm (l : List (Doc Achievement)) (c : String)
    (ids : List String) (hc : c ∉ ids) (q : Doc Achievement → Bool) :
    (l.filter (fun d => decide (d.data.campaignID ∈ c :: ids) && q d)).Perm
      (l.filter (fun d => (d.data.campaignID == c) && q d) ++
        l.filter (fun d => decide (d.data.campaignID ∈ ids) && q d)) := by
  have h := (List.filter_append_perm (fun d : Doc Achievement => d.data.campaignID == c)
    (l.filter (fun d => decide (d.data.campaignID ∈ c :: ids) && q d))).symm
  rw [List.filter_filter, List.filter_filter] at h
  have e1 : l.filter (fun d => (d.data.campaignID == c) &&
      (decide (d.data.campaignID ∈ c :: ids) && q d)) =
      l.filter (fun d => (d.data.campaignID == c) && q d) := by
    apply List.filter_congr
    intro d _
    by_cases hd : d.data.campaignID = c
    · simp [hd]
    · have hb : (d.data.campaignID == c) = false := by simpa using hd
      simp [hb]
  have e2 : l.filter (fun d => (!(d.data.campaignID == c)) &&
      (decide (d.data.campaignID ∈ c :: ids) && q d)) =
      l.filter (fun d => decide (d.data.campaignID ∈ ids) && q d) := by
    apply List.filter_congr
    intro d _
    by_cases hd : d.data.campaignID = c
    · simp [hd, hc]
    · have hb : (d.data.campaignID == c) = false := by simpa using hd
      simp [hb, hd]
  rw [e1, e2] at h
  exact h

theorem flatMap_filter_perm (l : List (Doc Achievement)) (q : Doc Achievement → Bool)
    (ids : List String) (hnd : ids.Nodup) :
    (ids.flatMap (fun cid => l.filter (fun d => (d.data.campaignID == cid) && q d))).Perm
      (l.filter (fun d => decide (d.data.campaignID ∈ ids) && q d)) := by
  induction ids with
  | nil => simp
  | cons c ids ih =>
    rw [List.nodup_cons] at hnd
    rw [List.flatMap_cons]
    exact ((ih hnd.2).append_left _).trans (filter_campaign_cons_perm l c ids hnd.1 q).symm

/-- With distinct campaign document ids, the achievements of a user that the
loop observes are, up to order, the verified achievements of that user in the
campaigns of the organization. -/
theorem observed_filter_perm (s : Store) (orgID u : String)
    (hids : (s.campaigns.map (fun d => d.id)).Nodup) :
    ((observed s (campaignIDsOf s orgID)).filter (fun a => a.userID == u)).Perm
      (verifiedOf s orgID u) := by
  have hp := flatMap_filter_perm s.achievements (fun d => d.data.verified == true)
    (campaignIDsOf s orgID) (nodup_campaignIDsOf s orgID hids)
  have hp2 := (((hp.filter (fun d => d.decodes)).map (fun d => d.data)).filter
    (fun a => a.userID == u))
  unfold observed observedDocs verifiedAchievementDocs
  refine hp2.trans ?_
  unfold verifiedOf
  rw [List.filter_map, List.filter_filter, List.filter_filter]
  apply List.Perm.of_eq
  congr 1
  apply List.filter_congr
  intro d _
  have hm := mem_campaignIDsOf s orgID d.data.campaignID
  cases hin : inOrganization s orgID d.data.campaignID
  · have : d.data.campaignID ∉ campaignIDsOf s orgID := by
      rw [hm, hin]; simp
    simp [this]
  · have : d.data.campaignID ∈ campaignIDsOf s orgID := hm.mpr hin
    simp only [Function.comp, this, decide_True, Bool.true_and, Bool.and_true]
    cases d.decodes <;> cases d.data.verified <;> simp

/-- Claim C1. For a runtime that keeps its contracts and a store whose
campaign documents have distinct ids, every entry of a 200 response of
`getLeaderboard` carries as `totalScore` the sum of `value` over the verified
achievements of its user in the campaigns of the organization, and as
`achievements` their number. -/
theorem getLeaderboard_entry_totals (rt : Runtime) (hrt : rt.Lawful) (s : Store)
    (hids : (s.campaigns.map (fun d => d.id)).Nodup)
    (uid : Option String) (orgID : String) (body : LeaderboardBody)
    (h : getLeaderboard rt s uid orgID = .ok body)
    (e : LeaderboardEntry) (he : e ∈ body.leaderboard) :
    e.totalScore = ((verifiedOf s orgID e.userID).map (fun a => a.value)).sum ∧
    e.achievements = (verifiedOf s orgID e.userID).length := by
  obtain ⟨e0, h0, h1⟩ := mem_rankedEntries hrt (mem_leaderboard h he)
  have ht := (tally_accumulateScores s (campaignIDsOf s orgID)).2.1 e0 h0
  have hu : e.userID = e0.userID := by
    have := congrArg LeaderboardEntry.userID h1
    simpa [withoutPosition, resolveName_userID] using this
  have hs : e.totalScore = e0.totalScore := by
    have := congrArg LeaderboardEntry.totalScore h1
    simpa [withoutPosition, resolveName_totalScore] using this
  have ha : e.achievements = e0.achievements := by
    have := congrArg LeaderboardEntry.achievements h1
    simpa [withoutPosition, resolveName_achievements] using this
  have hp := observed_filter_perm s orgID e0.userID hids
  rw [hs, ha, hu]
  constructor
  · rw [← (hp.map (fun a => a.value)).sum_eq, ht]
    simp [entryFor]
  · rw [← hp.length_eq, ht]
    simp [entryFor]

theorem getLeaderboard_storeMixed :
    getLeaderboard rtInsertionOrder storeMixed (some "U1") "O1" =
      .ok { leaderboard := leaderboardMixed, count := 2 } := by
  decide

theorem getLeaderboard_entry_totals_witness :
    rtInsertionOrder.Lawful ∧ (storeMixed.campaigns.map (fun d => d.id)).Nodup ∧
    getLeaderboard rtInsertionOrder storeMixed (some "U1") "O1" =
      .ok { leaderboard := leaderboardMixed, count := 2 } ∧
    ((17 : Score) = ((verifiedOf storeMixed "O1" "U1").map (fun a => a.value)).sum ∧
      2 = (verifiedOf storeMixed "O1" "U1").length) ∧
    getLeaderboard rtInsertionOrder storeSingle (some "U1") "O1" =
      .ok { leaderboard := [⟨"U1", "Alice", 10, 1, 1⟩], count := 1 } ∧
    ((10 : Score) = ((verifiedOf storeSingle "O1" "U1").map (fun a => a.value)).sum ∧
      1 = (verifiedOf storeSingle "O1" "U1").length) :=
  ⟨lawful_rtInsertionOrder, by decide, getLeaderboard_storeMixed,
   getLeaderboard_entry_totals rtInsertionOrder lawful_rtInsertionOrder storeMixed
     (by decide) (some "U1") "O1" _ getLeaderboard_storeMixed ⟨"U1", "Alice", 17, 2, 1⟩
     (by simp [leaderboardMixed]),
   by decide,
   getLeaderboard_entry_totals rtInsertionOrder lawful_rtInsertionOrder storeSingle
     (by decide) (some "U1") "O1" { leaderboard := [⟨"U1", "Alice", 10, 1, 1⟩], count := 1 }
     (by decide) ⟨"U1", "Alice", 10, 1, 1⟩ (by simp)⟩

theorem rankedEntries_pairwise {rt : Runtime} (hrt : rt.Lawful) (s : Store) (orgID : String) :
    (rankedEntries rt s orgID).Pairwise (fun a b => b.totalScore ≤ a.totalScore) := by
  have h1 : ((rankedEntries rt s orgID).map (fun e => e.totalScore)).Pairwise
      (fun x y => y ≤ x) := by
    unfold rankedEntries assignPositions
    simp only []
    rw [map_totalScore_assignPositionsFrom, List.pairwise_map]
    exact ((hrt.2 _).2).imp (fun {a b} hab => (scoreLess_eq_false_iff b a).mp hab)
  exact List.pairwise_map.mp h1

theorem leaderboard_pairwise {rt : Runtime} (hrt : rt.Lawful) {s : Store}
    {uid : Option String} {orgID : String} {body : LeaderboardBody}
    (h : getLeaderboard rt s uid orgID = .ok body) :
    body.leaderboard.Pairwise (fun a b => b.totalScore ≤ a.totalScore) := by
  rcases getLeaderboard_ok_cases h with ⟨_, hb⟩ | ⟨_, hb⟩
  · rw [hb]
    exact List.Pairwise.nil
  · rw [hb, limitTo_eq_take]
    exact List.Pairwise.sublist (List.take_sublist _ _) (rankedEntries_pairwise hrt s orgID)

/-- Claim C2. For a runtime that keeps its contracts, the list of a 200
response of `getLeaderboard` is sorted by `totalScore` in descending order:
for all indices `i < j`, entry `i` has a score at least that of entry `j`. -/
theorem getLeaderboard_sorted_desc (rt : Runtime) (hrt : rt.Lawful) (s : Store)
    (uid : Option String) (orgID : String) (body : LeaderboardBody)
    (h : getLeaderboard rt s uid orgID = .ok body)
    (i j : Nat) (hi : i < body.leaderboard.length) (hj : j < body.leaderboard.length)
    (hij : i < j) :
    body.leaderboard[i].totalScore ≥ body.leaderboard[j].totalScore :=
  List.pairwise_iff_getElem.mp (leaderboard_pairwise hrt h) i j hi hj hij

theorem getLeaderboard_sorted_desc_witness :
    rtReverseOrder.Lawful ∧
    getLeaderboard rtReverseOrder storeMixed (some "U1") "O1" =
      .ok { leaderboard := leaderboardMixed, count := 2 } ∧
    (leaderboardMixed[0]).totalScore ≥ (leaderboardMixed[1]).totalScore :=
  ⟨lawful_rtReverseOrder, by decide,
   getLeaderboard_sorted_desc rtReverseOrder lawful_rtReverseOrder storeMixed (some "U1") "O1"
     { leaderboard := leaderboardMixed, count := 2 } (by decide) 0 1 (by decide) (by decide)
     (by decide)⟩

/-- Claim C4. The entry at index `i` (from 0) of the list of a 200 response of
`getLeaderboard` has `position = i + 1`. -/
theorem getLeaderboard_position (rt : Runtime) (s : Store)
    (uid : Option String) (orgID : String) (body : LeaderboardBody)
    (h : getLeaderboard rt s uid orgID = .ok body)
    (i : Nat) (hi : i < body.leaderboard.length) :
    body.leaderboard[i].position = i + 1 := by
  rcases getLeaderboard_ok_cases h with ⟨_, hb⟩ | ⟨_, hb⟩
  · subst hb
    simp at hi
  · subst hb
    simp only [limitTo_eq_take, List.getElem_take]
    unfold rankedEntries assignPositions
    simp only []
    rw [position_assignPositionsFrom]
    omega

theorem getLeaderboard_position_witness :
    getLeaderboard rtInsertionOrder storeMixed (some "U1") "O1" =
      .ok { leaderboard := leaderboardMixed, count := 2 } ∧
    (leaderboardMixed[1]).position = 1 + 1 :=
  ⟨getLeaderboard_storeMixed,
   getLeaderboard_position rtInsertionOrder storeMixed (some "U1") "O1"
     { leaderboard := leaderboardMixed, count := 2 } getLeaderboard_storeMixed 1 (by decide)⟩

/-- The `topPerformers` of a 200 response of `getOrganizationAnalytics`. -/
theorem topPerformers_of_ok {rt : Runtime} {s : Store} {uid : Option String}
    {orgID : String} {a : OrganizationAnalytics}
    (h : getOrganizationAnalytics rt s uid orgID = .ok a) :
    a.topPerformers =
      topPerformersOf rt s ((decodedCampaignDocs s orgID).map (fun d => d.id)) := by
  unfold getOrganizationAnalytics at h
  split at h
  · cases h
  · split at h
    · cases h
    · split at h
      · cases h
      · split at h
        · cases h
        · split at h
          · cases h
          · cases h
            rfl

theorem rankedEntries_of_no_campaign {rt : Runtime} (hrt : rt.Lawful) {s : Store}
    {orgID : String} (h : campaignIDsOf s orgID = []) : rankedEntries rt s orgID = [] := by
  unfold rankedEntries
  simp only [h, accumulateScores, List.foldl_nil, List.map_nil]
  have h1 : rt.mapRange [] = [] := List.Perm.eq_nil (hrt.1 [])
  rw [h1]
  have h2 : rt.sortSlice scoreLess [] = [] := List.Perm.eq_nil (hrt.2 []).1
  rw [h2]
  rfl

/-- Claim C5. For a runtime that keeps its contracts, the list of a 200
response of `getLeaderboard` has at most 50 entries and is exactly the first
`min n 50` entries of the ranked slice of length `n`; the `topPerformers` of a
200 response of `getOrganizationAnalytics` has at most 5 entries. -/
theorem truncation_bounds (rt : Runtime) (hrt : rt.Lawful) (s : Store)
    (uid : Option String) (orgID : String) :
    (∀ body, getLeaderboard rt s uid orgID = .ok body →
      body.leaderboard.length ≤ 50 ∧
      body.leaderboard =
        (rankedEntries rt s orgID).take (min (rankedEntries rt s orgID).length 50) ∧
      body.leaderboard.length = min (rankedEntries rt s orgID).length 50) ∧
    (∀ a, getOrganizationAnalytics rt s uid orgID = .ok a → a.topPerformers.length ≤ 5) := by
  constructor
  · intro body h
    have key : body.leaderboard = (rankedEntries rt s orgID).take 50 := by
      rcases getLeaderboard_ok_cases h with ⟨hc, hb⟩ | ⟨_, hb⟩
      · rw [hb, rankedEntries_of_no_campaign hrt hc]
        rfl
      · rw [hb, limitTo_eq_take]
    have hmin : (rankedEntries rt s orgID).take (min (rankedEntries rt s orgID).length 50) =
        (rankedEntries rt s orgID).take 50 := by
      rcases Nat.le_total (rankedEntries rt s orgID).length 50 with hl | hl
      · rw [Nat.min_eq_left hl, List.take_of_length_le hl, List.take_of_length_le (le_refl _)]
      · rw [Nat.min_eq_right hl]
    refine ⟨?_, ?_, ?_⟩
    · rw [key, List.length_take]
      exact Nat.min_le_left _ _
    · rw [key, hmin]
    · rw [key, List.length_take, Nat.min_comm]
  · intro a h
    rw [topPerformers_of_ok h]
    exact length_limitTo_le 5 _

theorem truncation_bounds_witness :
    rtInsertionOrder.Lawful ∧
    getLeaderboard rtInsertionOrder storeMixed (some "U1") "O1" =
      .ok { leaderboard := leaderboardMixed, count := 2 } ∧
    (leaderboardMixed.length ≤ 50 ∧
      leaderboardMixed =
        (rankedEntries rtInsertionOrder storeMixed "O1").take
          (min (rankedEntries rtInsertionOrder storeMixed "O1").length 50) ∧
      leaderboardMixed.length = min (rankedEntries rtInsertionOrder storeMixed "O1").length 50) ∧
    (∃ a, getOrganizationAnalytics rtInsertionOrder storeMixed (some "U1") "O1" = .ok a ∧
      a.topPerformers.length ≤ 5) :=
  ⟨lawful_rtInsertionOrder, getLeaderboard_storeMixed,
   (truncation_bounds rtInsertionOrder lawful_rtInsertionOrder storeMixed (some "U1") "O1").1
     { leaderboard := leaderboardMixed, count := 2 } getLeaderboard_storeMixed,
   ⟨_, rfl,
    (truncation_bounds rtInsertionOrder lawful_rtInsertionOrder storeMixed (some "U1") "O1").2
      _ rfl⟩⟩

/-! ### Empty leaderboards -/

theorem getLeaderboard_of_gate {rt : Runtime} {s : Store} {u orgID : String} {d : Doc User}
    (horg : orgID ≠ "") (hdoc : getUserDoc s u = some d) (hdec : d.decodes = true)
    (hmem : d.data.organizationID = orgID) :
    getLeaderboard rt s (some u) orgID =
      if (campaignIDsOf s orgID).length = 0 then .ok { leaderboard := [], count := 0 }
      else .ok { leaderboard := limitTo 50 (rankedEntries rt s orgID),
                 count := (limitTo 50 (rankedEntries rt s orgID)).length } := by
  unfold getLeaderboard
  simp [horg, hdoc, hdec, hmem]

theorem accumulateScores_of_no_docs (s : Store) (ids : List String)
    (h : ∀ cid ∈ ids, verifiedAchievementDocs s cid = []) (m : List LeaderboardEntry) :
    accumulateScores s ids m = m := by
  unfold accumulateScores
  induction ids generalizing m with
  | nil => rfl
  | cons c ids ih =>
    rw [List.foldl_cons, h c (List.mem_cons_self _ _), List.foldl_nil]
    exact ih (fun cid hc => h cid (List.mem_cons_of_mem _ hc)) m

/-! ### The empty leaderboard -/

/-- The list of `getLeaderboard` holds the elements of the slice that is
encoded, for a runtime that keeps its contracts. -/
theorem getLeaderboardJSON_elems (rt : Runtime) (hrt : rt.Lawful) (s : Store)
    (uid : Option String) (orgID : String) :
    listView (getLeaderboardJSON rt s uid orgID) = getLeaderboard rt s uid orgID := by
  unfold getLeaderboardJSON getLeaderboard
  by_cases h1 : orgID = ""
  · rw [if_pos h1, if_pos h1]
    rfl
  rw [if_neg h1, if_neg h1]
  cases uid with
  | none => rfl
  | some u =>
    simp only []
    cases hdoc : getUserDoc s u with
    | none => rfl
    | some d =>
      simp only []
      by_cases h2 : d.decodes = false
      · rw [if_pos h2, if_pos h2]
        rfl
      rw [if_neg h2, if_neg h2]
      by_cases h3 : d.data.organizationID ≠ orgID
      · rw [if_pos h3, if_pos h3]
        rfl
      rw [if_neg h3, if_neg h3]
      by_cases h4 : (campaignIDsOf s orgID).length = 0
      · rw [if_pos h4, if_pos h4]
        rfl
      rw [if_neg h4, if_neg h4]
      by_cases hz : (rangedScores rt s orgID).length = 0
      · have hnil : rangedScores rt s orgID = [] := List.length_eq_zero.mp hz
        have hr : rankedEntries rt s orgID = [] := by
          unfold rankedEntries
          unfold rangedScores at hnil
          simp only [hnil]
          have h5 : rt.sortSlice scoreLess [] = [] := List.Perm.eq_nil (hrt.2 []).1
          rw [h5]
          rfl
        simp only [hz, hr, if_true]
        rfl
      · simp only [hz, if_false]
        rfl

/-- Claim C9, the slip. Without campaigns `getLeaderboard` sends the empty
array with count 0; with a campaign whose only achievement is unverified it
sends the nil slice, encoded as `null`, with count 0, under either order of
the map range. -/
theorem empty_leaderboard_sent_as_null :
    getLeaderboardJSON rtInsertionOrder storeNoCampaign (some "U1") "O1" =
      .ok { leaderboard := .array [], count := 0 } ∧
    getLeaderboardJSON rtInsertionOrder storeUnverifiedOnly (some "U1") "O1" =
      .ok { leaderboard := .null, count := 0 } ∧
    getLeaderboardJSON rtReverseOrder storeUnverifiedOnly (some "U1") "O1" =
      .ok { leaderboard := .null, count := 0 } := by
  decide

/-! ### Unverified achievements -/

theorem verifiedAchievementDocs_eq_filter (s : Store) (cid : String) :
    verifiedAchievementDocs s cid =
      (s.achievements.filter (fun d => d.data.verified)).filter
        (fun d => d.data.campaignID == cid) := by
  unfold verifiedAchievementDocs
  rw [List.filter_filter]
  apply List.filter_congr
  intro d _
  cases d.data.verified <;> simp

theorem verifiedAchievementDocs_congr {s t : Store}
    (ha : t.achievements.filter (fun d => d.data.verified) =
      s.achievements.filter (fun d => d.data.verified)) :
    verifiedAchievementDocs t = verifiedAchievementDocs s := by
  funext cid
  rw [verifiedAchievementDocs_eq_filter, verifiedAchievementDocs_eq_filter, ha]

/-- Claim C6. Two stores with the same users and campaigns whose achievement
collections differ only in unverified documents (the verified documents are
the same, in the same order) get the same response from `getLeaderboard`
and the same response from `getOrganizationAnalytics`, `achievementTypes`
included. -/
theorem unverified_achievements_ignored (rt : Runtime) (s t : Store)
    (hu : t.users = s.users) (hc : t.campaigns = s.campaigns)
    (ha : t.achievements.filter (fun d => d.data.verified) =
      s.achievements.filter (fun d => d.data.verified))
    (uid : Option String) (orgID : String) :
    getLeaderboard rt t uid orgID = getLeaderboard rt s uid orgID ∧
    getOrganizationAnalytics rt t uid orgID = getOrganizationAnalytics rt s uid orgID := by
  have hv := verifiedAchievementDocs_congr ha
  have hg : getUserDoc t = getUserDoc s := by
    funext x
    unfold getUserDoc
    rw [hu]
  have hr : resolveName t = resolveName s := by
    funext e
    unfold resolveName
    rw [hg]
  have hp : resolvePerformer t = resolvePerformer s := by
    funext e
    unfold resolvePerformer
    rw [hg]
  have hi : campaignIDsOf t = campaignIDsOf s := by
    funext o
    unfold campaignIDsOf
    rw [hc]
  have hacc : accumulateScores t = accumulateScores s := by
    funext ids m
    unfold accumulateScores
    rw [hv]
  have hrank : rankedEntries rt t = rankedEntries rt s := by
    funext o
    unfold rankedEntries
    rw [hacc, hr, hi]
  have hdc : decodedCampaignDocs t = decodedCampaignDocs s := by
    funext o
    unfold decodedCampaignDocs
    rw [hc]
  have hcount : countAchievements t = countAchievements s := by
    funext ids
    unfold countAchievements
    rw [hv]
  have hcomp : completedCampaigns t = completedCampaigns s := by
    funext ids
    unfold completedCampaigns getCampaignDoc
    rw [hc]
  have hemp : employeeCount t = employeeCount s := by
    funext o
    unfold employeeCount
    rw [hu]
  have htop : topPerformersOf rt t = topPerformersOf rt s := by
    funext ids
    unfold topPerformersOf
    rw [hacc, hp]
  constructor
  · unfold getLeaderboard
    rw [hg, hi, hrank]
  · unfold getOrganizationAnalytics
    rw [hg, hdc, hcount, hcomp, hemp, htop]

theorem unverified_achievements_ignored_witness :
    storeTieUnverified.users = storeTie.users ∧
    storeTieUnverified.campaigns = storeTie.campaigns ∧
    storeTieUnverified.achievements.filter (fun d => d.data.verified) =
      storeTie.achievements.filter (fun d => d.data.verified) ∧
    getLeaderboard rtInsertionOrder storeTieUnverified (some "U1") "O1" =
      getLeaderboard rtInsertionOrder storeTie (some "U1") "O1" ∧
    getOrganizationAnalytics rtInsertionOrder storeTieUnverified (some "U1") "O1" =
      getOrganizationAnalytics rtInsertionOrder storeTie (some "U1") "O1" :=
  ⟨by decide, by decide, by decide,
   unverified_achievements_ignored rtInsertionOrder storeTie storeTieUnverified
     (by decide) (by decide) (by decide) (some "U1") "O1"⟩

/-! ### Top performers and users without a record -/

/-- Claim C7, evaluated. On `storeAscending` with the map ranged in insertion
order, `topPerformers` is `U1` (5) then `U2` (10), both with position 0, while
the leaderboard of the same store is `U2` at position 1, then `U1` at
position 2; with the map ranged in reverse order the users of `topPerformers`
come in the order of the leaderboard, still with position 0. -/
theorem topPerformers_not_leaderboard_prefix :
    (∃ a, getOrganizationAnalytics rtInsertionOrder storeAscending (some "U1") "O1" = .ok a ∧
      a.topPerformers = [⟨"U1", "Alice", 5, 1, 0⟩, ⟨"U2", "Bob", 10, 1, 0⟩]) ∧
    getLeaderboard rtInsertionOrder storeAscending (some "U1") "O1" =
      .ok { leaderboard := [⟨"U2", "Bob", 10, 1, 1⟩, ⟨"U1", "Alice", 5, 1, 2⟩], count := 2 } ∧
    (∃ a, getOrganizationAnalytics rtReverseOrder storeAscending (some "U1") "O1" = .ok a ∧
      a.topPerformers = [⟨"U2", "Bob", 10, 1, 0⟩, ⟨"U1", "Alice", 5, 1, 0⟩]) ∧
    getLeaderboard rtReverseOrder storeAscending (some "U1") "O1" =
      .ok { leaderboard := [⟨"U2", "Bob", 10, 1, 1⟩, ⟨"U1", "Alice", 5, 1, 2⟩], count := 2 } :=
  ⟨⟨_, rfl, by decide⟩, by decide, ⟨_, rfl, by decide⟩, by decide⟩

/-- Claim C8, evaluated. On `storeOrphan`, where `U9` has a verified
achievement and no user document, `getLeaderboard` keeps `U9` with an empty
display name, while `getOrganizationAnalytics` leaves `U9` out of
`topPerformers`. -/
theorem getLeaderboard_keeps_user_without_record :
    getLeaderboard rtInsertionOrder storeOrphan (some "U1") "O1" =
      .ok { leaderboard := [⟨"U9", "", 10, 1, 1⟩], count := 1 } ∧
    getUserDoc storeOrphan "U9" = none ∧
    (∃ a, getOrganizationAnalytics rtInsertionOrder storeOrphan (some "U1") "O1" = .ok a ∧
      a.topPerformers = []) :=
  ⟨by decide, by decide, ⟨_, rfl, by decide⟩⟩

/-! ### Ties -/

/-- Claim C3, refuted as stated. In scenario 3 (`U1` and `U2` each with one
verified achievement of value 5, that of `U1` observed first), a runtime that
ranges the map in reverse of insertion order and sorts by insertion sort, as
`sort.Slice` does on two elements, puts `U2` before `U1`. -/
theorem tie_not_in_first_seen_order :
    rtReverseOrder.Lawful ∧
    (observed storeTie (campaignIDsOf storeTie "O1")).map (fun a => a.userID) = ["U1", "U2"] ∧
    getLeaderboard rtReverseOrder storeTie (some "U1") "O1" =
      .ok { leaderboard := [⟨"U2", "Bob", 5, 1, 1⟩, ⟨"U1", "Alice", 5, 1, 2⟩], count := 2 } :=
  ⟨lawful_rtReverseOrder, by decide, by decide⟩

theorem filter_score_assignPositionsFrom (k : Score) (i : Nat) (l : List LeaderboardEntry) :
    ((assignPositionsFrom i l).filter (fun e => decide (e.totalScore = k))).map
        (fun e => e.userID) =
      (l.filter (fun e => decide (e.totalScore = k))).map (fun e => e.userID) := by
  induction l generalizing i with
  | nil => rfl
  | cons e l ih =>
    by_cases hk : e.totalScore = k <;> simp [assignPositionsFrom, List.filter_cons, hk, ih]

/-- Claim C3, amended. When `sort.Slice` leaves entries of equal score in
place, the users of a 200 response of `getLeaderboard` that share a total
score `k` appear in the order in which the range over the map yields them:
their list is a prefix (the part the truncation keeps) of the users of score
`k` in range order. -/
theorem ties_follow_range_order (rt : Runtime) (hk : rt.KeepsTies) (s : Store)
    (uid : Option String) (orgID : String) (body : LeaderboardBody)
    (h : getLeaderboard rt s uid orgID = .ok body) (k : Score) :
    (body.leaderboard.filter (fun e => decide (e.totalScore = k))).map (fun e => e.userID) <+:
      ((rangedScores rt s orgID).filter (fun e => decide (e.totalScore = k))).map
        (fun e => e.userID) := by
  rcases getLeaderboard_ok_cases h with ⟨_, hb⟩ | ⟨_, hb⟩
  · rw [hb]
    exact List.nil_prefix
  · rw [hb, limitTo_eq_take]
    have h1 := ((List.take_prefix 50 (rankedEntries rt s orgID)).filter
      (fun e => decide (e.totalScore = k))).map (fun e => e.userID)
    have h2 : ((rankedEntries rt s orgID).filter (fun e => decide (e.totalScore = k))).map
        (fun e => e.userID) =
        ((rangedScores rt s orgID).filter (fun e => decide (e.totalScore = k))).map
          (fun e => e.userID) := by
      unfold rankedEntries assignPositions rangedScores
      simp only []
      rw [filter_score_assignPositionsFrom, hk]
    rw [← h2]
    exact h1

theorem ties_follow_range_order_witness :
    rtReverseOrder.KeepsTies ∧
    getLeaderboard rtReverseOrder storeTie (some "U1") "O1" =
      .ok { leaderboard := [⟨"U2", "Bob", 5, 1, 1⟩, ⟨"U1", "Alice", 5, 1, 2⟩], count := 2 } ∧
    (rangedScores rtReverseOrder storeTie "O1").map (fun e => e.userID) = ["U2", "U1"] ∧
    ((([⟨"U2", "Bob", 5, 1, 1⟩, ⟨"U1", "Alice", 5, 1, 2⟩] : List LeaderboardEntry).filter
        (fun e => decide (e.totalScore = 5))).map (fun e => e.userID) <+:
      ((rangedScores rtReverseOrder storeTie "O1").filter
        (fun e => decide (e.totalScore = 5))).map (fun e => e.userID)) :=
  ⟨keepsTies_rtReverseOrder, by decide, by decide,
   ties_follow_range_order rtReverseOrder keepsTies_rtReverseOrder storeTie (some "U1") "O1"
     { leaderboard := [⟨"U2", "Bob", 5, 1, 1⟩, ⟨"U1", "Alice", 5, 1, 2⟩], count := 2 }
     (by decide) 5⟩

/-! ### Dependence on the runtime and on the order of the store -/

/-- Claim C10, refuted as stated. Over the same store (scenario 3) two
runtimes that keep their contracts and differ only in the order in which
they range a map give different responses of `getLeaderboard`, and different
`topPerformers` over `storeAscending`. -/
theorem response_depends_on_map_range :
    rtInsertionOrder.Lawful ∧ rtReverseOrder.Lawful ∧
    getLeaderboard rtInsertionOrder storeTie (some "U1") "O1" ≠
      getLeaderboard rtReverseOrder storeTie (some "U1") "O1" ∧
    (∃ a b, getOrganizationAnalytics rtInsertionOrder storeAscending (some "U1") "O1" = .ok a ∧
      getOrganizationAnalytics rtReverseOrder storeAscending (some "U1") "O1" = .ok b ∧
      a.topPerformers ≠ b.topPerformers) :=
  ⟨lawful_rtInsertionOrder, lawful_rtReverseOrder, by decide, ⟨_, _, rfl, rfl, by decide⟩⟩

theorem entryFor_perm {as bs : List Achievement} (h : as.Perm bs) (u : String) :
    entryFor as u = entryFor bs u := by
  have hf := h.filter (fun a => a.userID == u)
  unfold entryFor
  rw [(hf.map (fun a => a.value)).sum_eq, hf.length_eq]

theorem tally_perm {m n : List LeaderboardEntry} {as bs : List Achievement}
    (hm : Tally m as) (hn : Tally n bs) (h : as.Perm bs) : n.Perm m := by
  have key : ∀ {m n : List LeaderboardEntry} {as bs : List Achievement},
      Tally m as → Tally n bs → as.Perm bs → ∀ e, e ∈ m → e ∈ n := by
    intro m n as bs hm hn h e he
    have hu : e.userID ∈ n.map (fun e => e.userID) := by
      rw [hn.2.2, ← (h.map (fun a => a.userID)).mem_iff, ← hm.2.2]
      exact List.mem_map_of_mem _ he
    obtain ⟨x, hx, hxu⟩ := List.mem_map.mp hu
    have hxe : x = e := by
      rw [hm.2.1 e he, hn.2.1 x hx, hxu]
      exact (entryFor_perm h e.userID).symm
    exact hxe ▸ hx
  rw [List.perm_ext_iff_of_nodup (List.Nodup.of_map _ hn.1) (List.Nodup.of_map _ hm.1)]
  exact fun e => ⟨key hn hm h.symm e, key hm hn h e⟩

theorem observed_perm {s t : Store} (hc : t.campaigns.Perm s.campaigns)
    (ha : t.achievements.Perm s.achievements) (orgID : String) :
    (observed t (campaignIDsOf t orgID)).Perm (observed s (campaignIDsOf s orgID)) := by
  have hids : (campaignIDsOf t orgID).Perm (campaignIDsOf s orgID) :=
    (hc.filter _).map _
  have h1 : (observedDocs t (campaignIDsOf t orgID)).Perm
      (observedDocs s (campaignIDsOf s orgID)) := by
    unfold observedDocs
    refine (List.Perm.flatMap_right _ hids).trans ?_
    exact List.Perm.flatMap_left _ (fun cid _ => ha.filter _)
  exact (h1.filter _).map _

theorem accumulateScores_perm {s t : Store} (hc : t.campaigns.Perm s.campaigns)
    (ha : t.achievements.Perm s.achievements) (orgID : String) :
    (accumulateScores t (campaignIDsOf t orgID) []).Perm
      (accumulateScores s (campaignIDsOf s orgID) []) :=
  tally_perm (tally_accumulateScores s _) (tally_accumulateScores t _)
    (observed_perm hc ha orgID).symm

theorem eq_of_perm_of_sorted_distinct {l l' : List LeaderboardEntry} (hp : l'.Perm l)
    (hs : l.Pairwise (fun a b => scoreLess b a = false))
    (hs' : l'.Pairwise (fun a b => scoreLess b a = false))
    (hd : (l.map (fun e => e.totalScore)).Nodup) : l' = l := by
  have hd' : (l'.map (fun e => e.totalScore)).Nodup := ((hp.map _).nodup_iff).mpr hd
  have strict : ∀ {x : List LeaderboardEntry},
      x.Pairwise (fun a b => scoreLess b a = false) →
      (x.map (fun e => e.totalScore)).Nodup →
      x.Pairwise (fun a b => b.totalScore < a.totalScore) := by
    intro x h1 h2
    have h3 : x.Pairwise (fun a b => a.totalScore ≠ b.totalScore) := List.pairwise_map.mp h2
    refine (h1.and h3).imp ?_
    intro a b hab
    have hle := (scoreLess_eq_false_iff b a).mp hab.1
    exact lt_of_le_of_ne hle (fun hh => hab.2 hh.symm)
  haveI : IsAntisymm LeaderboardEntry (fun a b => b.totalScore < a.totalScore) :=
    ⟨fun a b h1 h2 => absurd h1 (not_lt_of_gt h2)⟩
  exact List.eq_of_perm_of_sorted hp (strict hs' hd') (strict hs hd)

theorem rankedEntries_eq_of_distinct {rt rt' : Runtime} (hrt : rt.Lawful) (hrt' : rt'.Lawful)
    {s t : Store} (hu : t.users = s.users) (hc : t.campaigns.Perm s.campaigns)
    (ha : t.achievements.Perm s.achievements) (orgID : String)
    (hd : DistinctTotals s orgID) :
    rankedEntries rt' t orgID = rankedEntries rt s orgID := by
  have hr : resolveName t = resolveName s := by
    funext e
    unfold resolveName getUserDoc
    rw [hu]
  have hm : ((accumulateScores t (campaignIDsOf t orgID) []).map (resolveName t)).Perm
      ((accumulateScores s (campaignIDsOf s orgID) []).map (resolveName s)) := by
    rw [hr]
    exact (accumulateScores_perm hc ha orgID).map _
  have hl := (hrt.2 (rt.mapRange
    ((accumulateScores s (campaignIDsOf s orgID) []).map (resolveName s))))
  have hl' := (hrt'.2 (rt'.mapRange
    ((accumulateScores t (campaignIDsOf t orgID) []).map (resolveName t))))
  have hperm := ((hl'.1.trans (hrt'.1 _)).trans hm).trans ((hl.1.trans (hrt.1 _)).symm)
  have hnd : ((rt.sortSlice scoreLess (rt.mapRange
      ((accumulateScores s (campaignIDsOf s orgID) []).map (resolveName s)))).map
      (fun e => e.totalScore)).Nodup := by
    rw [((hl.1.trans (hrt.1 _)).map _).nodup_iff, List.map_map]
    have : ((fun e : LeaderboardEntry => e.totalScore) ∘ resolveName s) =
        (fun e => e.totalScore) := by
      funext e
      exact resolveName_totalScore s e
    rw [this]
    exact hd
  unfold rankedEntries
  simp only []
  rw [eq_of_perm_of_sorted_distinct hperm hl.2 hl'.2 hnd]

/-- The fields of a 200 response of `getOrganizationAnalytics` other than
`topPerformers` are the same for every runtime. -/
theorem analytics_fields_runtime_independent {rt rt' : Runtime} {s : Store}
    {uid : Option String} {orgID : String} {a b : OrganizationAnalytics}
    (h : getOrganizationAnalytics rt s uid orgID = .ok a)
    (h' : getOrganizationAnalytics rt' s uid orgID = .ok b) :
    b = { a with topPerformers := b.topPerformers } := by
  unfold getOrganizationAnalytics at h h'
  split at h
  · cases h
  · rename_i h1
    rw [if_neg h1] at h'
    split at h
    · cases h
    · split at h
      · cases h
      · rename_i u d hd
        simp only [hd] at h'
        split at h
        · cases h
        · rename_i h2
          rw [if_neg h2] at h'
          split at h
          · cases h
          · rename_i h3
            rw [if_neg h3] at h'
            cases h
            cases h'
            rfl

/-! ### Independence of the runtime in any arithmetic -/

theorem addAchievementIn_exact (m : List LeaderboardEntry) (a : Achievement) :
    addAchievementIn exactArithmetic m a = addAchievement m a := by
  induction m with
  | nil => rfl
  | cons e m ih =>
    unfold addAchievementIn addAchievement
    rw [ih]
    rfl

theorem accumulateScoresIn_exact (s : Store) (campaignIDs : List String)
    (m : List LeaderboardEntry) :
    accumulateScoresIn exactArithmetic s campaignIDs m = accumulateScores s campaignIDs m := by
  have h : addDocIn exactArithmetic = addDoc := by
    funext m d
    unfold addDocIn addDoc
    rw [addAchievementIn_exact]
  unfold accumulateScoresIn accumulateScores
  rw [h]

/-- In the arithmetic of exact numbers the handler with the arithmetic as a
parameter is `getLeaderboard`. -/
theorem getLeaderboardIn_exact (rt : Runtime) (s : Store) (uid : Option String)
    (orgID : String) :
    getLeaderboardIn exactArithmetic rt s uid orgID = getLeaderboard rt s uid orgID := by
  have hr : rankedEntriesIn exactArithmetic rt s orgID = rankedEntries rt s orgID := by
    unfold rankedEntriesIn rankedEntries
    rw [accumulateScoresIn_exact]
    rfl
  unfold getLeaderboardIn getLeaderboard
  rw [hr]

theorem lawfulIn_exact {rt : Runtime} (h : rt.Lawful) : rt.LawfulIn exactArithmetic :=
  ⟨h.1, fun l => h.2 l⟩

theorem rankedEntriesIn_runtime_independent (ar : Arithmetic) {rt rt' : Runtime}
    (hrt : rt.LawfulIn ar) (hrt' : rt'.LawfulIn ar) (s : Store) (orgID : String)
    (hd : OrderedTotals ar s orgID) :
    rankedEntriesIn ar rt' s orgID = rankedEntriesIn ar rt s orgID := by
  have hl := hrt.2 (rt.mapRange
    ((accumulateScoresIn ar s (campaignIDsOf s orgID) []).map (resolveName s)))
  have hl' := hrt'.2 (rt'.mapRange
    ((accumulateScoresIn ar s (campaignIDsOf s orgID) []).map (resolveName s)))
  have hperm := (hl'.1.trans (hrt'.1 _)).trans ((hl.1.trans (hrt.1 _)).symm)
  have hpw : ((accumulateScoresIn ar s (campaignIDsOf s orgID) []).map (resolveName s)).Pairwise
      (fun a b => ar.greater a.totalScore b.totalScore = true ∨
        ar.greater b.totalScore a.totalScore = true) := by
    rw [List.pairwise_map]
    refine hd.imp ?_
    intro a b hab
    rw [resolveName_totalScore, resolveName_totalScore]
    exact hab
  have hsymm : Symmetric (fun a b : LeaderboardEntry =>
      ar.greater a.totalScore b.totalScore = true ∨
        ar.greater b.totalScore a.totalScore = true) := fun a b h => h.symm
  have heq : rt'.sortSlice (scoreLessIn ar) (rt'.mapRange
        ((accumulateScoresIn ar s (campaignIDsOf s orgID) []).map (resolveName s))) =
      rt.sortSlice (scoreLessIn ar) (rt.mapRange
        ((accumulateScoresIn ar s (campaignIDsOf s orgID) []).map (resolveName s))) := by
    refine List.Perm.eq_of_sorted ?_ hl'.2 hl.2 hperm
    intro a b ha hb hab hba
    by_contra hne
    have ha' := (hl'.1.trans (hrt'.1 _)).mem_iff.mp ha
    have hb' := (hl.1.trans (hrt.1 _)).mem_iff.mp hb
    have hcmp := hpw.forall hsymm ha' hb' hne
    unfold scoreLessIn at hab hba
    rcases hcmp with h | h
    · rw [h] at hba
      cases hba
    · rw [h] at hab
      cases hab
  unfold rankedEntriesIn
  simp only []
  rw [heq]

/-- Claim C10, amended. In any arithmetic of scores, for one store and any two
runtimes that keep their contracts, the responses of `getLeaderboard` are
identical whenever of any two users one has the greater computed total; and
the fields of a 200 response of `getOrganizationAnalytics` other than
`topPerformers` are the same for any two runtimes. -/
theorem getLeaderboard_runtime_independent (ar : Arithmetic) (rt rt' : Runtime)
    (hrt : rt.LawfulIn ar) (hrt' : rt'.LawfulIn ar) (s : Store) (uid : Option String)
    (orgID : String) (hd : OrderedTotals ar s orgID) :
    getLeaderboardIn ar rt' s uid orgID = getLeaderboardIn ar rt s uid orgID ∧
    (∀ a b, getOrganizationAnalytics rt s uid orgID = .ok a →
      getOrganizationAnalytics rt' s uid orgID = .ok b →
      b = { a with topPerformers := b.topPerformers }) := by
  constructor
  · unfold getLeaderboardIn
    rw [rankedEntriesIn_runtime_independent ar hrt hrt' s orgID hd]
  · intro a b h h'
    exact analytics_fields_runtime_independent h h'

theorem getLeaderboard_runtime_independent_witness :
    rtInsertionOrder.LawfulIn exactArithmetic ∧ rtReverseOrder.LawfulIn exactArithmetic ∧
    OrderedTotals exactArithmetic storeAscending "O1" ∧
    getLeaderboardIn exactArithmetic rtInsertionOrder storeAscending (some "U1") "O1" =
      .ok { leaderboard := [⟨"U2", "Bob", 10, 1, 1⟩, ⟨"U1", "Alice", 5, 1, 2⟩], count := 2 } ∧
    (getLeaderboardIn exactArithmetic rtReverseOrder storeAscending (some "U1") "O1" =
        getLeaderboardIn exactArithmetic rtInsertionOrder storeAscending (some "U1") "O1" ∧
      (∀ a b, getOrganizationAnalytics rtInsertionOrder storeAscending (some "U1") "O1" = .ok a →
        getOrganizationAnalytics rtReverseOrder storeAscending (some "U1") "O1" = .ok b →
        b = { a with topPerformers := b.topPerformers })) :=
  ⟨lawfulIn_exact lawful_rtInsertionOrder, lawfulIn_exact lawful_rtReverseOrder,
   by unfold OrderedTotals; decide, by decide,
   getLeaderboard_runtime_independent exactArithmetic rtInsertionOrder rtReverseOrder
     (lawfulIn_exact lawful_rtInsertionOrder) (lawfulIn_exact lawful_rtReverseOrder)
     storeAscending (some "U1") "O1" (by unfold OrderedTotals; decide)⟩

/-- The totals that must be ordered are the computed ones: over `storeNear`
the exact totals are ordered, the rounded ones tie, and in the rounding
arithmetic the response follows the range order of the map. -/
theorem orderedTotals_of_computed_totals :
    OrderedTotals exactArithmetic storeNear "O1" ∧
    ¬ OrderedTotals roundingArithmetic storeNear "O1" ∧
    getLeaderboardIn roundingArithmetic rtInsertionOrder storeNear (some "U1") "O1" ≠
      getLeaderboardIn roundingArithmetic rtReverseOrder storeNear (some "U1") "O1" := by
  refine ⟨?_, ?_, ?_⟩
  · unfold OrderedTotals
    decide
  · unfold OrderedTotals
    decide
  · decide

/-! ### The access gate -/

theorem getLeaderboard_ok_authorized {rt : Runtime} {s : Store} {uid : Option String}
    {orgID : String} {body : LeaderboardBody}
    (h : getLeaderboard rt s uid orgID = .ok body) :
    ∃ u d, uid = some u ∧ getUserDoc s u = some d ∧ d.decodes = true ∧
      d.data.organizationID = orgID := by
  unfold getLeaderboard at h
  split at h
  · cases h
  · split at h
    · cases h
    · split at h
      · cases h
      · rename_i u _ d hd
        split at h
        · cases h
        · rename_i hdec
          split at h
          · cases h
          · rename_i horg
            exact ⟨u, d, rfl, hd, by simpa using hdec, not_not.mp horg⟩

theorem getOrganizationAnalytics_ok_authorized {rt : Runtime} {s : Store}
    {uid : Option String} {orgID : String} {a : OrganizationAnalytics}
    (h : getOrganizationAnalytics rt s uid orgID = .ok a) :
    ∃ u d, uid = some u ∧ getUserDoc s u = some d ∧ d.decodes = true ∧
      d.data.organizationID = orgID := by
  unfold getOrganizationAnalytics at h
  split at h
  · cases h
  · split at h
    · cases h
    · split at h
      · cases h
      · rename_i u _ d hd
        split at h
        · cases h
        · rename_i hdec
          split at h
          · cases h
          · rename_i horg
            exact ⟨u, d, rfl, hd, by simpa using hdec, not_not.mp horg⟩

/-- The shape of a 200 response of `getCampaignAnalytics`: the campaign is
fetched and decodes, the caller's record is fetched, decodes and names the
organization of the campaign, and the body is the one built for it. -/
theorem getCampaignAnalytics_ok {statsRange : List ParticipantStats → List ParticipantStats}
    {clock : Clock} {s : Store} {uid : Option String} {campaignID : String}
    {a : CampaignAnalytics}
    (h : getCampaignAnalytics statsRange clock s uid campaignID = .ok a) :
    ∃ u d c, uid = some u ∧ getCampaignDoc s campaignID = some c ∧ c.decodes = true ∧
      getUserDoc s u = some d ∧ d.decodes = true ∧
      d.data.organizationID = c.data.orgID ∧
      a = campaignAnalyticsOf statsRange clock s campaignID c.data := by
  unfold getCampaignAnalytics at h
  split at h
  · cases h
  · split at h
    · cases h
    · split at h
      · cases h
      · rename_i u _ c hc
        split at h
        · cases h
        · rename_i hcdec
          split at h
          · cases h
          · rename_i _ d hd
            split at h
            · cases h
            · rename_i hdec
              split at h
              · cases h
              · rename_i horg
                cases h
                exact ⟨u, d, c, rfl, hc, by simpa using hcdec, hd, by simpa using hdec,
                  not_not.mp horg, rfl⟩

theorem getCampaignAnalytics_of_gate
    {statsRange : List ParticipantStats → List ParticipantStats}
    {clock : Clock} {s : Store} {u campaignID : String} {d : Doc User} {c : Doc Campaign}
    (hid : campaignID ≠ "") (hc : getCampaignDoc s campaignID = some c)
    (hcdec : c.decodes = true) (hdoc : getUserDoc s u = some d) (hdec : d.decodes = true)
    (hmem : d.data.organizationID = c.data.orgID) :
    getCampaignAnalytics statsRange clock s (some u) campaignID =
      .ok (campaignAnalyticsOf statsRange clock s campaignID c.data) := by
  unfold getCampaignAnalytics
  simp [hid, hc, hcdec, hdoc, hdec, hmem]

/-- Claim C11. A caller whose user record is fetched and decodes and whose
`organizationId` differs from the requested organization gets exactly the
response 403 "Access denied" from `getLeaderboard` and from
`getOrganizationAnalytics`, and the same from `getCampaignAnalytics` when
the campaign is fetched, decodes and belongs to another organization: the
response is a constant, whatever the store holds for the target. Conversely
every 200 response of the three handlers goes to a caller whose record names
the target organization. -/
theorem forbidden_for_other_organization (rt : Runtime)
    (statsRange : List ParticipantStats → List ParticipantStats) (clock : Clock)
    (s : Store) (u : String) (d : Doc User)
    (hdoc : getUserDoc s u = some d) (hdec : d.decodes = true) :
    (∀ orgID, orgID ≠ "" → d.data.organizationID ≠ orgID →
      getLeaderboard rt s (some u) orgID = .error 403 "Access denied" ∧
      getOrganizationAnalytics rt s (some u) orgID = .error 403 "Access denied") ∧
    (∀ campaignID c, campaignID ≠ "" → getCampaignDoc s campaignID = some c →
      c.decodes = true → d.data.organizationID ≠ c.data.orgID →
      getCampaignAnalytics statsRange clock s (some u) campaignID =
        .error 403 "Access denied") ∧
    (∀ orgID body, getLeaderboard rt s (some u) orgID = .ok body →
      d.data.organizationID = orgID) ∧
    (∀ orgID a, getOrganizationAnalytics rt s (some u) orgID = .ok a →
      d.data.organizationID = orgID) ∧
    (∀ campaignID a, getCampaignAnalytics statsRange clock s (some u) campaignID = .ok a →
      ∃ c, getCampaignDoc s campaignID = some c ∧ d.data.organizationID = c.data.orgID) := by
  refine ⟨?_, ?_, ?_, ?_, ?_⟩
  · intro orgID horg hne
    constructor
    · unfold getLeaderboard
      simp [horg, hdoc, hdec, hne]
    · unfold getOrganizationAnalytics
      simp [horg, hdoc, hdec, hne]
  · intro campaignID c hid hc hcdec hne
    unfold getCampaignAnalytics
    simp [hid, hc, hcdec, hdoc, hdec, hne]
  · intro orgID body h
    obtain ⟨u', d', hu, hd', _, horg⟩ := getLeaderboard_ok_authorized h
    cases hu
    rw [hdoc] at hd'
    cases hd'
    exact horg
  · intro orgID a h
    obtain ⟨u', d', hu, hd', _, horg⟩ := getOrganizationAnalytics_ok_authorized h
    cases hu
    rw [hdoc] at hd'
    cases hd'
    exact horg
  · intro campaignID a h
    obtain ⟨u', d', c, hu, hc, _, hd', _, horg, _⟩ := getCampaignAnalytics_ok h
    cases hu
    rw [hdoc] at hd'
    cases hd'
    exact ⟨c, hc, horg⟩

theorem forbidden_for_other_organization_witness :
    getUserDoc storeCampaign "U3" = some (mkUser "U3" "O2" "Carol") ∧
    (getLeaderboard rtInsertionOrder storeCampaign (some "U3") "O1" =
        .error 403 "Access denied" ∧
      getOrganizationAnalytics rtInsertionOrder storeCampaign (some "U3") "O1" =
        .error 403 "Access denied") ∧
    getCampaignAnalytics (fun m => m) testClock storeCampaign (some "U3") "C1" =
      .error 403 "Access denied" :=
  ⟨by decide,
   (forbidden_for_other_organization rtInsertionOrder (fun m => m) testClock storeCampaign
     "U3" (mkUser "U3" "O2" "Carol") (by decide) (by decide)).1 "O1" (by decide) (by decide),
   (forbidden_for_other_organization rtInsertionOrder (fun m => m) testClock storeCampaign
     "U3" (mkUser "U3" "O2" "Carol") (by decide) (by decide)).2.1 "C1"
     (mkCampaignWith "C1" "O1" "active" ["U1"]) (by decide) (by decide) (by decide)
     (by decide)⟩

/-- Claim C12, refuted as stated. For a caller `U9` without a user document
the three handlers answer 500 "Failed to check user", not 401. -/
theorem missing_caller_record_is_500 :
    getUserDoc storeCampaign "U9" = none ∧
    getLeaderboard rtInsertionOrder storeCampaign (some "U9") "O1" =
      .error 500 "Failed to check user" ∧
    getOrganizationAnalytics rtInsertionOrder storeCampaign (some "U9") "O1" =
      .error 500 "Failed to check user" ∧
    getCampaignAnalytics (fun m => m) testClock storeCampaign (some "U9") "C1" =
      .error 500 "Failed to check user" :=
  ⟨by decide, by decide, by decide, by decide⟩

/-- Claim C12, amended. When the caller's user record cannot be fetched,
`getLeaderboard` and `getOrganizationAnalytics` answer 500 "Failed to check
user", and so does `getCampaignAnalytics` once the campaign is fetched and
decodes; the status 401 is the answer of the three handlers to a request
whose context carries no uid. -/
theorem missing_caller_record_response (rt : Runtime)
    (statsRange : List ParticipantStats → List ParticipantStats) (clock : Clock)
    (s : Store) (u : String) (hmiss : getUserDoc s u = none) :
    (∀ orgID, orgID ≠ "" →
      getLeaderboard rt s (some u) orgID = .error 500 "Failed to check user" ∧
      getOrganizationAnalytics rt s (some u) orgID = .error 500 "Failed to check user" ∧
      getLeaderboard rt s none orgID = .error 401 "User not authenticated" ∧
      getOrganizationAnalytics rt s none orgID = .error 401 "User not authenticated") ∧
    (∀ campaignID, campaignID ≠ "" →
      getCampaignAnalytics statsRange clock s none campaignID =
        .error 401 "User not authenticated" ∧
      ∀ c, getCampaignDoc s campaignID = some c → c.decodes = true →
        getCampaignAnalytics statsRange clock s (some u) campaignID =
          .error 500 "Failed to check user") := by
  constructor
  · intro orgID horg
    refine ⟨?_, ?_, ?_, ?_⟩
    · unfold getLeaderboard
      simp [horg, hmiss]
    · unfold getOrganizationAnalytics
      simp [horg, hmiss]
    · unfold getLeaderboard
      simp [horg]
    · unfold getOrganizationAnalytics
      simp [horg]
  · intro campaignID hid
    constructor
    · unfold getCampaignAnalytics
      simp [hid]
    · intro c hc hcdec
      unfold getCampaignAnalytics
      simp [hid, hc, hcdec, hmiss]

theorem missing_caller_record_response_witness :
    getUserDoc storeCampaign "U9" = none ∧
    (getLeaderboard rtInsertionOrder storeCampaign (some "U9") "O1" =
        .error 500 "Failed to check user" ∧
      getOrganizationAnalytics rtInsertionOrder storeCampaign (some "U9") "O1" =
        .error 500 "Failed to check user" ∧
      getLeaderboard rtInsertionOrder storeCampaign none "O1" =
        .error 401 "User not authenticated" ∧
      getOrganizationAnalytics rtInsertionOrder storeCampaign none "O1" =
        .error 401 "User not authenticated") :=
  ⟨by decide,
   (missing_caller_record_response rtInsertionOrder (fun m => m) testClock storeCampaign
     "U9" (by decide)).1 "O1" (by decide)⟩

/-! ### Malformed achievement documents -/

theorem foldl_filter_decodes {β : Type} (f : β → Doc Achievement → β)
    (hf : ∀ b d, d.decodes = false → f b d = b) (ds : List (Doc Achievement)) (b : β) :
    (ds.filter (fun d => d.decodes)).foldl f b = ds.foldl f b := by
  induction ds generalizing b with
  | nil => rfl
  | cons d ds ih =>
    cases hd : d.decodes
    · simp [List.filter_cons, hd, hf b d hd, ih]
    · simp [List.filter_cons, hd, ih]

theorem addDoc_skip (m : List LeaderboardEntry) (d : Doc Achievement)
    (h : d.decodes = false) : addDoc m d = m := by
  simp [addDoc, h]

theorem countDoc_skip (acc : Nat × List (String × Nat)) (d : Doc Achievement)
    (h : d.decodes = false) : countDoc acc d = acc := by
  simp [countDoc, h]

theorem tallyDoc_skip (t : CampaignTally) (d : Doc Achievement)
    (h : d.decodes = false) : tallyDoc t d = t := by
  simp [tallyDoc, h]

theorem verifiedAchievementDocs_decodedOnly (s : Store) (cid : String) :
    verifiedAchievementDocs (decodedOnly s) cid =
      (verifiedAchievementDocs s cid).filter (fun d => d.decodes) := by
  unfold verifiedAchievementDocs decodedOnly
  simp only [List.filter_filter]
  apply List.filter_congr
  intro d _
  exact Bool.and_comm _ _

theorem accumulateScores_decodedOnly (s : Store) (ids : List String)
    (m : List LeaderboardEntry) :
    accumulateScores (decodedOnly s) ids m = accumulateScores s ids m := by
  unfold accumulateScores
  induction ids generalizing m with
  | nil => rfl
  | cons c ids ih =>
    simp only [List.foldl_cons]
    rw [verifiedAchievementDocs_decodedOnly, foldl_filter_decodes addDoc addDoc_skip]
    exact ih _

theorem countAchievements_decodedOnly (s : Store) (ids : List String) :
    countAchievements (decodedOnly s) ids = countAchievements s ids := by
  unfold countAchievements
  generalize (0, initialTypeCount) = acc
  induction ids generalizing acc with
  | nil => rfl
  | cons c ids ih =>
    simp only [List.foldl_cons]
    rw [verifiedAchievementDocs_decodedOnly, foldl_filter_decodes countDoc countDoc_skip]
    exact ih _

theorem campaignTally_decodedOnly (s : Store) (campaignID : String) :
    campaignTally (decodedOnly s) campaignID = campaignTally s campaignID := by
  unfold campaignTally
  have h : campaignAchievementDocs (decodedOnly s) campaignID =
      (campaignAchievementDocs s campaignID).filter (fun d => d.decodes) := by
    unfold campaignAchievementDocs decodedOnly
    simp only [List.filter_filter]
    apply List.filter_congr
    intro d _
    exact Bool.and_comm _ _
  rw [h, foldl_filter_decodes tallyDoc tallyDoc_skip]

theorem foldl_countDoc (ds : List (Doc Achievement)) (acc : Nat × List (String × Nat)) :
    ds.foldl countDoc acc =
      ((ds.filter (fun d => d.decodes)).map (fun d => d.data)).foldl
        (fun acc a => (acc.1 + 1, incrementType acc.2 a.type)) acc := by
  induction ds generalizing acc with
  | nil => rfl
  | cons d ds ih =>
    cases hd : d.decodes <;> simp [countDoc, hd, ih, List.filter_cons]

theorem foldl_tallyDoc (ds : List (Doc Achievement)) (t : CampaignTally) :
    ds.foldl tallyDoc t =
      ((ds.filter (fun d => d.decodes)).map (fun d => d.data)).foldl tallyAchievement t := by
  induction ds generalizing t with
  | nil => rfl
  | cons d ds ih =>
    cases hd : d.decodes <;> simp [tallyDoc, hd, ih, List.filter_cons]

/-- Claim C14. On every finite sequence of achievement documents the three
achievement loops are folds that skip the documents that do not decode: each
equals the fold of its body over the decoded documents alone, in the same
order; and each of the three handlers answers a store as it answers the store
without the achievement documents that do not decode. The loops are total
functions of the sequence. -/
theorem malformed_achievements_skipped (rt : Runtime)
    (statsRange : List ParticipantStats → List ParticipantStats) (clock : Clock)
    (s : Store) (uid : Option String) (orgID campaignID : String) :
    (∀ (ds : List (Doc Achievement)) (m : List LeaderboardEntry),
      ds.foldl addDoc m =
        ((ds.filter (fun d => d.decodes)).map (fun d => d.data)).foldl addAchievement m) ∧
    (∀ (ds : List (Doc Achievement)) (acc : Nat × List (String × Nat)),
      ds.foldl countDoc acc =
        ((ds.filter (fun d => d.decodes)).map (fun d => d.data)).foldl
          (fun acc a => (acc.1 + 1, incrementType acc.2 a.type)) acc) ∧
    (∀ (ds : List (Doc Achievement)) (t : CampaignTally),
      ds.foldl tallyDoc t =
        ((ds.filter (fun d => d.decodes)).map (fun d => d.data)).foldl tallyAchievement t) ∧
    getLeaderboard rt (decodedOnly s) uid orgID = getLeaderboard rt s uid orgID ∧
    getOrganizationAnalytics rt (decodedOnly s) uid orgID =
      getOrganizationAnalytics rt s uid orgID ∧
    getCampaignAnalytics statsRange clock (decodedOnly s) uid campaignID =
      getCampaignAnalytics statsRange clock s uid campaignID := by
  have hacc : accumulateScores (decodedOnly s) = accumulateScores s := by
    funext ids m
    exact accumulateScores_decodedOnly s ids m
  have hcount : countAchievements (decodedOnly s) = countAchievements s := by
    funext ids
    exact countAchievements_decodedOnly s ids
  have htally : campaignTally (decodedOnly s) = campaignTally s := by
    funext c
    exact campaignTally_decodedOnly s c
  refine ⟨foldl_addDoc, foldl_countDoc, foldl_tallyDoc, ?_, ?_, ?_⟩
  · have hrank : rankedEntries rt (decodedOnly s) = rankedEntries rt s := by
      funext o
      unfold rankedEntries
      rw [hacc]
      rfl
    unfold getLeaderboard
    rw [hrank]
    rfl
  · have htop : topPerformersOf rt (decodedOnly s) = topPerformersOf rt s := by
      funext ids
      unfold topPerformersOf
      rw [hacc]
      rfl
    unfold getOrganizationAnalytics
    rw [hcount, htop]
    rfl
  · have hbody : campaignAnalyticsOf statsRange clock (decodedOnly s) =
        campaignAnalyticsOf statsRange clock s := by
      funext c camp
      unfold campaignAnalyticsOf
      rw [htally]
      rfl
    unfold getCampaignAnalytics
    rw [hbody]
    rfl

/-! ### Organization analytics: counts by type -/

theorem getOrganizationAnalytics_ok {rt : Runtime} {s : Store} {uid : Option String}
    {orgID : String} {a : OrganizationAnalytics}
    (h : getOrganizationAnalytics rt s uid orgID = .ok a) :
    a = organizationAnalyticsOf rt s orgID := by
  unfold getOrganizationAnalytics at h
  split at h
  · cases h
  · split at h
    · cases h
    · split at h
      · cases h
      · split at h
        · cases h
        · split at h
          · cases h
          · cases h
            rfl

theorem getOrganizationAnalytics_of_gate {rt : Runtime} {s : Store} {u orgID : String}
    {d : Doc User} (horg : orgID ≠ "") (hdoc : getUserDoc s u = some d)
    (hdec : d.decodes = true) (hmem : d.data.organizationID = orgID) :
    getOrganizationAnalytics rt s (some u) orgID = .ok (organizationAnalyticsOf rt s orgID) := by
  unfold getOrganizationAnalytics
  simp [horg, hdoc, hdec, hmem]
  rfl

theorem typeCountAt_incrementType (m : List (String × Nat)) (t t' : String) :
    typeCountAt (incrementType m t) t' = typeCountAt m t' + if t = t' then 1 else 0 := by
  induction m with
  | nil =>
    by_cases h : t = t' <;> simp [incrementType, typeCountAt, h]
  | cons p m ih =>
    obtain ⟨k, n⟩ := p
    by_cases hk : k = t
    · by_cases h : t = t'
      · simp [incrementType, typeCountAt, hk, h]
      · have h' : ¬ k = t' := fun hh => h (hk ▸ hh)
        simp [incrementType, typeCountAt, hk, h]
    · by_cases hk' : k = t'
      · subst hk'
        have h : ¬ t = k := fun hh => hk hh.symm
        simp [incrementType, typeCountAt, hk, h]
      · simp [incrementType, typeCountAt, hk, hk', ih]

theorem typeCountAt_initial (t : String) : typeCountAt initialTypeCount t = 0 := by
  simp only [initialTypeCount, typeCountAt]
  split_ifs <;> rfl

theorem foldl_count_fst (as : List Achievement) (acc : Nat × List (String × Nat)) :
    (as.foldl (fun acc a => (acc.1 + 1, incrementType acc.2 a.type)) acc).1 =
      acc.1 + as.length := by
  induction as generalizing acc with
  | nil => rfl
  | cons a as ih =>
    simp only [List.foldl_cons, ih, List.length_cons]
    omega

theorem foldl_count_snd (as : List Achievement) (acc : Nat × List (String × Nat))
    (t : String) :
    typeCountAt (as.foldl (fun acc a => (acc.1 + 1, incrementType acc.2 a.type)) acc).2 t =
      typeCountAt acc.2 t + (as.filter (fun a => a.type == t)).length := by
  induction as generalizing acc with
  | nil => rfl
  | cons a as ih =>
    simp only [List.foldl_cons, ih, typeCountAt_incrementType, List.filter_cons]
    by_cases h : a.type = t
    · simp [h]
      omega
    · have hb : (a.type == t) = false := by simpa using h
      simp [h, hb]

theorem countAchievements_eq (s : Store) (ids : List String) :
    countAchievements s ids =
      (observed s ids).foldl (fun acc a => (acc.1 + 1, incrementType acc.2 a.type))
        (0, initialTypeCount) := by
  unfold countAchievements observed observedDocs
  generalize (0, initialTypeCount) = acc
  induction ids generalizing acc with
  | nil => rfl
  | cons c ids ih =>
    simp only [List.foldl_cons, List.flatMap_cons, List.filter_append, List.map_append,
      List.foldl_append]
    rw [ih, foldl_countDoc]

theorem countAchievements_fst (s : Store) (ids : List String) :
    (countAchievements s ids).1 = (observed s ids).length := by
  rw [countAchievements_eq, foldl_count_fst]
  simp

theorem countAchievements_snd (s : Store) (ids : List String) (t : String) :
    typeCountAt (countAchievements s ids).2 t =
      ((observed s ids).filter (fun a => a.type == t)).length := by
  rw [countAchievements_eq, foldl_count_snd, typeCountAt_initial]
  simp

theorem mem_analyticsCampaignIDs (s : Store) (orgID cid : String) :
    cid ∈ analyticsCampaignIDs s orgID ↔ inOrganizationDecoded s orgID cid = true := by
  unfold analyticsCampaignIDs decodedCampaignDocs inOrganizationDecoded
  simp only [List.mem_map, List.mem_filter, List.any_eq_true, Bool.and_eq_true, beq_iff_eq]
  constructor
  · rintro ⟨d, ⟨⟨hd, ho⟩, hdec⟩, hi⟩
    exact ⟨d, hd, ⟨hi, ho⟩, hdec⟩
  · rintro ⟨d, hd, ⟨hi, ho⟩, hdec⟩
    exact ⟨d, ⟨⟨hd, ho⟩, hdec⟩, hi⟩

theorem nodup_analyticsCampaignIDs (s : Store) (orgID : String)
    (hids : (s.campaigns.map (fun d => d.id)).Nodup) : (analyticsCampaignIDs s orgID).Nodup :=
  List.Nodup.sublist
    ((((List.filter_sublist _).trans (List.filter_sublist _))).map _) hids

/-- With distinct campaign document ids, the achievements of a type that the
counting loop observes are, up to order, the verified achievements of that
type in the decoded campaigns of the organization. -/
theorem observed_type_perm (s : Store) (orgID ty : String)
    (hids : (s.campaigns.map (fun d => d.id)).Nodup) :
    ((observed s (analyticsCampaignIDs s orgID)).filter (fun a => a.type == ty)).Perm
      (verifiedOfType s orgID ty) := by
  have hp := flatMap_filter_perm s.achievements (fun d => d.data.verified == true)
    (analyticsCampaignIDs s orgID) (nodup_analyticsCampaignIDs s orgID hids)
  have hp2 := (((hp.filter (fun d => d.decodes)).map (fun d => d.data)).filter
    (fun a => a.type == ty))
  unfold observed observedDocs verifiedAchievementDocs
  refine hp2.trans ?_
  unfold verifiedOfType
  rw [List.filter_map, List.filter_filter, List.filter_filter]
  apply List.Perm.of_eq
  congr 1
  apply List.filter_congr
  intro d _
  have hm := mem_analyticsCampaignIDs s orgID d.data.campaignID
  cases hin : inOrganizationDecoded s orgID d.data.campaignID
  · have : d.data.campaignID ∉ analyticsCampaignIDs s orgID := by
      rw [hm, hin]; simp
    simp [this]
  · have : d.data.campaignID ∈ analyticsCampaignIDs s orgID := hm.mpr hin
    simp only [Function.comp, this, decide_True, Bool.true_and, Bool.and_true]
    cases d.decodes <;> cases d.data.verified <;> simp

theorem verifiedOfType_congr {s t : Store} (orgID ty : String)
    (hc : t.campaigns = s.campaigns)
    (ha : t.achievements.filter (fun d => decide (d.data.type ∈ achievementTypeNames)) =
      s.achievements.filter (fun d => decide (d.data.type ∈ achievementTypeNames)))
    (hty : ty ∈ achievementTypeNames) :
    verifiedOfType t orgID ty = verifiedOfType s orgID ty := by
  have key : ∀ x : Store, x.campaigns = s.campaigns →
      verifiedOfType x orgID ty =
        ((x.achievements.filter (fun d => decide (d.data.type ∈ achievementTypeNames))).filter
          (fun d => d.decodes && d.data.verified && (d.data.type == ty) &&
            inOrganizationDecoded s orgID d.data.campaignID)).map (fun d => d.data) := by
    intro x hx
    unfold verifiedOfType inOrganizationDecoded
    rw [hx, List.filter_filter]
    congr 1
    apply List.filter_congr
    intro d _
    by_cases hd : d.data.type = ty
    · have hin : decide (d.data.type ∈ achievementTypeNames) = true := by
        rw [hd]
        exact decide_eq_true hty
      rw [hin, Bool.and_true]
    · have hb : (d.data.type == ty) = false := by simpa using hd
      simp [hb]
  rw [key t hc, key s rfl, ha]

/-- Claim C15. In a store whose campaign documents have distinct ids, the
`achievementTypes` of a 200 response of `getOrganizationAnalytics` is the
list Sales/#28a745, Calls/#17a2b8, Meetings/#ffc107, Referrals/#fd7e14 in
that order, each with the number of verified achievements of its type in the
(decoded) campaigns of the organization; and a store that differs only in
achievements of other types gets the same `achievementTypes`. -/
theorem achievementTypes_breakdown (rt : Runtime) (s : Store)
    (hids : (s.campaigns.map (fun d => d.id)).Nodup)
    (uid : Option String) (orgID : String) (a : OrganizationAnalytics)
    (h : getOrganizationAnalytics rt s uid orgID = .ok a) :
    a.achievementTypes =
      [⟨"Sales", (verifiedOfType s orgID "sales").length, "#28a745"⟩,
       ⟨"Calls", (verifiedOfType s orgID "calls").length, "#17a2b8"⟩,
       ⟨"Meetings", (verifiedOfType s orgID "meetings").length, "#ffc107"⟩,
       ⟨"Referrals", (verifiedOfType s orgID "referrals").length, "#fd7e14"⟩] ∧
    (∀ t : Store, t.users = s.users → t.campaigns = s.campaigns →
      t.achievements.filter (fun d => decide (d.data.type ∈ achievementTypeNames)) =
        s.achievements.filter (fun d => decide (d.data.type ∈ achievementTypeNames)) →
      ∀ b, getOrganizationAnalytics rt t uid orgID = .ok b →
        b.achievementTypes = a.achievementTypes) := by
  have formula : ∀ (x : Store), (x.campaigns.map (fun d => d.id)).Nodup →
      ∀ b, getOrganizationAnalytics rt x uid orgID = .ok b →
      b.achievementTypes =
        [⟨"Sales", (verifiedOfType x orgID "sales").length, "#28a745"⟩,
         ⟨"Calls", (verifiedOfType x orgID "calls").length, "#17a2b8"⟩,
         ⟨"Meetings", (verifiedOfType x orgID "meetings").length, "#ffc107"⟩,
         ⟨"Referrals", (verifiedOfType x orgID "referrals").length, "#fd7e14"⟩] := by
    intro x hx b hb
    rw [getOrganizationAnalytics_ok hb]
    simp only [organizationAnalyticsOf, countAchievements_snd]
    rw [(observed_type_perm x orgID "sales" hx).length_eq,
      (observed_type_perm x orgID "calls" hx).length_eq,
      (observed_type_perm x orgID "meetings" hx).length_eq,
      (observed_type_perm x orgID "referrals" hx).length_eq]
  refine ⟨formula s hids a h, ?_⟩
  intro t _ hc ha b hb
  have hidt : (t.campaigns.map (fun d => d.id)).Nodup := by rw [hc]; exact hids
  rw [formula t hidt b hb, formula s hids a h,
    verifiedOfType_congr orgID "sales" hc ha (by decide),
    verifiedOfType_congr orgID "calls" hc ha (by decide),
    verifiedOfType_congr orgID "meetings" hc ha (by decide),
    verifiedOfType_congr orgID "referrals" hc ha (by decide)]

theorem achievementTypes_breakdown_witness :
    (storeTypes.campaigns.map (fun d => d.id)).Nodup ∧
    (∃ a, getOrganizationAnalytics rtInsertionOrder storeTypes (some "U1") "O1" = .ok a ∧
      a.achievementTypes =
        [⟨"Sales", 3, "#28a745"⟩, ⟨"Calls", 1, "#17a2b8"⟩, ⟨"Meetings", 0, "#ffc107"⟩,
         ⟨"Referrals", 2, "#fd7e14"⟩] ∧
      a.achievementTypes =
        [⟨"Sales", (verifiedOfType storeTypes "O1" "sales").length, "#28a745"⟩,
         ⟨"Calls", (verifiedOfType storeTypes "O1" "calls").length, "#17a2b8"⟩,
         ⟨"Meetings", (verifiedOfType storeTypes "O1" "meetings").length, "#ffc107"⟩,
         ⟨"Referrals", (verifiedOfType storeTypes "O1" "referrals").length, "#fd7e14"⟩]) :=
  ⟨by decide, ⟨_, rfl, by decide,
    (achievementTypes_breakdown rtInsertionOrder storeTypes (by decide) (some "U1") "O1" _
      rfl).1⟩⟩

/-! ### Organization analytics: count consistency -/

theorem mem_observed {s : Store} {ids : List String} {a : Achievement}
    (h : a ∈ observed s ids) :
    ∃ d ∈ s.achievements, d.decodes = true ∧ d.data.verified = true ∧
      d.data.campaignID ∈ ids ∧ a = d.data := by
  unfold observed observedDocs verifiedAchievementDocs at h
  simp only [List.mem_map, List.mem_filter, List.mem_flatMap, Bool.and_eq_true,
    beq_iff_eq] at h
  obtain ⟨d, ⟨⟨cid, hcid, hd, hc, hv⟩, hdec⟩, rfl⟩ := h
  exact ⟨d, hd, hdec, hv, hc ▸ hcid, rfl⟩

theorem length_eq_sum_types (l : List Achievement)
    (hl : ∀ a ∈ l, a.type ∈ achievementTypeNames) :
    l.length =
      (l.filter (fun a => a.type == "sales")).length +
      ((l.filter (fun a => a.type == "calls")).length +
      ((l.filter (fun a => a.type == "meetings")).length +
      ((l.filter (fun a => a.type == "referrals")).length + 0))) := by
  induction l with
  | nil => rfl
  | cons a l ih =>
    have hrest := ih (fun x hx => hl x (List.mem_cons_of_mem _ hx))
    have ha := hl a (List.mem_cons_self _ _)
    simp only [achievementTypeNames, List.mem_cons, List.mem_singleton, List.mem_nil_iff,
      or_false] at ha
    rcases ha with ha | ha | ha | ha <;>
      simp [List.filter_cons, ha] <;> omega

/-- Claim C16. When every verified achievement of the (decoded) campaigns of
the organization has a type of the enumeration, `totalAchievements` of a 200
response of `getOrganizationAnalytics` is the sum of the four
`achievementTypes` values. -/
theorem count_consistency (rt : Runtime) (s : Store)
    (uid : Option String) (orgID : String) (a : OrganizationAnalytics)
    (h : getOrganizationAnalytics rt s uid orgID = .ok a)
    (htypes : ∀ d ∈ s.achievements, d.decodes = true → d.data.verified = true →
      inOrganizationDecoded s orgID d.data.campaignID = true →
      d.data.type ∈ achievementTypeNames) :
    a.totalAchievements = (a.achievementTypes.map (fun t => t.value)).sum := by
  rw [getOrganizationAnalytics_ok h]
  simp only [organizationAnalyticsOf, countAchievements_snd, countAchievements_fst,
    List.map_cons, List.map_nil, List.sum_cons, List.sum_nil]
  apply length_eq_sum_types
  intro x hx
  obtain ⟨d, hd, hdec, hv, hc, rfl⟩ := mem_observed hx
  exact htypes d hd hdec hv ((mem_analyticsCampaignIDs s orgID _).mp hc)

theorem count_consistency_witness :
    (∀ d ∈ storeMixed.achievements, d.decodes = true → d.data.verified = true →
      inOrganizationDecoded storeMixed "O1" d.data.campaignID = true →
      d.data.type ∈ achievementTypeNames) ∧
    (∃ a, getOrganizationAnalytics rtInsertionOrder storeMixed (some "U1") "O1" = .ok a ∧
      a.totalAchievements = 3 ∧
      (a.achievementTypes.map (fun t => t.value)) = [2, 1, 0, 0] ∧
      a.totalAchievements = (a.achievementTypes.map (fun t => t.value)).sum) :=
  ⟨by decide, ⟨_, rfl, by decide, by decide,
    count_consistency rtInsertionOrder storeMixed (some "U1") "O1" _ rfl (by decide)⟩⟩

/-! ### Organization analytics: completion rate -/

theorem find?_id_of_nodup {α : Type} (l : List (Doc α))
    (hnd : (l.map (fun d => d.id)).Nodup) {d : Doc α} (hd : d ∈ l) :
    l.find? (fun x => x.id == d.id) = some d := by
  induction l with
  | nil => cases hd
  | cons x l ih =>
    rw [List.map_cons, List.nodup_cons] at hnd
    rw [List.mem_cons] at hd
    rcases hd with hd | hd
    · subst hd
      simp [List.find?_cons]
    · have hne : ¬ x.id = d.id := by
        intro hx
        exact hnd.1 (hx ▸ List.mem_map_of_mem (fun d => d.id) hd)
      have hb : (x.id == d.id) = false := by simpa using hne
      rw [List.find?_cons, hb]
      exact ih hnd.2 hd

theorem completedCampaigns_le (s : Store) (ids : List String) :
    completedCampaigns s ids ≤ ids.length := by
  unfold completedCampaigns
  exact List.length_filter_le _ _

theorem completedCampaigns_eq (s : Store) (orgID : String)
    (hids : (s.campaigns.map (fun d => d.id)).Nodup) :
    completedCampaigns s (analyticsCampaignIDs s orgID) =
      ((decodedCampaignDocs s orgID).filter
        (fun d => d.data.status == "completed")).length := by
  unfold completedCampaigns analyticsCampaignIDs
  rw [List.filter_map, List.length_map]
  congr 1
  apply List.filter_congr
  intro d hd
  have hmem : d ∈ s.campaigns := by
    unfold decodedCampaignDocs at hd
    exact (List.mem_filter.mp (List.mem_filter.mp hd).1).1
  have hdec : d.decodes = true := by
    unfold decodedCampaignDocs at hd
    exact (List.mem_filter.mp hd).2
  have hget : getCampaignDoc s d.id = some d := find?_id_of_nodup s.campaigns hids hmem
  simp [Function.comp, hget, hdec]

theorem rate_bounds (c t : Nat) (hc : c ≤ t) (ht : 0 < t) :
    0 ≤ ((c : ℚ) / (t : ℚ)) * 100 ∧ ((c : ℚ) / (t : ℚ)) * 100 ≤ 100 := by
  have ht' : (0 : ℚ) < (t : ℚ) := by exact_mod_cast ht
  have h1 : (c : ℚ) / (t : ℚ) ≤ 1 := (div_le_one ht').mpr (by exact_mod_cast hc)
  have h0 : 0 ≤ (c : ℚ) / (t : ℚ) := div_nonneg (by exact_mod_cast Nat.zero_le c) ht'.le
  constructor
  · exact mul_nonneg h0 (by norm_num)
  · linarith

/-- Claim C17. The `completionRate` of a 200 response of
`getOrganizationAnalytics` is 0 when the organization has no (decoded)
campaign; with at least one campaign and distinct campaign document ids it is
the number of campaigns with status `completed` divided by the number of
campaigns, times 100; and it always lies between 0 and 100. -/
theorem organization_completionRate (rt : Runtime) (s : Store)
    (uid : Option String) (orgID : String) (a : OrganizationAnalytics)
    (h : getOrganizationAnalytics rt s uid orgID = .ok a) :
    (decodedCampaignDocs s orgID = [] → a.completionRate = 0) ∧
    ((s.campaigns.map (fun d => d.id)).Nodup → decodedCampaignDocs s orgID ≠ [] →
      a.completionRate =
        ((((decodedCampaignDocs s orgID).filter
            (fun d => d.data.status == "completed")).length : ℚ) /
          ((decodedCampaignDocs s orgID).length : ℚ)) * 100) ∧
    (0 ≤ a.completionRate ∧ a.completionRate ≤ 100) := by
  rw [getOrganizationAnalytics_ok h]
  refine ⟨?_, ?_, ?_⟩
  · intro hnone
    simp [organizationAnalyticsOf, hnone]
  · intro hids hsome
    have hpos : (decodedCampaignDocs s orgID).length > 0 := List.length_pos.mpr hsome
    simp only [organizationAnalyticsOf, if_pos hpos, completedCampaigns_eq s orgID hids]
  · simp only [organizationAnalyticsOf]
    split
    · rename_i hpos
      have hle : completedCampaigns s (analyticsCampaignIDs s orgID) ≤
          (decodedCampaignDocs s orgID).length := by
        have := completedCampaigns_le s (analyticsCampaignIDs s orgID)
        unfold analyticsCampaignIDs at this
        rw [List.length_map] at this
        exact this
      exact rate_bounds _ _ hle hpos
    · constructor <;> norm_num

theorem organization_completionRate_witness :
    (storeMixed.campaigns.map (fun d => d.id)).Nodup ∧
    decodedCampaignDocs storeMixed "O1" ≠ [] ∧
    (∃ a, getOrganizationAnalytics rtInsertionOrder storeMixed (some "U1") "O1" = .ok a ∧
      a.completionRate =
        ((((decodedCampaignDocs storeMixed "O1").filter
            (fun d => d.data.status == "completed")).length : ℚ) /
          ((decodedCampaignDocs storeMixed "O1").length : ℚ)) * 100 ∧
      ((decodedCampaignDocs storeMixed "O1").filter
        (fun d => d.data.status == "completed")).length = 1 ∧
      (decodedCampaignDocs storeMixed "O1").length = 2 ∧
      0 ≤ a.completionRate ∧ a.completionRate ≤ 100) :=
  ⟨by decide, by decide, ⟨_, rfl,
    (organization_completionRate rtInsertionOrder storeMixed (some "U1") "O1" _ rfl).2.1
      (by decide) (by decide),
    by decide, by decide,
    (organization_completionRate rtInsertionOrder storeMixed (some "U1") "O1" _ rfl).2.2⟩⟩

/-! ### Campaign analytics: the stats of a participant -/

theorem stringGreater_iff (a b : String) : stringGreater a b = true ↔ b < a := by
  unfold stringGreater
  rw [decide_eq_true_iff, String.lt_iff_toList_lt]

theorem lastOf_append (l : List Achievement) (hl : l ≠ []) (a : Achievement) :
    lastOf (l ++ [a]) =
      if stringGreater a.dateAchieved (lastOf l) then a.dateAchieved else lastOf l := by
  cases l with
  | nil => exact absurd rfl hl
  | cons x xs => simp [lastOf, List.foldl_append]

theorem lastOf_max (l : List Achievement) (hl : l ≠ []) :
    lastOf l ∈ l.map (fun a => a.dateAchieved) ∧
    ∀ x ∈ l, x.dateAchieved ≤ lastOf l := by
  induction l using List.reverseRecOn with
  | nil => exact absurd rfl hl
  | append_singleton l a ih =>
    by_cases hnil : l = []
    · subst hnil
      simp [lastOf]
    · obtain ⟨hmem, hge⟩ := ih hnil
      rw [lastOf_append l hnil]
      by_cases hg : stringGreater a.dateAchieved (lastOf l) = true
      · have hlt : lastOf l < a.dateAchieved := (stringGreater_iff _ _).mp hg
        rw [if_pos hg]
        refine ⟨by simp, ?_⟩
        intro x hx
        rw [List.mem_append, List.mem_singleton] at hx
        rcases hx with hx | hx
        · exact le_trans (hge x hx) hlt.le
        · rw [hx]
      · have hnlt : ¬ lastOf l < a.dateAchieved := fun hh => hg ((stringGreater_iff _ _).mpr hh)
        rw [if_neg hg]
        refine ⟨?_, ?_⟩
        · rw [List.map_append, List.mem_append]
          exact Or.inl hmem
        · intro x hx
          rw [List.mem_append, List.mem_singleton] at hx
          rcases hx with hx | hx
          · exact hge x hx
          · rw [hx]
            exact not_lt.mp hnlt

theorem map_userID_addStats (m : List ParticipantStats) (a : Achievement) :
    (addStats m a).map (fun st => st.userID) =
      if a.userID ∈ m.map (fun st => st.userID) then m.map (fun st => st.userID)
      else m.map (fun st => st.userID) ++ [a.userID] := by
  induction m with
  | nil => simp [addStats, newStats]
  | cons e m ih =>
    by_cases h : e.userID = a.userID
    · simp [addStats, h, bumpStats]
    · have h' : ¬ a.userID = e.userID := fun hh => h hh.symm
      simp only [addStats, h, if_false, List.map_cons, ih, List.mem_cons, h', false_or]
      split <;> simp

theorem mem_addStats {m : List ParticipantStats} {a : Achievement}
    {x : ParticipantStats} (hnd : (m.map (fun st => st.userID)).Nodup)
    (h : x ∈ addStats m a) :
    (x ∈ m ∧ x.userID ≠ a.userID) ∨
    (∃ e ∈ m, e.userID = a.userID ∧ x = bumpStats e a) ∨
    (a.userID ∉ m.map (fun st => st.userID) ∧ x = newStats a) := by
  induction m with
  | nil =>
    simp only [addStats, List.mem_singleton] at h
    exact Or.inr (Or.inr ⟨by simp, h⟩)
  | cons e m ih =>
    rw [List.map_cons, List.nodup_cons] at hnd
    by_cases hk : e.userID = a.userID
    · simp only [addStats, hk, if_true, List.mem_cons] at h
      rcases h with h | h
      · exact Or.inr (Or.inl ⟨e, List.mem_cons_self _ _, hk, h⟩)
      · refine Or.inl ⟨List.mem_cons_of_mem _ h, fun hx => hnd.1 ?_⟩
        rw [hk, ← hx]
        exact List.mem_map_of_mem _ h
    · simp only [addStats, hk, if_false, List.mem_cons] at h
      rcases h with h | h
      · subst h
        exact Or.inl ⟨List.mem_cons_self _ _, hk⟩
      · rcases ih hnd.2 h with ⟨h1, h2⟩ | ⟨e0, h1, h2, h3⟩ | ⟨h1, h2⟩
        · exact Or.inl ⟨List.mem_cons_of_mem _ h1, h2⟩
        · exact Or.inr (Or.inl ⟨e0, List.mem_cons_of_mem _ h1, h2, h3⟩)
        · refine Or.inr (Or.inr ⟨?_, h2⟩)
          simp only [List.map_cons, List.mem_cons, not_or]
          exact ⟨fun hh => hk hh.symm, h1⟩

theorem statsFor_append_of_ne (as : List Achievement) (a : Achievement) (u : String)
    (h : u ≠ a.userID) : statsFor (as ++ [a]) u = statsFor as u := by
  have h' : (a.userID == u) = false := by simpa using fun hh => h hh.symm
  simp [statsFor, List.filter_append, List.filter_cons, h']

theorem statsFor_append_new (as : List Achievement) (a : Achievement)
    (h : a.userID ∉ as.map (fun a => a.userID)) :
    statsFor (as ++ [a]) a.userID = newStats a := by
  have hf : as.filter (fun x => x.userID == a.userID) = [] := by
    rw [List.filter_eq_nil_iff]
    intro x hx hh
    exact h (List.mem_map.mpr ⟨x, hx, by simpa using hh⟩)
  cases hv : a.verified <;>
    simp [statsFor, newStats, List.filter_append, List.filter_cons, hf, lastOf, hv]

theorem statsFor_append_self (as : List Achievement) (a : Achievement)
    (h : a.userID ∈ as.map (fun a => a.userID)) :
    statsFor (as ++ [a]) a.userID = bumpStats (statsFor as a.userID) a := by
  have hne : as.filter (fun x => x.userID == a.userID) ≠ [] := by
    obtain ⟨x, hx, hxu⟩ := List.mem_map.mp h
    intro hnil
    have : x ∈ as.filter (fun x => x.userID == a.userID) :=
      List.mem_filter.mpr ⟨hx, by simpa using hxu⟩
    rw [hnil] at this
    cases this
  have hlast := lastOf_append _ hne a
  cases hv : a.verified <;>
    simp [statsFor, bumpStats, List.filter_append, List.filter_cons, hlast, hv]

theorem statsTally_nil : StatsTally [] [] := by
  simp [StatsTally]

theorem statsTally_addStats {m : List ParticipantStats} {as : List Achievement}
    (a : Achievement) (h : StatsTally m as) : StatsTally (addStats m a) (as ++ [a]) := by
  obtain ⟨hnd, hent, hkeys⟩ := h
  refine ⟨?_, ?_, ?_⟩
  · rw [map_userID_addStats]
    split
    · exact hnd
    · rename_i hnot
      rw [List.nodup_append]
      refine ⟨hnd, List.nodup_singleton _, ?_⟩
      intro u hu hu'
      rw [List.mem_singleton] at hu'
      exact hnot (hu' ▸ hu)
  · intro x hx
    rcases mem_addStats hnd hx with ⟨h1, h2⟩ | ⟨e, h1, h2, h3⟩ | ⟨h1, h2⟩
    · rw [statsFor_append_of_ne _ _ _ h2]
      exact hent x h1
    · have hu : x.userID = a.userID := by rw [h3]; exact h2
      have hin : a.userID ∈ as.map (fun a => a.userID) :=
        (hkeys _).mp (h2 ▸ List.mem_map_of_mem (fun st => st.userID) h1)
      rw [hu, statsFor_append_self _ _ hin, h3, ← h2, ← hent e h1]
    · have hu : x.userID = a.userID := by rw [h2]; rfl
      have hno : a.userID ∉ as.map (fun a => a.userID) := fun hh => h1 ((hkeys _).mpr hh)
      rw [hu, statsFor_append_new _ _ hno, h2]
  · intro u
    rw [map_userID_addStats]
    split
    · rename_i hin
      rw [hkeys, List.map_append, List.mem_append]
      constructor
      · exact Or.inl
      · rintro (h1 | h1)
        · exact h1
        · simp only [List.map_cons, List.map_nil, List.mem_singleton] at h1
          rw [h1]
          exact (hkeys _).mp hin
    · rw [List.mem_append, List.map_append, List.mem_append, hkeys]
      simp

theorem participantScores_foldl (as : List Achievement) (t : CampaignTally) :
    (as.foldl tallyAchievement t).participantScores = as.foldl addStats t.participantScores := by
  induction as generalizing t with
  | nil => rfl
  | cons a as ih => simp only [List.foldl_cons, ih, tallyAchievement]

theorem statsTally_foldl (as bs : List Achievement) (m : List ParticipantStats)
    (h : StatsTally m as) : StatsTally (bs.foldl addStats m) (as ++ bs) := by
  induction bs generalizing m as with
  | nil => simpa using h
  | cons b bs ih =>
    have := ih (as ++ [b]) (addStats m b) (statsTally_addStats b h)
    simpa using this

theorem campaignTally_eq (s : Store) (campaignID : String) :
    campaignTally s campaignID =
      (campaignObserved s campaignID).foldl tallyAchievement CampaignTally.initial := by
  unfold campaignTally campaignObserved
  exact foldl_tallyDoc _ _

/-- The map `participantScores` built by the loop of `getCampaignAnalytics`
holds the stats of the decoded achievements of the campaign. -/
theorem statsTally_campaignTally (s : Store) (campaignID : String) :
    StatsTally (campaignTally s campaignID).participantScores
      (campaignObserved s campaignID) := by
  rw [campaignTally_eq, participantScores_foldl]
  simpa [CampaignTally.initial] using
    statsTally_foldl [] (campaignObserved s campaignID) [] statsTally_nil

theorem resolveStats_some {s : Store} {st0 st : ParticipantStats}
    (h : resolveStats s st0 = some st) :
    st.userID = st0.userID ∧ st.achievements = st0.achievements ∧
    st.totalScore = st0.totalScore ∧ st.lastActivity = st0.lastActivity := by
  unfold resolveStats at h
  split at h
  · cases h
  · split at h
    · cases h
      exact ⟨rfl, rfl, rfl, rfl⟩
    · cases h

theorem resolveStats_of_record {s : Store} {st0 : ParticipantStats} {d : Doc User}
    (hdoc : getUserDoc s st0.userID = some d) (hdec : d.decodes = true) :
    ∃ st, resolveStats s st0 = some st ∧ st.userID = st0.userID := by
  unfold resolveStats
  rw [hdoc]
  simp [hdec]

theorem participantStats_of_ok
    {statsRange : List ParticipantStats → List ParticipantStats}
    {clock : Clock} {s : Store} {uid : Option String} {campaignID : String}
    {a : CampaignAnalytics}
    (h : getCampaignAnalytics statsRange clock s uid campaignID = .ok a) :
    a.participantStats =
      (statsRange (campaignTally s campaignID).participantScores).filterMap (resolveStats s) ∧
    a.totalAchievements = (campaignTally s campaignID).totalAchievements := by
  obtain ⟨u, d, c, _, _, _, _, _, _, ha⟩ := getCampaignAnalytics_ok h
  rw [ha]
  exact ⟨rfl, rfl⟩

/-- Claim C19. With `range` yielding every entry of the map once, each record
of `participantStats` in a 200 response of `getCampaignAnalytics` has as
`achievements` the number of all achievements of its user in the campaign
(verified or not), as `totalScore` the sum of `value` over the verified ones,
and as `lastActivity` the greatest `dateAchieved` of them in lexicographic
order; and every user with an achievement in the campaign whose user record
is fetched and decodes has a record. -/
theorem participantStats_values
    (statsRange : List ParticipantStats → List ParticipantStats)
    (hrange : ∀ m, (statsRange m).Perm m) (clock : Clock) (s : Store)
    (uid : Option String) (campaignID : String) (a : CampaignAnalytics)
    (h : getCampaignAnalytics statsRange clock s uid campaignID = .ok a) :
    (∀ st ∈ a.participantStats,
      st.achievements = (achievementsOfUser s campaignID st.userID).length ∧
      st.totalScore =
        (((achievementsOfUser s campaignID st.userID).filter (fun x => x.verified)).map
          (fun x => x.value)).sum ∧
      st.lastActivity ∈
        (achievementsOfUser s campaignID st.userID).map (fun x => x.dateAchieved) ∧
      ∀ x ∈ achievementsOfUser s campaignID st.userID, x.dateAchieved ≤ st.lastActivity) ∧
    (∀ u d, achievementsOfUser s campaignID u ≠ [] → getUserDoc s u = some d →
      d.decodes = true → ∃ st ∈ a.participantStats, st.userID = u) := by
  have htally := statsTally_campaignTally s campaignID
  rw [(participantStats_of_ok h).1]
  constructor
  · intro st hst
    obtain ⟨st0, hst0, hres⟩ := List.mem_filterMap.mp hst
    rw [(hrange _).mem_iff] at hst0
    obtain ⟨hu, hach, hscore, hlast⟩ := resolveStats_some hres
    have hfor := htally.2.1 st0 hst0
    have hne : achievementsOfUser s campaignID st0.userID ≠ [] := by
      have hin := (htally.2.2 st0.userID).mp (List.mem_map_of_mem (fun st => st.userID) hst0)
      obtain ⟨x, hx, hxu⟩ := List.mem_map.mp hin
      intro hnil
      have : x ∈ achievementsOfUser s campaignID st0.userID :=
        List.mem_filter.mpr ⟨hx, by simpa using hxu⟩
      rw [hnil] at this
      cases this
    have hmax := lastOf_max _ hne
    have ha : st0.achievements = (achievementsOfUser s campaignID st0.userID).length := by
      rw [hfor]; rfl
    have hs : st0.totalScore =
        (((achievementsOfUser s campaignID st0.userID).filter (fun x => x.verified)).map
          (fun x => x.value)).sum := by
      rw [hfor]; rfl
    have hl : st0.lastActivity = lastOf (achievementsOfUser s campaignID st0.userID) := by
      rw [hfor]; rfl
    rw [hu, hach, hscore, hlast, hl]
    exact ⟨ha, hs, hmax.1, hmax.2⟩
  · intro u d hne hdoc hdec
    obtain ⟨x, hx⟩ := List.exists_mem_of_ne_nil _ hne
    have hxm := List.mem_filter.mp hx
    have hin : u ∈ (campaignObserved s campaignID).map (fun a => a.userID) :=
      List.mem_map.mpr ⟨x, hxm.1, by simpa using hxm.2⟩
    obtain ⟨st0, hst0, hst0u⟩ := List.mem_map.mp ((htally.2.2 u).mpr hin)
    have hst0' : st0 ∈ statsRange (campaignTally s campaignID).participantScores :=
      (hrange _).mem_iff.mpr hst0
    have hst0u' : st0.userID = u := hst0u
    obtain ⟨st, hres, hstu⟩ := resolveStats_of_record (hst0u'.symm ▸ hdoc) hdec
    exact ⟨st, List.mem_filterMap.mpr ⟨st0, hst0', hres⟩, hstu.trans hst0u'⟩

theorem participantStats_values_witness :
    (∀ m : List ParticipantStats, (m.reverse).Perm m) ∧
    (∃ a, getCampaignAnalytics (fun m => m.reverse) testClock storeCampaign (some "U1") "C1" =
        .ok a ∧
      a.participantStats =
        [⟨"U2", "Bob", 1, 4, "2024-01-03"⟩, ⟨"U1", "Alice", 2, 10, "2024-02-01"⟩] ∧
      (achievementsOfUser storeCampaign "C1" "U1").map (fun x => x.dateAchieved) =
        ["2024-01-05", "2024-02-01"] ∧
      (∀ st ∈ a.participantStats,
        st.achievements = (achievementsOfUser storeCampaign "C1" st.userID).length ∧
        st.totalScore =
          (((achievementsOfUser storeCampaign "C1" st.userID).filter
            (fun x => x.verified)).map (fun x => x.value)).sum ∧
        st.lastActivity ∈
          (achievementsOfUser storeCampaign "C1" st.userID).map (fun x => x.dateAchieved) ∧
        ∀ x ∈ achievementsOfUser storeCampaign "C1" st.userID,
          x.dateAchieved ≤ st.lastActivity)) :=
  ⟨fun m => List.reverse_perm m, ⟨_, rfl, by decide, by decide,
    (participantStats_values (fun m => m.reverse) (fun m => List.reverse_perm m) testClock
      storeCampaign (some "U1") "C1" _ rfl).1⟩⟩

/-! ### Campaign analytics: totals -/

theorem sum_achievements_addStats (m : List ParticipantStats) (a : Achievement) :
    ((addStats m a).map (fun st => st.achievements)).sum =
      (m.map (fun st => st.achievements)).sum + 1 := by
  induction m with
  | nil => simp [addStats, newStats]
  | cons e m ih =>
    by_cases h : e.userID = a.userID
    · simp [addStats, h, bumpStats]
      omega
    · simp [addStats, h, ih]
      omega

theorem totalAchievements_foldl (as : List Achievement) (t : CampaignTally)
    (h : t.totalAchievements = (t.participantScores.map (fun st => st.achievements)).sum) :
    (as.foldl tallyAchievement t).totalAchievements =
      ((as.foldl tallyAchievement t).participantScores.map (fun st => st.achievements)).sum := by
  induction as generalizing t with
  | nil => exact h
  | cons a as ih =>
    apply ih
    simp only [tallyAchievement, sum_achievements_addStats, h]

theorem totalAchievements_campaignTally (s : Store) (campaignID : String) :
    (campaignTally s campaignID).totalAchievements =
      ((campaignTally s campaignID).participantScores.map (fun st => st.achievements)).sum := by
  rw [campaignTally_eq]
  exact totalAchievements_foldl _ _ rfl

theorem sum_filterMap_resolveStats_le (s : Store) (l : List ParticipantStats) :
    ((l.filterMap (resolveStats s)).map (fun st => st.achievements)).sum ≤
      (l.map (fun st => st.achievements)).sum := by
  induction l with
  | nil => simp
  | cons e l ih =>
    cases hr : resolveStats s e with
    | none =>
      simp only [List.filterMap_cons, hr, List.map_cons, List.sum_cons]
      omega
    | some st =>
      have := (resolveStats_some hr).2.1
      simp only [List.filterMap_cons, hr, List.map_cons, List.sum_cons, this]
      omega

theorem sum_filterMap_resolveStats_eq (s : Store) (l : List ParticipantStats)
    (hall : ∀ e ∈ l, ∃ st, resolveStats s e = some st) :
    ((l.filterMap (resolveStats s)).map (fun st => st.achievements)).sum =
      (l.map (fun st => st.achievements)).sum := by
  induction l with
  | nil => simp
  | cons e l ih =>
    obtain ⟨st, hr⟩ := hall e (List.mem_cons_self _ _)
    have := (resolveStats_some hr).2.1
    have hrest := ih (fun x hx => hall x (List.mem_cons_of_mem _ hx))
    simp only [List.filterMap_cons, hr, List.map_cons, List.sum_cons, this, hrest]

/-- Claim C20. With `range` yielding every entry of the map once, in a 200
response of `getCampaignAnalytics` the sum of `achievements` over
`participantStats` is at most `totalAchievements`, and they are equal when
the user record of every user with an achievement in the campaign is fetched
and decodes. -/
theorem campaign_totals
    (statsRange : List ParticipantStats → List ParticipantStats)
    (hrange : ∀ m, (statsRange m).Perm m) (clock : Clock) (s : Store)
    (uid : Option String) (campaignID : String) (a : CampaignAnalytics)
    (h : getCampaignAnalytics statsRange clock s uid campaignID = .ok a) :
    (a.participantStats.map (fun st => st.achievements)).sum ≤ a.totalAchievements ∧
    ((∀ x ∈ campaignObserved s campaignID, userResolves s x.userID = true) →
      (a.participantStats.map (fun st => st.achievements)).sum = a.totalAchievements) := by
  obtain ⟨hstats, htotal⟩ := participantStats_of_ok h
  have hsum : ((statsRange (campaignTally s campaignID).participantScores).map
      (fun st => st.achievements)).sum = (campaignTally s campaignID).totalAchievements := by
    rw [((hrange _).map _).sum_eq, ← totalAchievements_campaignTally]
  rw [hstats, htotal, ← hsum]
  constructor
  · exact sum_filterMap_resolveStats_le s _
  · intro hall
    apply sum_filterMap_resolveStats_eq
    intro e he
    rw [(hrange _).mem_iff] at he
    have htally := statsTally_campaignTally s campaignID
    have hin := (htally.2.2 e.userID).mp (List.mem_map_of_mem (fun st => st.userID) he)
    obtain ⟨x, hx, hxu⟩ := List.mem_map.mp hin
    have hxu' : x.userID = e.userID := hxu
    have hres := hall x hx
    rw [hxu'] at hres
    unfold userResolves at hres
    cases hdoc : getUserDoc s e.userID with
    | none => simp [hdoc] at hres
    | some d =>
      simp only [hdoc] at hres
      obtain ⟨st, hst, _⟩ := resolveStats_of_record hdoc hres
      exact ⟨st, hst⟩

theorem campaign_totals_witness :
    (∀ m : List ParticipantStats, (m.reverse).Perm m) ∧
    (∃ a, getCampaignAnalytics (fun m => m.reverse) testClock storeOrphan (some "U1") "C1" =
        .ok a ∧
      a.totalAchievements = 1 ∧ a.participantStats = [] ∧
      (a.participantStats.map (fun st => st.achievements)).sum ≤ a.totalAchievements) ∧
    (∀ x ∈ campaignObserved storeCampaign "C1", userResolves storeCampaign x.userID = true) ∧
    (∃ a, getCampaignAnalytics (fun m => m.reverse) testClock storeCampaign (some "U1") "C1" =
        .ok a ∧
      a.totalAchievements = 3 ∧
      (a.participantStats.map (fun st => st.achievements)).sum = a.totalAchievements) :=
  ⟨fun m => List.reverse_perm m,
   ⟨_, rfl, by decide, by decide,
    (campaign_totals (fun m => m.reverse) (fun m => List.reverse_perm m) testClock
      storeOrphan (some "U1") "C1" _ rfl).1⟩,
   by decide,
   ⟨_, rfl, by decide,
    (campaign_totals (fun m => m.reverse) (fun m => List.reverse_perm m) testClock
      storeCampaign (some "U1") "C1" _ rfl).2 (by decide)⟩⟩

/-! ### Campaign analytics: completion rate -/

theorem completionRate_of_ok
    {statsRange : List ParticipantStats → List ParticipantStats}
    {clock : Clock} {s : Store} {uid : Option String} {campaignID : String}
    {a : CampaignAnalytics}
    (h : getCampaignAnalytics statsRange clock s uid campaignID = .ok a) :
    ∃ c, getCampaignDoc s campaignID = some c ∧
      a.participantCount = c.data.participants.length ∧
      a.completionRate =
        campaignCompletionRate (campaignTally s campaignID).participantScores.length
          c.data.participants.length := by
  obtain ⟨u, d, c, _, hc, _, _, _, _, ha⟩ := getCampaignAnalytics_ok h
  rw [ha]
  exact ⟨c, hc, rfl, rfl⟩

/-- Claim C18, refuted as stated. In `storeCampaign` the campaign `C1` has
one participant, `U1`, and achievements by `U1` and by `U2`, a member of the
organization who never joined: `completionRate` is 200. -/
theorem campaign_completionRate_exceeds_100 :
    ∃ a, getCampaignAnalytics (fun m => m) testClock storeCampaign (some "U1") "C1" = .ok a ∧
      a.participantCount = 1 ∧ a.completionRate = 200 ∧ ¬ a.completionRate ≤ 100 := by
  have hlen : (campaignTally storeCampaign "C1").participantScores.length = 2 := by decide
  have hrate : (campaignAnalyticsOf (fun m => m) testClock storeCampaign "C1"
      (mkCampaignWith "C1" "O1" "active" ["U1"]).data).completionRate = 200 := by
    show campaignCompletionRate (campaignTally storeCampaign "C1").participantScores.length
      ([("U1" : String)]).length = 200
    rw [hlen]
    norm_num [campaignCompletionRate]
  refine ⟨_, rfl, by decide, hrate, ?_⟩
  rw [hrate]
  norm_num

theorem length_participantScores (s : Store) (campaignID : String) :
    (campaignTally s campaignID).participantScores.length =
      ((campaignObserved s campaignID).map (fun a => a.userID)).dedup.length := by
  have htally := statsTally_campaignTally s campaignID
  rw [← List.length_map (campaignTally s campaignID).participantScores (fun st => st.userID)]
  apply List.Perm.length_eq
  rw [List.perm_ext_iff_of_nodup htally.1 (List.nodup_dedup _)]
  intro u
  rw [htally.2.2 u, List.mem_dedup]

/-- Claim C18, amended. In a 200 response of `getCampaignAnalytics` the
`completionRate` is the number of distinct users with an achievement in the
campaign divided by `participantCount`, times 100, when `participantCount`
is positive, and 0 when it is 0; it is never negative; and it is at most 100
when every user with an achievement in the campaign is one of its
participants. -/
theorem campaign_completionRate_bounds
    (statsRange : List ParticipantStats → List ParticipantStats) (clock : Clock)
    (s : Store) (uid : Option String) (campaignID : String) (a : CampaignAnalytics)
    (h : getCampaignAnalytics statsRange clock s uid campaignID = .ok a) :
    a.completionRate =
      campaignCompletionRate
        ((campaignObserved s campaignID).map (fun x => x.userID)).dedup.length
        a.participantCount ∧
    (a.participantCount = 0 → a.completionRate = 0) ∧
    0 ≤ a.completionRate ∧
    ((∀ c, getCampaignDoc s campaignID = some c →
        ∀ x ∈ campaignObserved s campaignID, x.userID ∈ c.data.participants) →
      a.completionRate ≤ 100) := by
  obtain ⟨c, hc, hcount, hrate⟩ := completionRate_of_ok h
  rw [length_participantScores] at hrate
  rw [hrate, hcount]
  refine ⟨rfl, ?_, ?_, ?_⟩
  · intro hzero
    simp [campaignCompletionRate, hzero]
  · unfold campaignCompletionRate
    split
    · exact mul_nonneg (div_nonneg (by exact_mod_cast Nat.zero_le _)
        (by exact_mod_cast Nat.zero_le _)) (by norm_num)
    · exact le_refl _
  · intro hpart
    unfold campaignCompletionRate
    split
    · rename_i hpos
      have hsub : ((campaignObserved s campaignID).map (fun x => x.userID)).dedup ⊆
          c.data.participants := by
        intro u hu
        rw [List.mem_dedup] at hu
        obtain ⟨x, hx, hxu⟩ := List.mem_map.mp hu
        exact hxu ▸ hpart c hc x hx
      have hle := (List.subperm_of_subset (List.nodup_dedup _) hsub).length_le
      exact (rate_bounds _ _ hle hpos).2
    · norm_num

theorem campaign_completionRate_bounds_witness :
    (∀ c, getCampaignDoc storeCampaignJoined "C1" = some c →
      ∀ x ∈ campaignObserved storeCampaignJoined "C1", x.userID ∈ c.data.participants) ∧
    (∃ a, getCampaignAnalytics (fun m => m) testClock storeCampaignJoined (some "U1") "C1" =
        .ok a ∧
      a.participantCount = 2 ∧
      ((campaignObserved storeCampaignJoined "C1").map (fun x => x.userID)).dedup.length = 2 ∧
      a.completionRate = campaignCompletionRate 2 2 ∧
      0 ≤ a.completionRate ∧ a.completionRate ≤ 100) := by
  have hpart : ∀ c, getCampaignDoc storeCampaignJoined "C1" = some c →
      ∀ x ∈ campaignObserved storeCampaignJoined "C1", x.userID ∈ c.data.participants := by
    intro c hc
    have hc' : c = mkCampaignWith "C1" "O1" "active" ["U1", "U2"] := by
      have : getCampaignDoc storeCampaignJoined "C1" =
          some (mkCampaignWith "C1" "O1" "active" ["U1", "U2"]) := by decide
      rw [this] at hc
      exact (Option.some.inj hc).symm
    subst hc'
    decide
  have hthm := campaign_completionRate_bounds (fun m => m) testClock storeCampaignJoined
    (some "U1") "C1" _ rfl
  exact ⟨hpart, ⟨_, rfl, by decide, by decide, hthm.1, hthm.2.2.1, hthm.2.2.2 hpart⟩⟩

/-! ### Transport failures -/

theorem employeesLoop_docs (l : List (Doc User)) (n : Nat) :
    employeesLoop n (l.map IterResult.doc) = n + l.length := by
  induction l generalizing n with
  | nil => rfl
  | cons d l ih =>
    simp only [List.map_cons, employeesLoop, ih, List.length_cons]
    omega

theorem campaignsLoop_docs (l : List (Doc Campaign)) (active total : Nat)
    (ids : List String) :
    campaignsLoop (active, total, ids) (l.map IterResult.doc) =
      (active + ((l.filter (fun d => d.decodes)).filter
          (fun d => d.data.status == "active")).length,
       total + (l.filter (fun d => d.decodes)).length,
       ids ++ (l.filter (fun d => d.decodes)).map (fun d => d.id)) := by
  induction l generalizing active total ids with
  | nil => simp [campaignsLoop]
  | cons d l ih =>
    cases hd : d.decodes
    · simp [campaignsLoop, hd, ih, List.filter_cons]
    · cases hs : (d.data.status == "active")
      · simp [campaignsLoop, hd, hs, ih, List.filter_cons]
        omega
      · simp [campaignsLoop, hd, hs, ih, List.filter_cons]
        omega

theorem leaderboardCampaignsLoop_docs (l : List (Doc Campaign)) (ids : List String) :
    leaderboardCampaignsLoop ids (l.map IterResult.doc) =
      some (ids ++ l.map (fun d => d.id)) := by
  induction l generalizing ids with
  | nil => simp [leaderboardCampaignsLoop]
  | cons d l ih => simp [leaderboardCampaignsLoop, ih]

theorem countLoop_docs (l : List (Doc Achievement)) (acc : Nat × List (String × Nat)) :
    countLoop acc (l.map IterResult.doc) = some (l.foldl countDoc acc) := by
  induction l generalizing acc with
  | nil => rfl
  | cons d l ih => simp [countLoop, ih]

theorem scoresLoop_docs (l : List (Doc Achievement)) (m : List LeaderboardEntry) :
    scoresLoop m (l.map IterResult.doc) = some (l.foldl addDoc m) := by
  induction l generalizing m with
  | nil => rfl
  | cons d l ih => simp [scoresLoop, ih]

theorem accumulateScoresOver_ofStore (s : Store) (ids : List String)
    (m : List LeaderboardEntry) :
    accumulateScoresOver (Transport.ofStore s) ids m = some (accumulateScores s ids m) := by
  induction ids generalizing m with
  | nil => rfl
  | cons cid ids ih =>
    have h : scoresLoop m ((Transport.ofStore s).verifiedAchievements cid) =
        some ((verifiedAchievementDocs s cid).foldl addDoc m) := scoresLoop_docs _ m
    unfold accumulateScoresOver
    rw [h]
    simp only []
    rw [ih]
    rfl

theorem countAchievementsOver_ofStore (s : Store) (ids : List String)
    (acc : Nat × List (String × Nat)) :
    countAchievementsOver (Transport.ofStore s) ids acc =
      some (ids.foldl (fun acc cid => (verifiedAchievementDocs s cid).foldl countDoc acc)
        acc) := by
  induction ids generalizing acc with
  | nil => rfl
  | cons cid ids ih =>
    have h : countLoop acc ((Transport.ofStore s).verifiedAchievements cid) =
        some ((verifiedAchievementDocs s cid).foldl countDoc acc) := countLoop_docs _ acc
    unfold countAchievementsOver
    rw [h]
    simp only []
    rw [ih]
    rfl

/-- Over the transport that never fails the two handlers answer, and answer
as the handlers over the store. -/
theorem handlers_over_ofStore (rt : Runtime) (s : Store) (uid : Option String)
    (orgID : String) :
    getLeaderboardOver rt (Transport.ofStore s) s uid orgID =
      some (getLeaderboard rt s uid orgID) ∧
    getOrganizationAnalyticsOver rt (Transport.ofStore s) s uid orgID =
      some (getOrganizationAnalytics rt s uid orgID) := by
  have hcamp : leaderboardCampaignsLoop [] ((Transport.ofStore s).campaigns orgID) =
      some (campaignIDsOf s orgID) := by
    unfold Transport.ofStore campaignIDsOf
    simp only [leaderboardCampaignsLoop_docs, List.nil_append]
  have hemp : employeesLoop 0 ((Transport.ofStore s).employees orgID) =
      employeeCount s orgID := by
    unfold Transport.ofStore employeeCount
    simp only [employeesLoop_docs, Nat.zero_add]
  have hloop : campaignsLoop (0, 0, []) ((Transport.ofStore s).campaigns orgID) =
      (((decodedCampaignDocs s orgID).filter (fun d => d.data.status == "active")).length,
       (decodedCampaignDocs s orgID).length,
       (decodedCampaignDocs s orgID).map (fun d => d.id)) := by
    unfold Transport.ofStore decodedCampaignDocs
    simp only [campaignsLoop_docs, Nat.zero_add, List.nil_append]
  have hcount : ∀ ids, countAchievementsOver (Transport.ofStore s) ids (0, initialTypeCount) =
      some (countAchievements s ids) := by
    intro ids
    exact countAchievementsOver_ofStore s ids (0, initialTypeCount)
  constructor
  · unfold getLeaderboardOver getLeaderboard rankedEntries
    simp only [hcamp, accumulateScoresOver_ofStore]
    split
    · rfl
    · split
      · rfl
      · split
        · rfl
        · split
          · rfl
          · split
            · rfl
            · split
              · rfl
              · rfl
  · unfold getOrganizationAnalyticsOver getOrganizationAnalytics topPerformersOf
    simp only [hemp, hloop, hcount, accumulateScoresOver_ofStore]
    split
    · rfl
    · split
      · rfl
      · split
        · rfl
        · split
          · rfl
          · split
            · rfl
            · rfl

/-- Claim C13, evaluated. Over `storeMixed`, where `O1` has two employees
and two campaigns, let the employees iterator fail after the document of
`U1` and the campaigns iterator fail after the document of `C1`:
`getOrganizationAnalytics` answers 200 with `totalEmployees = 1` and with the
achievements of `C1` alone (`totalAchievements = 2`), where the handler over
the store that delivers everything reports 2 employees and 3 achievements;
`getLeaderboard` answers the failure of its campaigns iterator with 500. -/
theorem transport_failure_gives_partial_200 :
    (∃ a, getOrganizationAnalyticsOver rtInsertionOrder failingTransport storeMixed
        (some "U1") "O1" = some (.ok a) ∧
      a.totalEmployees = 1 ∧ a.activeCampaigns = 1 ∧ a.totalAchievements = 2) ∧
    (∃ b, getOrganizationAnalytics rtInsertionOrder storeMixed (some "U1") "O1" = .ok b ∧
      b.totalEmployees = 2 ∧ b.totalAchievements = 3) ∧
    getLeaderboardOver rtInsertionOrder failingTransport storeMixed (some "U1") "O1" =
      some (.error 500 "Failed to fetch campaigns") :=
  ⟨⟨_, rfl, by decide, by decide, by decide⟩, ⟨_, rfl, by decide, by decide⟩, by decide⟩

/-- An error of an achievements iterator: both handlers keep calling `Next`
and never answer. -/
theorem achievements_failure_never_answers :
    getLeaderboardOver rtInsertionOrder failingAchievements storeMixed (some "U1") "O1" =
      none ∧
    getOrganizationAnalyticsOver rtInsertionOrder failingAchievements storeMixed
      (some "U1") "O1" = none := by
  constructor
  · decide
  · rfl

/-! ### Campaign analytics: average score and daily series -/

theorem tally_counts (as : List Achievement) (t : CampaignTally) :
    (as.foldl tallyAchievement t).verifiedAchievements =
        t.verifiedAchievements + (as.filter (fun a => a.verified)).length ∧
    (as.foldl tallyAchievement t).totalScore =
        t.totalScore + ((as.filter (fun a => a.verified)).map (fun a => a.value)).sum ∧
    (as.foldl tallyAchievement t).totalAchievements = t.totalAchievements + as.length := by
  induction as generalizing t with
  | nil => simp
  | cons a as ih =>
    obtain ⟨h1, h2, h3⟩ := ih (tallyAchievement t a)
    simp only [List.foldl_cons, h1, h2, h3]
    cases hv : a.verified
    · simp [tallyAchievement, hv, List.filter_cons]
      omega
    · simp [tallyAchievement, hv, List.filter_cons]
      refine ⟨by omega, by ring, by omega⟩

theorem campaignTally_counts (s : Store) (campaignID : String) :
    (campaignTally s campaignID).verifiedAchievements =
        ((campaignObserved s campaignID).filter (fun a => a.verified)).length ∧
    (campaignTally s campaignID).totalScore =
        (((campaignObserved s campaignID).filter (fun a => a.verified)).map
          (fun a => a.value)).sum ∧
    (campaignTally s campaignID).totalAchievements = (campaignObserved s campaignID).length := by
  rw [campaignTally_eq]
  have h := tally_counts (campaignObserved s campaignID) CampaignTally.initial
  simpa [CampaignTally.initial] using h

/-- Claim C21. In a 200 response of `getCampaignAnalytics`, with `n` the number
of verified achievements of the campaign and `total` the sum of their values,
`averageScore` is the guarded quotient `if n > 0 then total / n else 0`: it is
`total / n` when `n > 0` and 0 when `n = 0`, where no division takes place. -/
theorem campaign_averageScore
    (statsRange : List ParticipantStats → List ParticipantStats) (clock : Clock)
    (s : Store) (uid : Option String) (campaignID : String) (a : CampaignAnalytics)
    (h : getCampaignAnalytics statsRange clock s uid campaignID = .ok a) :
    a.averageScore =
      campaignAverageScore
        (((campaignObserved s campaignID).filter (fun x => x.verified)).map
          (fun x => x.value)).sum
        ((campaignObserved s campaignID).filter (fun x => x.verified)).length ∧
    (0 < ((campaignObserved s campaignID).filter (fun x => x.verified)).length →
      a.averageScore =
        (((((campaignObserved s campaignID).filter (fun x => x.verified)).map
          (fun x => x.value)).sum : Score) : ℚ) /
        ((((campaignObserved s campaignID).filter (fun x => x.verified)).length : Nat) : ℚ)) ∧
    (((campaignObserved s campaignID).filter (fun x => x.verified)).length = 0 →
      a.averageScore = 0) := by
  obtain ⟨u, d, c, _, _, _, _, _, _, ha⟩ := getCampaignAnalytics_ok h
  obtain ⟨hv, hs, _⟩ := campaignTally_counts s campaignID
  have key : a.averageScore =
      campaignAverageScore
        (((campaignObserved s campaignID).filter (fun x => x.verified)).map
          (fun x => x.value)).sum
        ((campaignObserved s campaignID).filter (fun x => x.verified)).length := by
    rw [ha]
    show campaignAverageScore (campaignTally s campaignID).totalScore
      (campaignTally s campaignID).verifiedAchievements = _
    rw [hv, hs]
  refine ⟨key, ?_, ?_⟩
  · intro hpos
    rw [key]
    unfold campaignAverageScore
    rw [if_pos hpos]
  · intro hzero
    rw [key]
    unfold campaignAverageScore
    rw [hzero]
    simp

theorem campaign_averageScore_witness :
    ∃ a, getCampaignAnalytics (fun m => m) testClock storeCampaign (some "U1") "C1" = .ok a ∧
      (((campaignObserved storeCampaign "C1").filter (fun x => x.verified)).map
        (fun x => x.value)).sum = 14 ∧
      ((campaignObserved storeCampaign "C1").filter (fun x => x.verified)).length = 2 ∧
      a.averageScore =
        (((((campaignObserved storeCampaign "C1").filter (fun x => x.verified)).map
          (fun x => x.value)).sum : Score) : ℚ) /
        ((((campaignObserved storeCampaign "C1").filter (fun x => x.verified)).length : Nat) :
          ℚ) :=
  ⟨_, rfl, by decide, by decide,
   (campaign_averageScore (fun m => m) testClock storeCampaign (some "U1") "C1" _ rfl).2.1
     (by decide)⟩

/-- Claim C22. In a 200 response of `getCampaignAnalytics` the daily series
has exactly 7 elements; the element at index `i` is dated `today - 6 + i`, so
the dates are the 7 consecutive days ending today, in ascending order; and
every element has `achievements = totalAchievements / 7` by integer division
and `totalValue = totalScore / 7`, `totalScore` being the sum of the values of
the verified achievements of the campaign. -/
theorem campaign_performanceData
    (statsRange : List ParticipantStats → List ParticipantStats) (clock : Clock)
    (s : Store) (uid : Option String) (campaignID : String) (a : CampaignAnalytics)
    (h : getCampaignAnalytics statsRange clock s uid campaignID = .ok a) :
    a.performanceData.length = 7 ∧
    a.performanceData.map (fun p => p.date) =
      [clock.format (clock.today - 6), clock.format (clock.today - 5),
       clock.format (clock.today - 4), clock.format (clock.today - 3),
       clock.format (clock.today - 2), clock.format (clock.today - 1),
       clock.format (clock.today - 0)] ∧
    (∀ (i : Nat) (hi : i < a.performanceData.length),
      (a.performanceData[i]).date = clock.format (clock.today - 6 + i)) ∧
    (∀ p ∈ a.performanceData,
      p.achievements = a.totalAchievements / 7 ∧
      p.totalValue =
        (((((campaignObserved s campaignID).filter (fun x => x.verified)).map
          (fun x => x.value)).sum : Score) : ℚ) / 7) := by
  obtain ⟨u, d, c, _, _, _, _, _, _, ha⟩ := getCampaignAnalytics_ok h
  obtain ⟨_, hs, _⟩ := campaignTally_counts s campaignID
  have hp : a.performanceData =
      dailyPerformance clock (campaignTally s campaignID).totalAchievements
        (campaignTally s campaignID).totalScore := by
    rw [ha]; rfl
  have ht : a.totalAchievements = (campaignTally s campaignID).totalAchievements := by
    rw [ha]; rfl
  refine ⟨?_, ?_, ?_, ?_⟩
  · rw [hp]; rfl
  · rw [hp]; rfl
  · intro i hi
    have hi7 : i < 7 := by
      have : a.performanceData.length = 7 := by rw [hp]; rfl
      omega
    simp only [hp, dailyPerformance]
    have hcases : i = 0 ∨ i = 1 ∨ i = 2 ∨ i = 3 ∨ i = 4 ∨ i = 5 ∨ i = 6 := by omega
    rcases hcases with h0 | h0 | h0 | h0 | h0 | h0 | h0 <;> subst h0 <;> simp <;> congr 1 <;> omega
  · intro p hpm
    rw [hp] at hpm
    simp only [dailyPerformance, List.mem_map] at hpm
    obtain ⟨i, _, rfl⟩ := hpm
    exact ⟨by rw [ht], by rw [hs]⟩

theorem campaign_performanceData_witness :
    ∃ a, getCampaignAnalytics (fun m => m) testClock storeCampaign (some "U1") "C1" = .ok a ∧
      a.performanceData.length = 7 ∧
      a.performanceData.map (fun p => p.date) =
        [testClock.format (testClock.today - 6), testClock.format (testClock.today - 5),
         testClock.format (testClock.today - 4), testClock.format (testClock.today - 3),
         testClock.format (testClock.today - 2), testClock.format (testClock.today - 1),
         testClock.format (testClock.today - 0)] :=
  ⟨_, rfl,
   (campaign_performanceData (fun m => m) testClock storeCampaign (some "U1") "C1" _ rfl).1,
   (campaign_performanceData (fun m => m) testClock storeCampaign (some "U1") "C1" _ rfl).2.1⟩

/-! ### One entry per user -/

theorem map_userID_filterMap_sublist (s : Store) (l : List LeaderboardEntry) :
    ((l.filterMap (resolvePerformer s)).map (fun e => e.userID)).Sublist
      (l.map (fun e => e.userID)) := by
  induction l with
  | nil => simp
  | cons e l ih =>
    cases hr : resolvePerformer s e with
    | none =>
      simp only [List.filterMap_cons, hr, List.map_cons]
      exact ih.cons _
    | some e' =>
      have hu : e'.userID = e.userID := by
        unfold resolvePerformer at hr
        split at hr
        · cases hr
        · split at hr
          · cases hr; rfl
          · cases hr
      simp only [List.filterMap_cons, hr, List.map_cons, hu]
      exact ih.cons₂ _

theorem map_userID_filterMap_stats_sublist (s : Store) (l : List ParticipantStats) :
    ((l.filterMap (resolveStats s)).map (fun e => e.userID)).Sublist
      (l.map (fun e => e.userID)) := by
  induction l with
  | nil => simp
  | cons e l ih =>
    cases hr : resolveStats s e with
    | none =>
      simp only [List.filterMap_cons, hr, List.map_cons]
      exact ih.cons _
    | some e' =>
      have hu : e'.userID = e.userID := (resolveStats_some hr).1
      simp only [List.filterMap_cons, hr, List.map_cons, hu]
      exact ih.cons₂ _

theorem nodup_userID_rankedEntries {rt : Runtime} (hrt : rt.Lawful) (s : Store)
    (orgID : String) : ((rankedEntries rt s orgID).map (fun e => e.userID)).Nodup := by
  have hp := (rankedEntries_perm hrt s orgID).map (fun e => e.userID)
  simp only [List.map_map] at hp
  have e1 : ((fun e : LeaderboardEntry => e.userID) ∘ withoutPosition) =
      (fun e => e.userID) := by
    funext e; rfl
  have e2 : ((fun e : LeaderboardEntry => e.userID) ∘ withoutPosition ∘ resolveName s) =
      (fun e => e.userID) := by
    funext e
    exact resolveName_userID s e
  rw [e1, e2] at hp
  exact hp.nodup_iff.mpr (tally_accumulateScores s _).1

/-- Claim C27. With a runtime that keeps its contracts and a range over the
stats map that yields every entry once, no user id occurs twice in the list of
a 200 response of `getLeaderboard`, in `topPerformers` of a 200 response of
`getOrganizationAnalytics`, or in `participantStats` of a 200 response of
`getCampaignAnalytics`. -/
theorem one_entry_per_user (rt : Runtime) (hrt : rt.Lawful)
    (statsRange : List ParticipantStats → List ParticipantStats)
    (hrange : ∀ m, (statsRange m).Perm m) (clock : Clock) (s : Store)
    (uid : Option String) (orgID campaignID : String) :
    (∀ body, getLeaderboard rt s uid orgID = .ok body →
      (body.leaderboard.map (fun e => e.userID)).Nodup) ∧
    (∀ a, getOrganizationAnalytics rt s uid orgID = .ok a →
      (a.topPerformers.map (fun e => e.userID)).Nodup) ∧
    (∀ a, getCampaignAnalytics statsRange clock s uid campaignID = .ok a →
      (a.participantStats.map (fun e => e.userID)).Nodup) := by
  refine ⟨?_, ?_, ?_⟩
  · intro body h
    rcases getLeaderboard_ok_cases h with ⟨_, hb⟩ | ⟨_, hb⟩
    · rw [hb]
      exact List.nodup_nil
    · rw [hb, limitTo_eq_take]
      exact List.Nodup.sublist ((List.take_sublist _ _).map _)
        (nodup_userID_rankedEntries hrt s orgID)
  · intro a h
    rw [topPerformers_of_ok h]
    unfold topPerformersOf
    simp only []
    rw [limitTo_eq_take]
    refine List.Nodup.sublist ((List.take_sublist _ _).map _) ?_
    refine List.Nodup.sublist (map_userID_filterMap_sublist s _) ?_
    exact ((hrt.1 _).map _).nodup_iff.mpr (tally_accumulateScores s _).1
  · intro a h
    rw [(participantStats_of_ok h).1]
    refine List.Nodup.sublist (map_userID_filterMap_stats_sublist s _) ?_
    exact ((hrange _).map _).nodup_iff.mpr (statsTally_campaignTally s campaignID).1

theorem one_entry_per_user_witness :
    rtReverseOrder.Lawful ∧ (∀ m : List ParticipantStats, (m.reverse).Perm m) ∧
    getLeaderboard rtReverseOrder storeMixed (some "U1") "O1" =
      .ok { leaderboard := leaderboardMixed, count := 2 } ∧
    (leaderboardMixed.map (fun e => e.userID)).Nodup ∧
    (∃ a, getOrganizationAnalytics rtReverseOrder storeMixed (some "U1") "O1" = .ok a ∧
      (a.topPerformers.map (fun e => e.userID)).Nodup) ∧
    (∃ a, getCampaignAnalytics (fun m => m.reverse) testClock storeCampaign (some "U1") "C1" =
        .ok a ∧
      (a.participantStats.map (fun e => e.userID)).Nodup) :=
  ⟨lawful_rtReverseOrder, fun m => List.reverse_perm m, by decide,
   (one_entry_per_user rtReverseOrder lawful_rtReverseOrder (fun m => m.reverse)
     (fun m => List.reverse_perm m) testClock storeMixed (some "U1") "O1" "C1").1
     { leaderboard := leaderboardMixed, count := 2 } (by decide),
   ⟨_, rfl,
    (one_entry_per_user rtReverseOrder lawful_rtReverseOrder (fun m => m.reverse)
      (fun m => List.reverse_perm m) testClock storeMixed (some "U1") "O1" "C1").2.1 _ rfl⟩,
   ⟨_, rfl,
    (one_entry_per_user rtReverseOrder lawful_rtReverseOrder (fun m => m.reverse)
      (fun m => List.reverse_perm m) testClock storeCampaign (some "U1") "O1" "C1").2.2 _ rfl⟩⟩

/-! ### Verifying an achievement -/

theorem find_updateDoc {α : Type} (id : String) (f : α → α) (docs : List (Doc α))
    (d : Doc α) (h : docs.find? (fun x => x.id == id) = some d) :
    (updateDoc id f docs).find? (fun x => x.id == id) = some { d with data := f d.data } := by
  induction docs with
  | nil => simp at h
  | cons x xs ih =>
    cases hx : (x.id == id)
    · rw [List.find?_cons, hx] at h
      have hu : updateDoc id f (x :: xs) = x :: updateDoc id f xs := by
        simp [updateDoc, hx]
      rw [hu, List.find?_cons, hx]
      exact ih h
    · rw [List.find?_cons, hx] at h
      cases h
      have hu : updateDoc id f (d :: xs) = { d with data := f d.data } :: xs := by
        simp [updateDoc, hx]
      rw [hu, List.find?_cons]
      simp [hx]

/-- Claim C23, as stated, fails: `A1` was verified by `ADM1`; a later call of
`verifyAchievement` by `ADM2`, another admin of the same organization, answers
200 and leaves `verifiedBy = "ADM2"`. -/
theorem second_verification_overwrites_verifiedBy :
    getAchievementDoc storeVerified "A1" =
      some (mkAchievementBy "A1" "U1" "C1" "sales" 10 "ADM1") ∧
    (verifyAchievement storeVerified (some "ADM2") "A1").1 = .ok 200 () ∧
    getAchievementDoc (verifyAchievement storeVerified (some "ADM2") "A1").2 "A1" =
      some (mkAchievementBy "A1" "U1" "C1" "sales" 10 "ADM2") := by
  decide

theorem find_updateDoc_ne {α : Type} (id other : String) (f : α → α) (docs : List (Doc α))
    (h : other ≠ id) :
    (updateDoc id f docs).find? (fun x => x.id == other) =
      docs.find? (fun x => x.id == other) := by
  induction docs with
  | nil => rfl
  | cons x xs ih =>
    cases hx : (x.id == id)
    · have hu : updateDoc id f (x :: xs) = x :: updateDoc id f xs := by
        simp [updateDoc, hx]
      rw [hu, List.find?_cons, List.find?_cons, ih]
    · have hu : updateDoc id f (x :: xs) = { x with data := f x.data } :: xs := by
        simp [updateDoc, hx]
      have hxid : x.id = id := by simpa using hx
      have hne : (x.id == other) = false := by
        rw [hxid]
        simpa using fun hh : id = other => h hh.symm
      rw [hu, List.find?_cons, List.find?_cons]
      simp only [hne]

/-- Claim C23, amended. A call of `verifyAchievement` by an admin of the
organization that owns the campaign of the achievement answers 200 whether or
not the achievement is already verified, and leaves the achievement with
`verified = true` and `verifiedBy` the caller, its other fields as they were:
for an achievement that was verified before, `verified` stays true and
`verifiedBy` becomes the admin of the latest verification. Every other
achievement is left as it was. -/
theorem verifyAchievement_sets_latest_admin (s : Store) (uid achievementID : String)
    (userDoc : Doc User) (achievementDoc : Doc Achievement) (campaignDoc : Doc Campaign)
    (hid : achievementID ≠ "")
    (hu : getUserDoc s uid = some userDoc) (hud : userDoc.decodes = true)
    (hrole : userDoc.data.role = "admin")
    (ha : getAchievementDoc s achievementID = some achievementDoc)
    (had : achievementDoc.decodes = true)
    (hc : getCampaignDoc s achievementDoc.data.campaignID = some campaignDoc)
    (hcd : campaignDoc.decodes = true)
    (horg : userDoc.data.organizationID = campaignDoc.data.orgID) :
    (verifyAchievement s (some uid) achievementID).1 = .ok 200 () ∧
    getAchievementDoc (verifyAchievement s (some uid) achievementID).2 achievementID =
      some { achievementDoc with
        data := { achievementDoc.data with verified := true, verifiedBy := uid } } ∧
    (∀ other, other ≠ achievementID →
      getAchievementDoc (verifyAchievement s (some uid) achievementID).2 other =
        getAchievementDoc s other) := by
  have hv : verifyAchievement s (some uid) achievementID =
      (.ok 200 (),
       { s with achievements := updateDoc achievementID (markVerified uid) s.achievements }) := by
    simp [verifyAchievement, hid, hu, hud, hrole, ha, had, hc, hcd, horg]
  rw [hv]
  refine ⟨rfl, ?_, ?_⟩
  · exact find_updateDoc achievementID (markVerified uid) s.achievements achievementDoc ha
  · intro other hne
    exact find_updateDoc_ne achievementID other (markVerified uid) s.achievements hne

theorem verifyAchievement_sets_latest_admin_witness :
    getAchievementDoc storeVerified "A1" =
      some (mkAchievementBy "A1" "U1" "C1" "sales" 10 "ADM1") ∧
    (verifyAchievement storeVerified (some "ADM2") "A1").1 = .ok 200 () ∧
    getAchievementDoc (verifyAchievement storeVerified (some "ADM2") "A1").2 "A1" =
      some { mkAchievementBy "A1" "U1" "C1" "sales" 10 "ADM1" with
        data := { (mkAchievementBy "A1" "U1" "C1" "sales" 10 "ADM1").data with
          verified := true, verifiedBy := "ADM2" } } ∧
    (∀ other, other ≠ "A1" →
      getAchievementDoc (verifyAchievement storeVerified (some "ADM2") "A1").2 other =
        getAchievementDoc storeVerified other) :=
  ⟨by decide,
   verifyAchievement_sets_latest_admin storeVerified "ADM2" "A1"
    (mkUserWith "ADM2" "O1" "Ben" "admin") (mkAchievementBy "A1" "U1" "C1" "sales" 10 "ADM1")
    (mkCampaignWith "C1" "O1" "active" ["U1"]) (by decide) (by decide) (by decide) (by decide)
    (by decide) (by decide) (by decide) (by decide) (by decide)⟩

/-! ### Creating an achievement -/

theorem isValidType_iff (type : String) : isValidType type = true ↔ type ∈ validTypes := by
  unfold isValidType
  rw [List.any_eq_true]
  constructor
  · rintro ⟨v, hv, hveq⟩
    have : type = v := by simpa using hveq
    rw [this]
    exact hv
  · intro h
    exact ⟨type, h, by simp⟩

theorem createAchievement_store (newID : String) (s : Store) (uid : Option String)
    (body : Option CreateAchievementRequest) :
    (createAchievement newID s uid body).2 = s ∨
    ∃ a : Achievement, a.type ∈ validTypes ∧ a.verified = false ∧
      (createAchievement newID s uid body).1 =
        .ok 201 { id := newID, data := a, decodes := true } ∧
      (createAchievement newID s uid body).2 =
        { s with achievements := addDocument newID a s.achievements } := by
  unfold createAchievement
  split
  · exact Or.inl rfl
  · split
    · exact Or.inl rfl
    · rename_i req _ u
      by_cases hty : isValidType req.type = false
      · rw [if_pos hty]
        exact Or.inl rfl
      · rw [if_neg hty]
        have hmem : req.type ∈ validTypes :=
          (isValidType_iff req.type).mp (by simpa using hty)
        split
        · exact Or.inl rfl
        · split
          · exact Or.inl rfl
          · split
            · exact Or.inl rfl
            · split
              · exact Or.inl rfl
              · split
                · exact Or.inl rfl
                · exact Or.inr ⟨_, hmem, rfl, rfl, rfl⟩

/-- Claim C24. For a request whose body binds and whose caller is
authenticated, `createAchievement` answers 400 and leaves the store as it was
whenever the type is not one of `sales`, `calls`, `meetings`, `referrals`;
and for every request, every achievement document in the store it leaves was
there before or has a type in that enumeration. -/
theorem createAchievement_rejects_foreign_type (newID : String) (s : Store)
    (uid : Option String) (body : Option CreateAchievementRequest) :
    (∀ u req, uid = some u → body = some req → req.type ∉ validTypes →
      createAchievement newID s uid body = (.error 400 "Invalid achievement type", s)) ∧
    (∀ d ∈ (createAchievement newID s uid body).2.achievements,
      d ∈ s.achievements ∨ d.data.type ∈ validTypes) := by
  constructor
  · intro u req hu hb hty
    subst hu hb
    have hf : isValidType req.type = false := by
      cases hv : isValidType req.type
      · rfl
      · exact absurd ((isValidType_iff req.type).mp hv) hty
    simp [createAchievement, hf]
  · intro d hd
    rcases createAchievement_store newID s uid body with h | ⟨a, hty, _, _, h⟩
    · rw [h] at hd
      exact Or.inl hd
    · rw [h] at hd
      simp only [addDocument, List.mem_append, List.mem_singleton] at hd
      rcases hd with hd | hd
      · exact Or.inl hd
      · rw [hd]
        exact Or.inr hty

theorem createAchievement_rejects_foreign_type_witness :
    "bonus" ∉ validTypes ∧
    createAchievement "A3" storeVerified (some "U1") (some (requestOfType "bonus")) =
      (.error 400 "Invalid achievement type", storeVerified) ∧
    (createAchievement "A3" storeVerified (some "U1") (some (requestOfType "sales"))).1 =
      .ok 201 { id := "A3", decodes := true,
                data := { userID := "U1", campaignID := "C1", type := "sales", value := 5,
                          dateAchieved := "2024-03-01", verified := false,
                          verifiedBy := "" } } :=
  ⟨by decide,
   (createAchievement_rejects_foreign_type "A3" storeVerified (some "U1")
     (some (requestOfType "bonus"))).1 "U1" (requestOfType "bonus") rfl rfl (by decide),
   by decide⟩

/-! ### The status of a campaign -/

theorem mem_updateDoc {α : Type} (id : String) (f : α → α) (docs : List (Doc α))
    (d : Doc α) (h : d ∈ updateDoc id f docs) :
    d ∈ docs ∨ ∃ d0 ∈ docs, d0.id = id ∧ d = { d0 with data := f d0.data } := by
  induction docs with
  | nil => simp [updateDoc] at h
  | cons x xs ih =>
    cases hx : (x.id == id)
    · have hu : updateDoc id f (x :: xs) = x :: updateDoc id f xs := by
        simp [updateDoc, hx]
      rw [hu, List.mem_cons] at h
      rcases h with h | h
      · exact Or.inl (by rw [h]; exact List.mem_cons_self _ _)
      · rcases ih h with h1 | ⟨d0, hd0, hid, hd⟩
        · exact Or.inl (List.mem_cons_of_mem _ h1)
        · exact Or.inr ⟨d0, List.mem_cons_of_mem _ hd0, hid, hd⟩
    · have hu : updateDoc id f (x :: xs) = { x with data := f x.data } :: xs := by
        simp [updateDoc, hx]
      rw [hu, List.mem_cons] at h
      rcases h with h | h
      · exact Or.inr ⟨x, List.mem_cons_self _ _, by simpa using hx, h⟩
      · exact Or.inl (List.mem_cons_of_mem _ h)

theorem applyUpdate_status_of_ne (c : Campaign) (u : FieldUpdate) (h : u.path ≠ "status") :
    (applyUpdate c u).status = c.status := by
  unfold applyUpdate
  split
  · split_ifs <;> rfl
  · rfl

theorem foldl_applyUpdate_status_of_ne (us : List FieldUpdate)
    (h : ∀ u ∈ us, u.path ≠ "status") (c : Campaign) :
    (us.foldl applyUpdate c).status = c.status := by
  induction us generalizing c with
  | nil => rfl
  | cons u us ih =>
    rw [List.foldl_cons, ih (fun v hv => h v (List.mem_cons_of_mem _ hv))]
    exact applyUpdate_status_of_ne c u (h u (List.mem_cons_self _ _))

theorem campaignUpdates_status (req : UpdateCampaignRequest) (c : Campaign) :
    ((campaignUpdates req).foldl applyUpdate c).status =
      if req.status ≠ "" then req.status else c.status := by
  unfold campaignUpdates
  rw [List.foldl_append]
  have hpre : ∀ c : Campaign,
      (List.foldl applyUpdate c
        ([{ path := "updatedAt", value := .now }]
        ++ (if req.name ≠ "" then [{ path := "name", value := .text req.name }] else [])
        ++ (if req.description ≠ "" then
              [{ path := "description", value := .text req.description }] else [])
        ++ (if req.startDate ≠ "" then
              [{ path := "startDate", value := .text req.startDate }] else [])
        ++ (if req.endDate ≠ "" then [{ path := "endDate", value := .text req.endDate }] else [])
        ++ (if req.banner ≠ "" then [{ path := "banner", value := .text req.banner }] else [])
        ++ (if req.type.length > 0 then [{ path := "type", value := .texts req.type }] else [])
        ++ (match req.metrics with
            | some m => [{ path := "metrics", value := .metrics m }]
            | none => [])
        ++ (if req.prizes.length > 0 then
              [{ path := "prizes", value := .prizes req.prizes }] else []))).status =
        c.status := by
    intro c
    apply foldl_applyUpdate_status_of_ne
    intro u hu
    simp only [List.mem_append] at hu
    rcases hu with (((((((hu | hu) | hu) | hu) | hu) | hu) | hu) | hu) | hu
    · simp at hu; rw [hu]; simp
    · split at hu <;> simp at hu; rw [hu]; simp
    · split at hu <;> simp at hu; rw [hu]; simp
    · split at hu <;> simp at hu; rw [hu]; simp
    · split at hu <;> simp at hu; rw [hu]; simp
    · split at hu <;> simp at hu; rw [hu]; simp
    · split at hu <;> simp at hu; rw [hu]; simp
    · split at hu <;> simp at hu; rw [hu]; simp
    · split at hu <;> simp at hu; rw [hu]; simp
  by_cases hs : req.status = ""
  · rw [if_neg (not_not.mpr hs), if_neg (not_not.mpr hs), List.foldl_nil]
    exact hpre c
  · rw [if_pos hs, if_pos hs, List.foldl_cons, List.foldl_nil]
    simp [applyUpdate]

/-- Claim C25, as stated, fails for `updateCampaign`: the creator of the draft
campaign `C1` sends the status `archived`; the handler answers 200 and the
campaign is stored with that status, which is none of `draft`, `active`,
`completed`. -/
theorem updateCampaign_writes_foreign_status :
    "archived" ∉ campaignStatuses ∧
    (∀ d ∈ storeDraft.campaigns, d.data.status ∈ campaignStatuses) ∧
    updateCampaign storeDraft (some "ADM1") "C1" (some (statusRequest "archived")) =
      (.ok 200 (),
       { storeDraft with campaigns := [mkCampaignBy "C1" "O1" "archived" "ADM1" ["U1"]] }) := by
  decide


theorem createCampaign_store (newID : String) (s : Store) (uid : Option String)
    (body : Option CreateCampaignRequest) :
    (createCampaign newID s uid body).2 = s ∨
    ∃ c : Campaign, c.status = "draft" ∧ c.participants = [] ∧
      (createCampaign newID s uid body).2 =
        { s with campaigns := addDocument newID c s.campaigns } := by
  unfold createCampaign
  split
  · exact Or.inl rfl
  · split
    · exact Or.inl rfl
    · split
      · exact Or.inl rfl
      · split
        · exact Or.inl rfl
        · split
          · exact Or.inl rfl
          · split
            · exact Or.inl rfl
            · exact Or.inr ⟨_, rfl, rfl, rfl⟩

theorem updateCampaign_store (s : Store) (uid : Option String) (campaignID : String)
    (body : Option UpdateCampaignRequest) :
    (updateCampaign s uid campaignID body).2 = s ∨
    ∃ req, body = some req ∧ (updateCampaign s uid campaignID body).1 = .ok 200 () ∧
      (updateCampaign s uid campaignID body).2 =
        { s with campaigns :=
            (updateDoc campaignID (fun c => (campaignUpdates req).foldl applyUpdate c)
              s.campaigns) } := by
  unfold updateCampaign
  split
  · exact Or.inl rfl
  · split
    · exact Or.inl rfl
    · split
      · exact Or.inl rfl
      · split
        · exact Or.inl rfl
        · split
          · exact Or.inl rfl
          · split
            · exact Or.inl rfl
            · exact Or.inr ⟨_, rfl, rfl, rfl⟩

/-- Claim C25, amended. Every campaign `createCampaign` adds has status
`draft`. `updateCampaign` stores the status of the request as it is whenever
that status is not empty, and keeps the stored status otherwise; so when all
stored campaigns have a status among `draft`, `active`, `completed`, they
still have one after an `updateCampaign` request whose status is empty or one
of the three. -/
theorem campaign_status_written (newID : String) (s : Store) (uid : Option String)
    (campaignID : String) (createBody : Option CreateCampaignRequest)
    (updateBody : Option UpdateCampaignRequest) :
    (∀ d ∈ (createCampaign newID s uid createBody).2.campaigns,
      d ∈ s.campaigns ∨ d.data.status = "draft") ∧
    (∀ d ∈ (updateCampaign s uid campaignID updateBody).2.campaigns,
      d ∈ s.campaigns ∨
      ∃ req d0, updateBody = some req ∧ d0 ∈ s.campaigns ∧ d0.id = campaignID ∧
        d.data.status = if req.status ≠ "" then req.status else d0.data.status) ∧
    (∀ req, updateBody = some req → (req.status = "" ∨ req.status ∈ campaignStatuses) →
      (∀ d ∈ s.campaigns, d.data.status ∈ campaignStatuses) →
      ∀ d ∈ (updateCampaign s uid campaignID updateBody).2.campaigns,
        d.data.status ∈ campaignStatuses) := by
  have hupd : ∀ d ∈ (updateCampaign s uid campaignID updateBody).2.campaigns,
      d ∈ s.campaigns ∨
      ∃ req d0, updateBody = some req ∧ d0 ∈ s.campaigns ∧ d0.id = campaignID ∧
        d.data.status = if req.status ≠ "" then req.status else d0.data.status := by
    intro d hd
    rcases updateCampaign_store s uid campaignID updateBody with h | ⟨req, hb, _, h⟩
    · rw [h] at hd
      exact Or.inl hd
    · rw [h] at hd
      rcases mem_updateDoc campaignID _ s.campaigns d hd with h1 | ⟨d0, hd0, hid, hdd⟩
      · exact Or.inl h1
      · refine Or.inr ⟨req, d0, hb, hd0, hid, ?_⟩
        rw [hdd]
        exact campaignUpdates_status req d0.data
  refine ⟨?_, hupd, ?_⟩
  · intro d hd
    rcases createCampaign_store newID s uid createBody with h | ⟨c, hst, _, h⟩
    · rw [h] at hd
      exact Or.inl hd
    · rw [h] at hd
      simp only [addDocument, List.mem_append, List.mem_singleton] at hd
      rcases hd with hd | hd
      · exact Or.inl hd
      · rw [hd]
        exact Or.inr hst
  · intro req hb hreq hall d hd
    rcases hupd d hd with h1 | ⟨req', d0, hb', hd0, _, hst⟩
    · exact hall d h1
    · rw [hb] at hb'
      cases hb'
      rw [hst]
      by_cases hs : req.status = ""
      · rw [if_neg (not_not.mpr hs)]
        exact hall d0 hd0
      · rw [if_pos hs]
        rcases hreq with h0 | h0
        · exact absurd h0 hs
        · exact h0

theorem campaign_status_written_witness :
    (statusRequest "active").status ∈ campaignStatuses ∧
    (∀ d ∈ storeDraft.campaigns, d.data.status ∈ campaignStatuses) ∧
    updateCampaign storeDraft (some "ADM1") "C1" (some (statusRequest "active")) =
      (.ok 200 (),
       { storeDraft with campaigns := [mkCampaignBy "C1" "O1" "active" "ADM1" ["U1"]] }) ∧
    (∀ d ∈ (updateCampaign storeDraft (some "ADM1") "C1"
        (some (statusRequest "active"))).2.campaigns, d.data.status ∈ campaignStatuses) :=
  ⟨by decide, by decide, by decide,
   (campaign_status_written "C2" storeDraft (some "ADM1") "C1" (some (campaignRequest "May"))
     (some (statusRequest "active"))).2.2 (statusRequest "active") rfl (Or.inr (by decide))
     (by decide)⟩


/-! ### Joining a campaign -/

theorem nodup_arrayUnion (xs : List String) (v : String) (h : xs.Nodup) :
    (arrayUnion xs v).Nodup := by
  unfold arrayUnion
  split
  · exact h
  · rename_i hv
    rw [List.nodup_append]
    refine ⟨h, List.nodup_singleton v, ?_⟩
    intro a ha hb
    rw [List.mem_singleton] at hb
    exact hv (hb ▸ ha)

theorem any_participant_iff (xs : List String) (uid : String) :
    xs.any (fun participant => participant == uid) = true ↔ uid ∈ xs := by
  rw [List.any_eq_true]
  constructor
  · rintro ⟨x, hx, hxe⟩
    have : x = uid := by simpa using hxe
    rw [← this]
    exact hx
  · intro h
    exact ⟨uid, h, by simp⟩

theorem participateInCampaign_store (s : Store) (uid : Option String) (campaignID : String) :
    (participateInCampaign s uid campaignID).2 = s ∨
    ∃ u c, uid = some u ∧ getCampaignDoc s campaignID = some c ∧ u ∉ c.data.participants ∧
      (participateInCampaign s uid campaignID).1 = .ok 200 () ∧
      (participateInCampaign s uid campaignID).2 =
        { s with campaigns :=
            (updateDoc campaignID
              (fun c => { c with participants := arrayUnion c.participants u })
              s.campaigns) } := by
  unfold participateInCampaign
  split
  · exact Or.inl rfl
  · split
    · exact Or.inl rfl
    · rename_i u
      split
      · exact Or.inl rfl
      · rename_i c hc
        split
        · exact Or.inl rfl
        · split
          · exact Or.inl rfl
          · split
            · exact Or.inl rfl
            · split
              · exact Or.inl rfl
              · split
                · exact Or.inl rfl
                · rename_i hany
                  refine Or.inr ⟨u, c, rfl, hc, ?_, rfl, rfl⟩
                  intro hmem
                  exact hany ((any_participant_iff _ _).mpr hmem)

/-- Claim C26. If no participant list of the store has a duplicate, none has
one after any `participateInCampaign` request. A caller who is already in the
list of the campaign never gets a 200 and the store stays as it was; when the
request reaches the membership test (a campaign that is found and decodes, a
caller record that is found, decodes and is of the organization of the
campaign), the answer for such a caller is 400, and a caller who is not in the
list gets 200 and is appended to it, so that the list holds the caller exactly
once. -/
theorem participateInCampaign_keeps_unique (s : Store) (uid : Option String)
    (campaignID : String) :
    ((∀ d ∈ s.campaigns, d.data.participants.Nodup) →
      ∀ d ∈ (participateInCampaign s uid campaignID).2.campaigns,
        d.data.participants.Nodup) ∧
    (∀ u c, uid = some u → getCampaignDoc s campaignID = some c →
      u ∈ c.data.participants →
      (participateInCampaign s uid campaignID).2 = s ∧
      (participateInCampaign s uid campaignID).1 ≠ .ok 200 ()) ∧
    (∀ u c userDoc, campaignID ≠ "" → uid = some u →
      getCampaignDoc s campaignID = some c → c.decodes = true →
      getUserDoc s u = some userDoc → userDoc.decodes = true →
      userDoc.data.organizationID = c.data.orgID →
      (u ∈ c.data.participants →
        participateInCampaign s uid campaignID =
          (.error 400 "Already participating in campaign", s)) ∧
      (u ∉ c.data.participants →
        (participateInCampaign s uid campaignID).1 = .ok 200 () ∧
        getCampaignDoc (participateInCampaign s uid campaignID).2 campaignID =
          some { c with data := { c.data with participants := c.data.participants ++ [u] } } ∧
        (c.data.participants ++ [u]).count u = 1)) := by
  refine ⟨?_, ?_, ?_⟩
  · intro hall d hd
    rcases participateInCampaign_store s uid campaignID with h | ⟨u, c, _, _, _, _, h⟩
    · rw [h] at hd
      exact hall d hd
    · rw [h] at hd
      rcases mem_updateDoc campaignID _ s.campaigns d hd with h1 | ⟨d0, hd0, _, hdd⟩
      · exact hall d h1
      · rw [hdd]
        exact nodup_arrayUnion _ u (hall d0 hd0)
  · intro u c hu hc hmem
    rcases participateInCampaign_store s uid campaignID with h | ⟨u', c', hu', hc', hnot, _, _⟩
    · refine ⟨h, ?_⟩
      intro hok
      subst hu
      have hany : c.data.participants.any (fun participant => participant == u) = true :=
        (any_participant_iff _ _).mpr hmem
      unfold participateInCampaign at hok
      rw [hc] at hok
      simp only [hany] at hok
      split at hok
      · cases hok
      · split at hok
        · cases hok
        · split at hok
          · cases hok
          · split at hok
            · cases hok
            · split at hok
              · cases hok
              · simp at hok
    · rw [hu] at hu'
      cases hu'
      rw [hc] at hc'
      cases hc'
      exact absurd hmem hnot
  · intro u c userDoc hid hu hc hcd hud hudd horg
    subst hu
    constructor
    · intro hmem
      have hany : c.data.participants.any (fun participant => participant == u) = true :=
        (any_participant_iff _ _).mpr hmem
      simp [participateInCampaign, hid, hc, hcd, hud, hudd, horg, hany]
    · intro hnot
      have hany : c.data.participants.any (fun participant => participant == u) = false := by
        cases h : c.data.participants.any (fun participant => participant == u)
        · rfl
        · exact absurd ((any_participant_iff _ _).mp h) hnot
      have hv : participateInCampaign s (some u) campaignID =
          (.ok 200 (),
           { s with campaigns :=
               (updateDoc campaignID
                 (fun c => { c with participants := arrayUnion c.participants u })
                 s.campaigns) }) := by
        simp [participateInCampaign, hid, hc, hcd, hud, hudd, horg, hany]
      rw [hv]
      refine ⟨rfl, ?_, ?_⟩
      · refine (find_updateDoc campaignID
          (fun c : Campaign => { c with participants := arrayUnion c.participants u })
          s.campaigns c hc).trans ?_
        simp [arrayUnion, hnot]
      · rw [List.count_append, List.count_eq_zero_of_not_mem hnot]
        simp

theorem participateInCampaign_keeps_unique_witness :
    (∀ d ∈ storeDraft.campaigns, d.data.participants.Nodup) ∧
    (∀ d ∈ (participateInCampaign storeDraft (some "U2") "C1").2.campaigns,
      d.data.participants.Nodup) ∧
    participateInCampaign storeDraft (some "U2") "C1" =
      (.ok 200 (),
       { storeDraft with campaigns := [mkCampaignBy "C1" "O1" "draft" "ADM1" ["U1", "U2"]] }) ∧
    participateInCampaign storeDraft (some "U1") "C1" =
      (.error 400 "Already participating in campaign", storeDraft) :=
  ⟨by decide,
   (participateInCampaign_keeps_unique storeDraft (some "U2") "C1").1 (by decide),
   by decide, by decide⟩


/-! ### Registering a user -/

/-- Claim C28. Every route on which `setupRoutes` registers
`createOrUpdateUser` is without the middleware, so the handler finds no uid in
the context: whatever the Authorization header and the token service, a
request whose body binds is answered 401 and the store stays as it was. -/
theorem createOrUpdateUser_always_401 (route : Route) (hroute : route ∈ setupRoutes)
    (hhandler : route.handler = .createOrUpdateUser)
    (verifyIDToken : String → Option String) (authHeader : String) (s : Store)
    (req : CreateUserRequest) :
    route.middleware = false ∧
    contextUID route verifyIDToken authHeader = .ok none ∧
    serveCreateOrUpdateUser route verifyIDToken authHeader s (some req) =
      (.error 401 "User not authenticated", s) := by
  have hm : route.middleware = false := by
    have hall : ∀ r ∈ setupRoutes, r.handler = .createOrUpdateUser → r.middleware = false := by
      decide
    exact hall route hroute hhandler
  have hctx : contextUID route verifyIDToken authHeader = .ok none := by
    simp [contextUID, hm]
  refine ⟨hm, hctx, ?_⟩
  simp [serveCreateOrUpdateUser, hctx, createOrUpdateUser]

theorem createOrUpdateUser_always_401_witness :
    authUserRoute ∈ setupRoutes ∧
    (authMiddleware verifyT1 "Bearer T1").toOption = some "U1" ∧
    serveCreateOrUpdateUser authUserRoute verifyT1 "Bearer T1" storeDraft (some userRequest) =
      (.error 401 "User not authenticated", storeDraft) :=
  ⟨by decide, by decide,
   (createOrUpdateUser_always_401 authUserRoute (by decide) rfl verifyT1 "Bearer T1"
     storeDraft userRequest).2.2⟩

end F2P
